import Mathlib

/-!
Verification of the QtHEP disc-data `Titles`/`Title` aggregate.

This file is a shallow embedding, in Lean 4, of the Python classes in
`Titles.py` (with the parts of `Chapters.py`, `AudioTracks.py`,
`SubtitleTracks.py` and `Helpers.py` they depend on), together with theorems
settling the specification's claims about them.

Modelling conventions:
* Python `int` is `Int`; Python strings are `String`; Python `float` fields
  that are only ever formatted into hash strings (`displayAspectRatio`,
  `framesPerSecond`) are carried as their formatted string representation.
* Python objects are mutable and aliased (the same `Title` object is shared
  between the backing list and the three indices), so the collection state
  carries an object heap keyed by Python object ids (`oid`), and the list and
  indices store `oid`s.
* Python `dict` is an association list with unique keys (`Dict` below);
  `d[k] = v`, `d.pop(k)`, `k in d.keys()` and `sorted(d.keys())` are embedded
  by `Dict.set`, `Dict.pop`, `Dict.contains` and an insertion sort.
* Code that can raise (`assert`, `KeyError`, `IndexError`, `ValueError`,
  attribute access on `None`) is embedded in `Except String`.
-/

/-- Dictionary modelled as an association list, mirroring a Python `dict`
restricted to the operations the source uses. Key uniqueness is maintained by
the operations (`set` replaces in place) and assumed via hypotheses where
proofs need it. -/
structure Dict (α β : Type) where
  entries : List (α × β)
deriving Repr, DecidableEq

/-- Lookup on association-list entries (first entry with the key). -/
def lookupList {α β : Type} [DecidableEq α] : List (α × β) → α → Option β
  | [], _ => none
  | e :: rest, k => if e.1 = k then some e.2 else lookupList rest k

/-- Python `d[k] = v` on entries: replace the (unique) entry in place when
the key exists, else append at the end. -/
def setList {α β : Type} [DecidableEq α] : List (α × β) → α → β → List (α × β)
  | [], k, v => [(k, v)]
  | e :: rest, k, v => if e.1 = k then (k, v) :: rest else e :: setList rest k v

/-- Python `d.pop(k)` on entries: remove the (unique) entry with the key. -/
def popList {α β : Type} [DecidableEq α] : List (α × β) → α → Option (β × List (α × β))
  | [], _ => none
  | e :: rest, k =>
      if e.1 = k then some (e.2, rest)
      else (popList rest k).map (fun p => (p.1, e :: p.2))

namespace Dict

variable {α β : Type} [DecidableEq α]

/-- Python `d[k]` as an optional lookup. -/
def lookup (d : Dict α β) (k : α) : Option β :=
  lookupList d.entries k

/-- Python `k in d.keys()`. -/
def contains (d : Dict α β) (k : α) : Bool :=
  (d.lookup k).isSome

/-- Python `d[k] = v`. -/
def set (d : Dict α β) (k : α) (v : β) : Dict α β :=
  ⟨setList d.entries k v⟩

/-- Python `d.pop(k)`: `none` models the `KeyError` raised on a missing key. -/
def pop (d : Dict α β) (k : α) : Option (β × Dict α β) :=
  (popList d.entries k).map (fun p => (p.1, ⟨p.2⟩))

/-- Python `d.keys()` (as a list, in entry order). -/
def keys (d : Dict α β) : List α :=
  d.entries.map Prod.fst

/-- The empty dictionary. -/
def empty : Dict α β := ⟨[]⟩

end Dict

/-- Python `sorted(d.keys())` for an integer-keyed dictionary. -/
def sortedIntKeys {β : Type} (d : Dict Int β) : List Int :=
  List.insertionSort (fun a b => a ≤ b) d.keys

/-- Value of a nonempty digit string. -/
def digitsToNat (l : List Char) : Nat :=
  l.foldl (fun acc c => acc * 10 + (c.toNat - 48)) 0

/-- Python `str.split(sep)` on a character list: split at every separator
occurrence, keeping empty pieces. -/
def splitOnChar (sep : Char) : List Char → List (List Char)
  | [] => [[]]
  | c :: rest =>
      match splitOnChar sep rest with
      | [] => [[]]
      | g :: gs => if c = sep then [] :: g :: gs else (c :: g) :: gs

/-- Strip surrounding whitespace from a character list (Python `int(s)`
ignores surrounding whitespace). -/
def trimChars (l : List Char) : List Char :=
  ((l.dropWhile Char.isWhitespace).reverse.dropWhile Char.isWhitespace).reverse

/-- Python `int(s)` on the characters of a string: strips surrounding
whitespace, accepts an optional sign followed by digits, raises `ValueError`
otherwise. -/
def pyIntChars (s : List Char) : Except String Int :=
  match trimChars s with
  | [] => Except.error "ValueError: invalid literal for int()"
  | '-' :: rest =>
      if rest ≠ [] ∧ rest.all Char.isDigit then Except.ok (-(digitsToNat rest : Int))
      else Except.error "ValueError: invalid literal for int()"
  | '+' :: rest =>
      if rest ≠ [] ∧ rest.all Char.isDigit then Except.ok (digitsToNat rest : Int)
      else Except.error "ValueError: invalid literal for int()"
  | l =>
      if l.all Char.isDigit then Except.ok (digitsToNat l : Int)
      else Except.error "ValueError: invalid literal for int()"

/-- Python `lst[i]` on a list, raising `IndexError` when out of range
(only used with non-negative indices in the embedded code). -/
def pyListGet {α : Type} (l : List α) (i : Nat) : Except String α :=
  match l.get? i with
  | some a => Except.ok a
  | none => Except.error "IndexError: list index out of range"

/-- Helpers.DurationAsTimedelta: convert an `HH:MM:SS` string to a
`datetime.timedelta`, embedded as its total number of seconds. Mirrors
`bits = duration.split(':')` followed by `int(bits[0]) .. int(bits[2])`;
missing pieces raise `IndexError`, malformed pieces raise `ValueError`. -/
def DurationAsTimedelta (duration : String) : Except String Int := do
  let bits := splitOnChar ':' duration.data
  let b0 ← pyListGet bits 0
  let h ← pyIntChars b0
  let b1 ← pyListGet bits 1
  let m ← pyIntChars b1
  let b2 ← pyListGet bits 2
  let s ← pyIntChars b2
  pure (h * 3600 + m * 60 + s)

/-- Python `'{}'.format(x)` for an optional string (Python `None` prints as
`"None"`). -/
def pyFormatOptStr : Option String → String
  | none => "None"
  | some s => s

/-- Python `'{}'.format(x)` for an optional integer. -/
def pyFormatOptInt : Option Int → String
  | none => "None"
  | some n => toString n

/-- Chapter (Chapters.py): the fields read by the embedded operations.
`duration` and `title` are carried but never hashed. -/
structure Chapter where
  chapterNumber : Int
  cellsFirst : Int
  cellsLast : Int
  blocks : Int
  duration : String
  title : String
deriving Repr, DecidableEq

/-- Chapter.hashString: `'Chapter Number: {}, First Cell: {}, Last Cell: {},
Blocks: {}'` — duration is deliberately omitted by the source. -/
def Chapter.hashString (c : Chapter) : String :=
  "Chapter Number: " ++ toString c.chapterNumber ++
  ", First Cell: " ++ toString c.cellsFirst ++
  ", Last Cell: " ++ toString c.cellsLast ++
  ", Blocks: " ++ toString c.blocks

/-- AudioTrack (AudioTracks.py). The Python `language` and `channels`
attributes are properties computed by regular-expression search over the
`description` field; they are embedded as the value those pure functions
return (`none` models Python `None`). -/
structure AudioTrack where
  trackNumber : Int
  hertz : Int
  bitsPerSecond : Int
  language : Option String
  channels : Option Int
deriving Repr, DecidableEq

/-- AudioTrack.hashString: `'Audio Track: {}, Hertz: {}, Bits Per Second: {},
Language: {}, Channels: {}'` — the `description` field is deliberately
omitted by the source. -/
def AudioTrack.hashString (a : AudioTrack) : String :=
  "Audio Track: " ++ toString a.trackNumber ++
  ", Hertz: " ++ toString a.hertz ++
  ", Bits Per Second: " ++ toString a.bitsPerSecond ++
  ", Language: " ++ pyFormatOptStr a.language ++
  ", Channels: " ++ pyFormatOptInt a.channels

/-- SubtitleTrack (SubtitleTracks.py); `language` is the regex-derived
property, embedded as its value. -/
structure SubtitleTrack where
  trackNumber : Int
  language : Option String
deriving Repr, DecidableEq

/-- SubtitleTrack.hashString: `'Subtitle Track: {}, Language: {}'`. -/
def SubtitleTrack.hashString (st : SubtitleTrack) : String :=
  "Subtitle Track: " ++ toString st.trackNumber ++
  ", Language: " ++ pyFormatOptStr st.language

/-- TitleVisibleSingleton (Titles.py): the visibility policy read by
`Title.RefreshVisible` — `minimumTitleSeconds` from the preferences and the
`hideShortTitles` checkbox. Embedded as an explicit parameter instead of a
process-wide singleton. -/
structure TitleVisibleSingleton where
  minimumTitleSeconds : Int
  hideShortTitles : Bool
deriving Repr, DecidableEq

/-- Title (Titles.py): one DVD/BluRay title. `oid` models the Python object
id; `displayAspectRatio` and `framesPerSecond` are carried as the string the
Python float formats to (they are only ever formatted into the hash). -/
structure Title where
  oid : Nat
  titleNumber : Int
  vts : Int
  ttn : Int
  cellsFirst : Int
  cellsLast : Int
  blocks : Int
  duration : String
  width : Int
  height : Int
  pixelAspectRatio : String
  displayAspectRatio : String
  framesPerSecond : String
  title : String
  selected : Bool
  visible : Bool
  orderNumber : Int
  chapters : List Chapter
  audioTracks : List AudioTrack
  subtitleTracks : List SubtitleTrack
deriving Repr, DecidableEq

/-- Title.durationAsTimedelta property. -/
def Title.durationAsTimedelta (t : Title) : Except String Int :=
  DurationAsTimedelta t.duration

/-- Title.hashString: `'TitleNumber: {}, VTS: {}, TTN: {}, First Cell: {},
Last Cell: {}, Blocks: {}, Width: {}, Height: {}, Pixel Aspect Ratio {},
Display Aspect Ratio {}, Frames Per Second {}'` — duration is deliberately
omitted by the source ("it seems to be a calculated field subject to
rounding errors"). -/
def Title.hashString (t : Title) : String :=
  "TitleNumber: " ++ toString t.titleNumber ++
  ", VTS: " ++ toString t.vts ++
  ", TTN: " ++ toString t.ttn ++
  ", First Cell: " ++ toString t.cellsFirst ++
  ", Last Cell: " ++ toString t.cellsLast ++
  ", Blocks: " ++ toString t.blocks ++
  ", Width: " ++ toString t.width ++
  ", Height: " ++ toString t.height ++
  ", Pixel Aspect Ratio " ++ t.pixelAspectRatio ++
  ", Display Aspect Ratio " ++ t.displayAspectRatio ++
  ", Frames Per Second " ++ t.framesPerSecond

/-- Title.UpdateHash: the byte string this title contributes to the SHA-256
hash — `hashString`, then the `'Audio Track Count: {}, Subtitle Track Count:
{}, Chapter Count: {}'` line, then every audio track, subtitle track and
chapter hash string, concatenated in `hash.update` call order. -/
def Title.updateHashString (t : Title) : String :=
  t.hashString ++
  ("Audio Track Count: " ++ toString t.audioTracks.length ++
   ", Subtitle Track Count: " ++ toString t.subtitleTracks.length ++
   ", Chapter Count: " ++ toString t.chapters.length) ++
  String.join (t.audioTracks.map AudioTrack.hashString) ++
  String.join (t.subtitleTracks.map SubtitleTrack.hashString) ++
  String.join (t.chapters.map Chapter.hashString)

/-- Title.RefreshVisible: set `visible := True`, then clear it when the
hide-short-titles policy is on, the duration is a non-empty string, and the
duration is at most `minimumTitleSeconds`. Raises (through `Except`) when the
policy requires parsing a malformed duration, exactly as the Python would. -/
def Title.RefreshVisible (cfg : TitleVisibleSingleton) (t : Title) :
    Except String Title :=
  if cfg.hideShortTitles = true ∧ t.duration ≠ "" then do
    let d ← DurationAsTimedelta t.duration
    if d ≤ cfg.minimumTitleSeconds then
      pure { t with visible := false }
    else
      pure { t with visible := true }
  else
    pure { t with visible := true }

/-- Lift an `Option` into `Except`, the `none` case raising the given
Python exception. -/
def exceptOfOption {α : Type} (o : Option α) (msg : String) : Except String α :=
  match o with
  | some a => Except.ok a
  | none => Except.error msg

/-- Python `lst.insert(idx, a)` for a non-negative index: clamps an index
past the end to an append. -/
def pyListInsert {α : Type} (l : List α) (idx : Nat) (a : α) : List α :=
  if l.length ≤ idx then l ++ [a] else l.insertIdx idx a

/-- Titles (Titles.py): the ordered collection of `Title` objects with its
three indices. `heap` holds the shared mutable `Title` objects keyed by
object id; `titles` and the three index dictionaries store object ids, so
aliasing between the list and the indices behaves as in Python. -/
structure Titles where
  heap : Dict Nat Title
  titles : List Nat
  titlesById : Dict Nat Nat
  titlesByTitleNumber : Dict Int Nat
  titlesByOrderNumber : Dict Int Nat
deriving Repr, DecidableEq

/-- Titles.FLAG_SELECTED bit. -/
def Titles.FLAG_SELECTED : Nat := 1

/-- Titles.FLAG_VISIBLE bit. -/
def Titles.FLAG_VISIBLE : Nat := 2

/-- Empty Titles collection (the state after `__init__`/`clear`). -/
def Titles.empty : Titles :=
  ⟨Dict.empty, [], Dict.empty, Dict.empty, Dict.empty⟩

/-- Dereference an object id in the heap (attribute access on the object). -/
def Titles.getTitleE (s : Titles) (oid : Nat) : Except String Title :=
  exceptOfOption (s.heap.lookup oid) "dangling object id"

/-- Titles.HasTitles. -/
def Titles.HasTitles (s : Titles) : Bool :=
  decide (0 < s.titles.length)

/-- Titles.insert (MutableSequence hook): insert the object into the backing
list and add it to all three indices. The source validates only
`isinstance(obj, Title)` — there is no title-number check here. -/
def Titles.insert (s : Titles) (idx : Nat) (t : Title) : Titles :=
  { heap := s.heap.set t.oid t
    titles := pyListInsert s.titles idx t.oid
    titlesById := s.titlesById.set t.oid t.oid
    titlesByTitleNumber := s.titlesByTitleNumber.set t.titleNumber t.oid
    titlesByOrderNumber := s.titlesByOrderNumber.set t.orderNumber t.oid }

/-- Python `self.append(obj)` = `insert(len(self), obj)`. -/
def Titles.append (s : Titles) (t : Title) : Titles :=
  s.insert s.titles.length t

/-- Titles.__setitem__: pop the old object's entries from all three indices,
replace the list slot, then index the new object. -/
def Titles.setitem (s : Titles) (idx : Nat) (t : Title) : Except String Titles := do
  let oldOid ← pyListGet s.titles idx
  let old ← s.getTitleE oldOid
  let (_, byId) ← exceptOfOption (s.titlesById.pop oldOid) "KeyError"
  let (_, byTN) ← exceptOfOption (s.titlesByTitleNumber.pop old.titleNumber) "KeyError"
  let (_, byON) ← exceptOfOption (s.titlesByOrderNumber.pop old.orderNumber) "KeyError"
  pure { heap := s.heap.set t.oid t
         titles := s.titles.set idx t.oid
         titlesById := byId.set t.oid t.oid
         titlesByTitleNumber := byTN.set t.titleNumber t.oid
         titlesByOrderNumber := byON.set t.orderNumber t.oid }

/-- Titles.__delitem__: pop the object's entries from all three indices,
then delete the list slot. -/
def Titles.delitem (s : Titles) (idx : Nat) : Except String Titles := do
  let oldOid ← pyListGet s.titles idx
  let old ← s.getTitleE oldOid
  let (_, byId) ← exceptOfOption (s.titlesById.pop oldOid) "KeyError"
  let (_, byTN) ← exceptOfOption (s.titlesByTitleNumber.pop old.titleNumber) "KeyError"
  let (_, byON) ← exceptOfOption (s.titlesByOrderNumber.pop old.orderNumber) "KeyError"
  pure { s with titles := s.titles.eraseIdx idx
                titlesById := byId
                titlesByTitleNumber := byTN
                titlesByOrderNumber := byON }

/-- Titles.GetById: `assert (objectId in self.titlesById.keys())`, then the
lookup — a miss raises an `AssertionError`. -/
def Titles.GetById (s : Titles) (objectId : Nat) : Except String Nat :=
  exceptOfOption (s.titlesById.lookup objectId) "AssertionError: GetById"

/-- Titles.GetByTitleNumber: a total lookup returning `None` on a missing
title number — it never raises. -/
def Titles.GetByTitleNumber (s : Titles) (titleNumber : Int) : Option Nat :=
  s.titlesByTitleNumber.lookup titleNumber

/-- Titles.GetByOrderNumber: a total lookup returning `None` on a missing
order number — it never raises. -/
def Titles.GetByOrderNumber (s : Titles) (orderNumber : Int) : Option Nat :=
  s.titlesByOrderNumber.lookup orderNumber

/-- Result of Titles.GetMatchingTitles (the `MatchingTitles` namedtuple),
holding object ids. In the source `longestTitle` is always a title object
(never `None`), so it is not optional here. -/
structure MatchingTitles where
  matchingTitles : List Nat
  longestMatchingTitle : Option Nat
  defaultTitle : Option Nat
  longestTitle : Nat
deriving Repr, DecidableEq

/-- Loop state of the first pass of Titles.GetMatchingTitles. -/
structure GMTState where
  firstSelectedVisibleTitle : Option Nat
  firstSelectedTitle : Option Nat
  firstVisibleTitle : Option Nat
  longestTitle : Nat
  longestTitleLength : Int
  matchingTitles : List Nat
deriving Repr, DecidableEq

/-- One iteration of the first pass of Titles.GetMatchingTitles, visiting the
title stored under one order-number key: update the three first-seen
trackers, the overall longest title (strictly greater duration replaces),
and append the title to `matchingTitles` unless a requested filter rejects
it. -/
def Titles.gmtStep (s : Titles) (wantSelected wantVisible : Bool)
    (acc : GMTState) (key : Int) : Except String GMTState := do
  let oid ← exceptOfOption (s.titlesByOrderNumber.lookup key) "KeyError"
  let title ← s.getTitleE oid
  let acc := { acc with
    firstSelectedVisibleTitle :=
      if title.selected = true ∧ title.visible = true ∧
          acc.firstSelectedVisibleTitle = none then some oid
      else acc.firstSelectedVisibleTitle
    firstSelectedTitle :=
      if title.selected = true ∧ acc.firstSelectedTitle = none then some oid
      else acc.firstSelectedTitle
    firstVisibleTitle :=
      if title.visible = true ∧ acc.firstVisibleTitle = none then some oid
      else acc.firstVisibleTitle }
  let titleLength ← title.durationAsTimedelta
  let acc :=
    if acc.longestTitleLength < titleLength then
      { acc with longestTitle := oid, longestTitleLength := titleLength }
    else acc
  if wantSelected && !title.selected then pure acc
  else if wantVisible && !title.visible then pure acc
  else pure { acc with matchingTitles := acc.matchingTitles ++ [oid] }

/-- Titles.GetMatchingTitles. Embeds the source faithfully, including its
defect: in the second pass the comparison length
(`longestMatchingTitleLength`) is initialised from the *overall* longest
title and never updated inside the loop (the source assigns a duration to
`longestMatchingTitle` and immediately overwrites it with the title, so the
net loop effect is to move the candidate when a duration exceeds the fixed
overall maximum — which no duration in the list can). -/
def Titles.GetMatchingTitles (s : Titles) (flags : Nat) :
    Except String MatchingTitles := do
  if s.HasTitles = false then Except.error "AssertionError: HasTitles" else
  let wantSelected := decide (flags &&& Titles.FLAG_SELECTED ≠ 0)
  let wantVisible := decide (flags &&& Titles.FLAG_VISIBLE ≠ 0)
  let firstOid ← pyListGet s.titles 0
  let first ← s.getTitleE firstOid
  let firstLen ← first.durationAsTimedelta
  let init : GMTState := ⟨none, none, none, firstOid, firstLen, []⟩
  let res ← (sortedIntKeys s.titlesByOrderNumber).foldlM
    (s.gmtStep wantSelected wantVisible) init
  if res.matchingTitles.length ≠ 0 then do
    let cand0 ← pyListGet res.matchingTitles 0
    let lt ← s.getTitleE res.longestTitle
    let longestMatchingTitleLength ← lt.durationAsTimedelta
    let cand ← res.matchingTitles.foldlM (fun cand oid => do
        let t ← s.getTitleE oid
        let len ← t.durationAsTimedelta
        pure (if longestMatchingTitleLength < len then oid else cand)) cand0
    pure ⟨res.matchingTitles, some cand, none, res.longestTitle⟩
  else do
    let dflt ← match res.firstSelectedVisibleTitle with
      | some x => pure x
      | none => match res.firstSelectedTitle with
        | some x => pure x
        | none => match res.firstVisibleTitle with
          | some x => pure x
          | none => pyListGet s.titles 0
    pure ⟨res.matchingTitles, none, some dflt, res.longestTitle⟩

/-- One iteration of the Titles.SetNaturalTitleOrder loop: look the title up
by title number, assign it the running order number (mutating the shared
object) and index it, then advance the counter. -/
def sntoStep (p : Titles × Int) (tn : Int) : Except String (Titles × Int) :=
  match p.1.GetByTitleNumber tn with
  | none => Except.error "AttributeError: NoneType has no attribute orderNumber"
  | some oid => do
      let t ← p.1.getTitleE oid
      pure ({ p.1 with
               heap := p.1.heap.set oid { t with orderNumber := p.2 }
               titlesByOrderNumber := p.1.titlesByOrderNumber.set p.2 oid },
            p.2 + 1)

/-- Titles.SetNaturalTitleOrder: clear the order-number index, then walk
the title numbers in ascending order assigning order numbers 0, 1, 2, …
(mutating each shared title object) and rebuilding the index. -/
def Titles.SetNaturalTitleOrder (s : Titles) : Except String Titles := do
  let r ← (sortedIntKeys s.titlesByTitleNumber).foldlM sntoStep
    ({ s with titlesByOrderNumber := (Dict.empty : Dict Int Nat) }, (0 : Int))
  pure r.1

/-- Loop of Titles.MoveUp: Python `for i in range(orderNumber, 0, -1)`,
called with the current `i` (as `Nat.succ j` for `i = j + 1`). Each step
reads the neighbour at `i - 1`, gives it order number `i` (mutating the
shared object and the index), and stops when that neighbour is visible,
returning the final loop variable `i`. -/
def Titles.MoveUpLoop (s : Titles) : Nat → Except String (Titles × Nat)
  | 0 => pure (s, 1)
  | Nat.succ j => do
      let swapOid ← exceptOfOption (s.GetByOrderNumber (j : Int))
        "AttributeError: NoneType has no attribute orderNumber"
      let swap ← s.getTitleE swapOid
      let s' := { s with
        heap := s.heap.set swapOid { swap with orderNumber := (j : Int) + 1 }
        titlesByOrderNumber := s.titlesByOrderNumber.set ((j : Int) + 1) swapOid }
      if swap.visible then pure (s', j + 1)
      else Titles.MoveUpLoop s' j

/-- Titles.MoveUp: no-op when the title's order number is 0; otherwise bubble
the neighbours below it down past it until a visible neighbour has been
passed, then drop the title into the freed slot `i - 1`. A negative order
number would leave the Python loop variable unbound (`NameError`). -/
def Titles.MoveUp (s : Titles) (oid : Nat) : Except String Titles := do
  let t ← s.getTitleE oid
  let ord := t.orderNumber
  if ord = 0 then pure s
  else if ord < 0 then Except.error "NameError: name i is not defined"
  else do
    let (s', i) ← Titles.MoveUpLoop s ord.toNat
    let t' ← s'.getTitleE oid
    pure { s' with
      heap := s'.heap.set oid { t' with orderNumber := (i : Int) - 1 }
      titlesByOrderNumber := s'.titlesByOrderNumber.set ((i : Int) - 1) oid }

/-- Loop of Titles.MoveDown: Python `for i in range(orderNumber,
lastOrderNumber)`, called with the current `i` and the number of remaining
iterations as fuel. Each step reads the neighbour at `i + 1`, gives it order
number `i`, and stops when that neighbour is visible, returning the final
loop variable `i` (on normal exhaustion the last executed index is `i - 1`). -/
def Titles.MoveDownLoop (s : Titles) (i : Int) : Nat → Except String (Titles × Int)
  | 0 => pure (s, i - 1)
  | Nat.succ f => do
      let swapOid ← exceptOfOption (s.GetByOrderNumber (i + 1))
        "AttributeError: NoneType has no attribute orderNumber"
      let swap ← s.getTitleE swapOid
      let s' := { s with
        heap := s.heap.set swapOid { swap with orderNumber := i }
        titlesByOrderNumber := s.titlesByOrderNumber.set i swapOid }
      if swap.visible then pure (s', i)
      else Titles.MoveDownLoop s' (i + 1) f

/-- Titles.MoveDown: the boundary test compares the title's order number with
`self.titles[-1].orderNumber` — the order number of the *last title of the
backing sequence*, not the maximum order number. When they are equal it
returns silently; otherwise it bubbles the neighbours above the title up
past it until a visible neighbour has been passed, then drops the title into
slot `i + 1`. An empty collection raises `IndexError` on `titles[-1]`; an
order number above the last title's would leave the loop variable unbound. -/
def Titles.MoveDown (s : Titles) (oid : Nat) : Except String Titles := do
  let t ← s.getTitleE oid
  let ord := t.orderNumber
  let lastOid ← exceptOfOption s.titles.getLast? "IndexError: list index out of range"
  let lastT ← s.getTitleE lastOid
  let lastOrderNumber := lastT.orderNumber
  if ord = lastOrderNumber then pure s
  else if lastOrderNumber < ord then Except.error "NameError: name i is not defined"
  else do
    let (s', i) ← Titles.MoveDownLoop s ord (lastOrderNumber - ord).toNat
    let t' ← s'.getTitleE oid
    pure { s' with
      heap := s'.heap.set oid { t' with orderNumber := i + 1 }
      titlesByOrderNumber := s'.titlesByOrderNumber.set (i + 1) oid }

/-- Chapters (Chapters.py): the chapter collection of one title, with its
chapter-number index and cached lowest/highest chapter numbers. -/
structure Chapters where
  processChoice : String
  chapters : List Chapter
  chaptersByChapterNumber : Dict Int Chapter
  firstChapterNumber : Int
  lowestChapterNumber : Int
  highestChapterNumber : Int
deriving Repr, DecidableEq

/-- Chapters._updateLowestHighestChapterNumbers: raises a `RuntimeError` when
the chapter number is less than one, otherwise folds it into the cached
lowest/highest values (Python truthiness: a cached value of 0 counts as
unset). -/
def Chapters.updateLowestHighestChapterNumbers (cs : Chapters) (c : Chapter) :
    Except String Chapters :=
  if c.chapterNumber < 1 then
    Except.error "RuntimeError: A chapter number of less than one was encountered."
  else
    let lo :=
      if cs.lowestChapterNumber = 0 then c.chapterNumber
      else if c.chapterNumber < cs.lowestChapterNumber then c.chapterNumber
      else cs.lowestChapterNumber
    let hi :=
      if cs.highestChapterNumber = 0 then c.chapterNumber
      else if cs.highestChapterNumber < c.chapterNumber then c.chapterNumber
      else cs.highestChapterNumber
    Except.ok { cs with lowestChapterNumber := lo, highestChapterNumber := hi }

/-- Chapters._refreshLowestHighestChapterNumbers: recompute the cache from
scratch over the whole list (raising on any chapter number below one). -/
def Chapters.refreshLowestHighestChapterNumbers (cs : Chapters) :
    Except String Chapters :=
  cs.chapters.foldlM Chapters.updateLowestHighestChapterNumbers
    { cs with lowestChapterNumber := 0, highestChapterNumber := 0 }

/-- Chapters.insert (MutableSequence hook): insert into the backing list and
the chapter-number index, then update the cached bounds — which raises a
`RuntimeError` when the inserted chapter's number is below one. -/
def Chapters.insert (cs : Chapters) (idx : Nat) (c : Chapter) :
    Except String Chapters :=
  Chapters.updateLowestHighestChapterNumbers
    { cs with chapters := pyListInsert cs.chapters idx c
              chaptersByChapterNumber := cs.chaptersByChapterNumber.set c.chapterNumber c }
    c

/-- Chapters.__setitem__: pop the replaced chapter's index entry, replace the
slot, index the new chapter, then refresh the cached bounds (raising when any
remaining chapter number is below one). -/
def Chapters.setitem (cs : Chapters) (idx : Nat) (c : Chapter) :
    Except String Chapters := do
  let old ← pyListGet cs.chapters idx
  let (_, byNum) ← exceptOfOption (cs.chaptersByChapterNumber.pop old.chapterNumber) "KeyError"
  Chapters.refreshLowestHighestChapterNumbers
    { cs with chapters := cs.chapters.set idx c
              chaptersByChapterNumber := byNum.set c.chapterNumber c }

/-- Chapters.__delitem__: pop the chapter's index entry, delete the slot,
then refresh the cached bounds. -/
def Chapters.delitem (cs : Chapters) (idx : Nat) : Except String Chapters := do
  let old ← pyListGet cs.chapters idx
  let (_, byNum) ← exceptOfOption (cs.chaptersByChapterNumber.pop old.chapterNumber) "KeyError"
  Chapters.refreshLowestHighestChapterNumbers
    { cs with chapters := cs.chapters.eraseIdx idx
              chaptersByChapterNumber := byNum }

/-- Reduce modulo 2^32 (all SHA-256 word arithmetic is 32-bit). -/
def mod32 (x : Nat) : Nat := x % 4294967296

/-- Rotate a 32-bit word right by `n`. -/
def rotr32 (n x : Nat) : Nat := mod32 ((x >>> n) ||| (x <<< (32 - n)))

/-- SHA-256 big sigma 0. -/
def bSig0 (x : Nat) : Nat := rotr32 2 x ^^^ rotr32 13 x ^^^ rotr32 22 x

/-- SHA-256 big sigma 1. -/
def bSig1 (x : Nat) : Nat := rotr32 6 x ^^^ rotr32 11 x ^^^ rotr32 25 x

/-- SHA-256 small sigma 0. -/
def sSig0 (x : Nat) : Nat := rotr32 7 x ^^^ rotr32 18 x ^^^ (x >>> 3)

/-- SHA-256 small sigma 1. -/
def sSig1 (x : Nat) : Nat := rotr32 17 x ^^^ rotr32 19 x ^^^ (x >>> 10)

/-- SHA-256 choose function (32-bit complement via xor with all-ones). -/
def shaCh (x y z : Nat) : Nat := (x &&& y) ^^^ ((x ^^^ 4294967295) &&& z)

/-- SHA-256 majority function. -/
def shaMaj (x y z : Nat) : Nat := (x &&& y) ^^^ (x &&& z) ^^^ (y &&& z)

/-- SHA-256 round constants. -/
def sha256K : List Nat :=
  [1116352408, 1899447441, 3049323471, 3921009573, 961987163, 1508970993, 2453635748, 2870763221,
   3624381080, 310598401, 607225278, 1426881987, 1925078388, 2162078206, 2614888103, 3248222580,
   3835390401, 4022224774, 264347078, 604807628, 770255983, 1249150122, 1555081692, 1996064986,
   2554220882, 2821834349, 2952996808, 3210313671, 3336571891, 3584528711, 113926993, 338241895,
   666307205, 773529912, 1294757372, 1396182291, 1695183700, 1986661051, 2177026350, 2456956037,
   2730485921, 2820302411, 3259730800, 3345764771, 3516065817, 3600352804, 4094571909, 275423344,
   430227734, 506948616, 659060556, 883997877, 958139571, 1322822218, 1537002063, 1747873779,
   1955562222, 2024104815, 2227730452, 2361852424, 2428436474, 2756734187, 3204031479, 3329325298]

/-- SHA-256 initial hash value. -/
def sha256H0 : List Nat :=
  [1779033703, 3144134277, 1013904242, 2773480762, 1359893119, 2600822924, 528734635, 1541459225]

/-- Big-endian 8-byte encoding of a length in bits. -/
def be64bytes (n : Nat) : List Nat :=
  [(n >>> 56) % 256, (n >>> 48) % 256, (n >>> 40) % 256, (n >>> 32) % 256,
   (n >>> 24) % 256, (n >>> 16) % 256, (n >>> 8) % 256, n % 256]

/-- Big-endian 4-byte encoding of a 32-bit word. -/
def be32bytes (n : Nat) : List Nat :=
  [(n >>> 24) % 256, (n >>> 16) % 256, (n >>> 8) % 256, n % 256]

/-- SHA-256 padding: append 0x80, zero bytes to 56 mod 64, then the message
bit length as 8 big-endian bytes. -/
def sha256pad (msg : List Nat) : List Nat :=
  let z := (119 - (msg.length % 64)) % 64
  msg ++ 0x80 :: (List.replicate z 0 ++ be64bytes (msg.length * 8))

/-- Group a byte list into big-endian 32-bit words (fuel-driven structural
recursion so kernel evaluation reduces). -/
def group4 : Nat → List Nat → List Nat
  | 0, _ => []
  | Nat.succ f, a :: b :: c :: d :: rest =>
      ((a <<< 24) + (b <<< 16) + (c <<< 8) + d) :: group4 f rest
  | Nat.succ _, _ => []

/-- Split a byte list into 64-byte chunks (fuel-driven). -/
def group64 : Nat → List Nat → List (List Nat)
  | 0, _ => []
  | Nat.succ _, [] => []
  | Nat.succ f, l => l.take 64 :: group64 f (l.drop 64)

/-- Extend the 16 chunk words to the 64-word message schedule. -/
def sha256schedule (w0 : Array Nat) : Array Nat :=
  (List.range 48).foldl (fun w i =>
    w.push (mod32 (w.getD i 0 + sSig0 (w.getD (i + 1) 0) +
                   w.getD (i + 9) 0 + sSig1 (w.getD (i + 14) 0)))) w0

/-- The eight SHA-256 working registers. -/
structure ShaRegs where
  a : Nat
  b : Nat
  c : Nat
  d : Nat
  e : Nat
  f : Nat
  g : Nat
  h : Nat
deriving Repr, DecidableEq

/-- Compress one 64-byte chunk into the running hash state. -/
def sha256compress (hs : List Nat) (chunk : List Nat) : List Nat :=
  let w := sha256schedule (Array.mk (group4 64 chunk))
  let init : ShaRegs :=
    ⟨hs.getD 0 0, hs.getD 1 0, hs.getD 2 0, hs.getD 3 0,
     hs.getD 4 0, hs.getD 5 0, hs.getD 6 0, hs.getD 7 0⟩
  let r := (List.range 64).foldl (fun (r : ShaRegs) i =>
    let t1 := mod32 (r.h + bSig1 r.e + shaCh r.e r.f r.g +
                     sha256K.getD i 0 + w.getD i 0)
    let t2 := mod32 (bSig0 r.a + shaMaj r.a r.b r.c)
    ⟨mod32 (t1 + t2), r.a, r.b, r.c, mod32 (r.d + t1), r.e, r.f, r.g⟩) init
  [mod32 (hs.getD 0 0 + r.a), mod32 (hs.getD 1 0 + r.b),
   mod32 (hs.getD 2 0 + r.c), mod32 (hs.getD 3 0 + r.d),
   mod32 (hs.getD 4 0 + r.e), mod32 (hs.getD 5 0 + r.f),
   mod32 (hs.getD 6 0 + r.g), mod32 (hs.getD 7 0 + r.h)]

/-- SHA-256 of a byte list, as the 32 digest bytes. -/
def sha256 (msg : List Nat) : List Nat :=
  let padded := sha256pad msg
  let hs := (group64 padded.length padded).foldl sha256compress sha256H0
  (hs.map be32bytes).flatten

/-- Lower-case hexadecimal digit. -/
def hexChar (n : Nat) : Char :=
  if n < 10 then Char.ofNat (48 + n) else Char.ofNat (87 + n)

/-- Two-character lower-case hex of one byte. -/
def byteToHex (b : Nat) : String :=
  String.mk [hexChar (b / 16), hexChar (b % 16)]

/-- Lower-case hex string of a byte list (`hashlib`'s `hexdigest`). -/
def bytesToHex (l : List Nat) : String :=
  String.join (l.map byteToHex)

/-- Python `s.encode('utf-8')` for the ASCII strings the hash is fed. -/
def strBytes (s : String) : List Nat :=
  s.data.map Char.toNat

/-- SHA-256 hex digest of a string. -/
def sha256hex (s : String) : String :=
  bytesToHex (sha256 (strBytes s))

/-- One step of the Titles.GetHash loop: resolve the title stored under one
title-number key and append its `UpdateHash` contribution. -/
def hashStep (s : Titles) (acc : String) (key : Int) : Except String String := do
  let oid ← exceptOfOption (s.titlesByTitleNumber.lookup key) "KeyError"
  let t ← s.getTitleE oid
  pure (acc ++ t.updateHashString)

/-- Resolve one title-number key to its title. -/
def Titles.resolveTitleKey (s : Titles) (tn : Int) : Except String Title := do
  let oid ← exceptOfOption (s.titlesByTitleNumber.lookup tn) "KeyError"
  s.getTitleE oid

/-- The titles of the collection resolved through the title-number index in
ascending key order — the visit order of `GetHash`. -/
def Titles.resolvedByTitleNumberE (s : Titles) : Except String (List Title) :=
  (sortedIntKeys s.titlesByTitleNumber).mapM s.resolveTitleKey

/-- Byte string fed to the SHA-256 object by Titles.GetHash: the
`'Title Count: N'` preamble, then each title's `UpdateHash` contribution,
visiting titles by ascending key of the title-number index. -/
def Titles.hashInputString (s : Titles) : Except String String :=
  (sortedIntKeys s.titlesByTitleNumber).foldlM (hashStep s)
    ("Title Count: " ++ toString s.titles.length)

/-- Titles.GetHash: the SHA-256 hex digest of `hashInputString`. -/
def Titles.GetHash (s : Titles) : Except String String :=
  (s.hashInputString).map sha256hex

/-- Build a `Title` with the fields the claims vary; remaining fields get
fixed representative values. -/
def mkTitle (oid : Nat) (titleNumber orderNumber : Int) (duration : String)
    (selected visible : Bool) : Title :=
  { oid := oid, titleNumber := titleNumber, vts := 1, ttn := 1,
    cellsFirst := 1, cellsLast := 1, blocks := 100, duration := duration,
    width := 720, height := 480, pixelAspectRatio := "8/9",
    displayAspectRatio := "1.33", framesPerSecond := "29.97", title := "",
    selected := selected, visible := visible, orderNumber := orderNumber,
    chapters := [], audioTracks := [], subtitleTracks := [] }

/-- Build a collection by appending the given titles to an empty one, using
the collection's own `append` (`insert(len(self), obj)`). -/
def mkTitles (ts : List Title) : Titles :=
  ts.foldl Titles.append Titles.empty

/-- Specification-side longest title of a list of titles (by object id):
the maximum-duration title, ties keeping the earliest found — only a
strictly greater duration replaces the candidate. Written from the spec's
words, to compare against what `GetMatchingTitles` actually returns. -/
def specLongestOfList (s : Titles) : List Nat → Except String (Option Nat)
  | [] => pure none
  | o :: rest => do
      let t ← s.getTitleE o
      let len ← t.durationAsTimedelta
      let r ← rest.foldlM (fun (p : Nat × Int) oid => do
          let t' ← s.getTitleE oid
          let len' ← t'.durationAsTimedelta
          pure (if p.2 < len' then (oid, len') else p)) (o, len)
      pure (some r.1)

/-- The titles of the collection in ascending order-number order, resolved
through the order-number index, paired with their ids. -/
def Titles.orderedTitlesE (s : Titles) : Except String (List (Nat × Title)) :=
  (sortedIntKeys s.titlesByOrderNumber).mapM (fun k => do
    let oid ← exceptOfOption (s.titlesByOrderNumber.lookup k) "KeyError"
    let t ← s.getTitleE oid
    pure (oid, t))

/-- First title (by id) of an ordered title list satisfying a predicate. -/
def firstSuch (p : Title → Bool) (l : List (Nat × Title)) : Option Nat :=
  (l.find? (fun x => p x.2)).map Prod.fst

/-- Specification-side default-title priority: first selected-and-visible,
else first selected, else first visible, else the head of the backing
sequence. Written from the spec's words (with the backing-sequence head as
final fallback, which is what the source uses). -/
def specDefaultTitle (s : Titles) (ordered : List (Nat × Title)) :
    Except String Nat :=
  match firstSuch (fun t => t.selected && t.visible) ordered with
  | some x => pure x
  | none => match firstSuch (fun t => t.selected) ordered with
    | some x => pure x
    | none => match firstSuch (fun t => t.visible) ordered with
      | some x => pure x
      | none => pyListGet s.titles 0

/-- Strip the fields that the content hash deliberately ignores (duration,
order number, selection, visibility, name) and the object id, leaving
exactly the material `updateHashString` reads. -/
def Title.stripVolatile (t : Title) : Title :=
  { t with oid := 0, duration := "", title := "", selected := false,
           visible := true, orderNumber := 0 }

/-- The live titles of the collection sorted ascending by title number
(specification side of the hash-input ordering). -/
def specHashInput (count : Nat) (ts : List Title) : String :=
  "Title Count: " ++ toString count ++
  String.join ((List.insertionSort (fun a b => a.titleNumber ≤ b.titleNumber) ts).map
    Title.updateHashString)

/-- Concrete two-title collection for the `longestMatchingTitle` defect:
title 1 (order 0) lasts 10 seconds, title 2 (order 1) lasts 20 seconds. -/
def gmtBugTitles : Titles :=
  mkTitles [mkTitle 1 1 0 "00:00:10" false true,
            mkTitle 2 2 1 "00:00:20" false true]

/-- Concrete two-title collection whose backing-sequence order disagrees
with the order-number order: the sequence is [title 1 (order 1), title 2
(order 0)], nothing selected, nothing visible. -/
def skewedTitles : Titles :=
  mkTitles [mkTitle 1 1 1 "00:00:10" false false,
            mkTitle 2 2 0 "00:00:10" false false]

/-- Concrete two-title collection in natural order, both visible, used to
drive `MoveUp` then `MoveDown`. -/
def moveTitles : Titles :=
  mkTitles [mkTitle 1 1 0 "00:00:10" false true,
            mkTitle 2 2 1 "00:00:10" false true]

/-- Concrete title with one chapter, one audio track and one subtitle track,
the base point for the hash-sensitivity checks. -/
def hashBaseTitle : Title :=
  { mkTitle 1 1 0 "01:00:00" false true with
    chapters := [⟨1, 1, 4, 5000, "00:10:00", "Chapter 1"⟩],
    audioTracks := [⟨1, 48000, 192000, some "eng", some 2⟩],
    subtitleTracks := [⟨1, some "eng"⟩] }

/-- Base collection for the hash-sensitivity checks. -/
def hashBaseTitles : Titles := mkTitles [hashBaseTitle]

/-- Same collection with one chapter structural field changed
(the chapter's block count). -/
def hashChapterVariant : Titles :=
  mkTitles [{ hashBaseTitle with chapters := [⟨1, 1, 4, 5001, "00:10:00", "Chapter 1"⟩] }]

/-- Same collection with one audio-track structural field changed
(the audio track's language). -/
def hashAudioVariant : Titles :=
  mkTitles [{ hashBaseTitle with audioTracks := [⟨1, 48000, 192000, some "fra", some 2⟩] }]

/-- Same collection with one subtitle-track structural field changed
(the subtitle track's track number). -/
def hashSubtitleVariant : Titles :=
  mkTitles [{ hashBaseTitle with subtitleTracks := [⟨2, some "eng"⟩] }]

/-- Same collection with only the title's duration changed. -/
def hashDurationVariant : Titles :=
  mkTitles [{ hashBaseTitle with duration := "01:00:01" }]

/-- Same collection with the order number moved (a one-title permutation of
order numbers), order-number index rewritten accordingly. -/
def hashOrderVariant : Titles :=
  mkTitles [{ hashBaseTitle with orderNumber := 5 }]

/-- The exact byte string `GetHash` feeds to SHA-256 for `hashBaseTitles`. -/
def hashBaseInput : String := "Title Count: 1TitleNumber: 1, VTS: 1, TTN: 1, First Cell: 1, Last Cell: 1, Blocks: 100, Width: 720, Height: 480, Pixel Aspect Ratio 8/9, Display Aspect Ratio 1.33, Frames Per Second 29.97Audio Track Count: 1, Subtitle Track Count: 1, Chapter Count: 1Audio Track: 1, Hertz: 48000, Bits Per Second: 192000, Language: eng, Channels: 2Subtitle Track: 1, Language: engChapter Number: 1, First Cell: 1, Last Cell: 4, Blocks: 5000"

/-- Hash input of `hashChapterVariant` (one chapter block count changed). -/
def hashChapterInput : String := "Title Count: 1TitleNumber: 1, VTS: 1, TTN: 1, First Cell: 1, Last Cell: 1, Blocks: 100, Width: 720, Height: 480, Pixel Aspect Ratio 8/9, Display Aspect Ratio 1.33, Frames Per Second 29.97Audio Track Count: 1, Subtitle Track Count: 1, Chapter Count: 1Audio Track: 1, Hertz: 48000, Bits Per Second: 192000, Language: eng, Channels: 2Subtitle Track: 1, Language: engChapter Number: 1, First Cell: 1, Last Cell: 4, Blocks: 5001"

/-- Hash input of `hashAudioVariant` (one audio-track language changed). -/
def hashAudioInput : String := "Title Count: 1TitleNumber: 1, VTS: 1, TTN: 1, First Cell: 1, Last Cell: 1, Blocks: 100, Width: 720, Height: 480, Pixel Aspect Ratio 8/9, Display Aspect Ratio 1.33, Frames Per Second 29.97Audio Track Count: 1, Subtitle Track Count: 1, Chapter Count: 1Audio Track: 1, Hertz: 48000, Bits Per Second: 192000, Language: fra, Channels: 2Subtitle Track: 1, Language: engChapter Number: 1, First Cell: 1, Last Cell: 4, Blocks: 5000"

/-- Hash input of `hashSubtitleVariant` (one subtitle track number changed). -/
def hashSubtitleInput : String := "Title Count: 1TitleNumber: 1, VTS: 1, TTN: 1, First Cell: 1, Last Cell: 1, Blocks: 100, Width: 720, Height: 480, Pixel Aspect Ratio 8/9, Display Aspect Ratio 1.33, Frames Per Second 29.97Audio Track Count: 1, Subtitle Track Count: 1, Chapter Count: 1Audio Track: 1, Hertz: 48000, Bits Per Second: 192000, Language: eng, Channels: 2Subtitle Track: 2, Language: engChapter Number: 1, First Cell: 1, Last Cell: 4, Blocks: 5000"



/-- Does a title pass the requested `GetMatchingTitles` filters (both are
AND'ed when both requested)? -/
def gmtPasses (wantSelected wantVisible : Bool) (t : Title) : Bool :=
  !(wantSelected && !t.selected) && !(wantVisible && !t.visible)

/-- Resolve one order-number key the way the `GetMatchingTitles` loop body
does: index lookup, heap dereference, duration parse. -/
def Titles.resolveOrderKey (s : Titles) (k : Int) :
    Except String (Nat × Title × Int) := do
  let oid ← exceptOfOption (s.titlesByOrderNumber.lookup k) "KeyError"
  let t ← s.getTitleE oid
  let len ← t.durationAsTimedelta
  pure (oid, t, len)

/-- All titles resolved in ascending order-number key order, with parsed
durations. -/
def Titles.resolvedOrderedE (s : Titles) : Except String (List (Nat × Title × Int)) :=
  (sortedIntKeys s.titlesByOrderNumber).mapM s.resolveOrderKey

/-- Pure form of one `GetMatchingTitles` first-pass iteration, acting on a
resolved (id, title, duration) triple. -/
def gmtPureStep (wantSelected wantVisible : Bool) (acc : GMTState)
    (x : Nat × Title × Int) : GMTState :=
  let oid := x.1
  let title := x.2.1
  let titleLength := x.2.2
  let acc := { acc with
    firstSelectedVisibleTitle :=
      if title.selected = true ∧ title.visible = true ∧
          acc.firstSelectedVisibleTitle = none then some oid
      else acc.firstSelectedVisibleTitle
    firstSelectedTitle :=
      if title.selected = true ∧ acc.firstSelectedTitle = none then some oid
      else acc.firstSelectedTitle
    firstVisibleTitle :=
      if title.visible = true ∧ acc.firstVisibleTitle = none then some oid
      else acc.firstVisibleTitle }
  let acc :=
    if acc.longestTitleLength < titleLength then
      { acc with longestTitle := oid, longestTitleLength := titleLength }
    else acc
  if wantSelected && !title.selected then acc
  else if wantVisible && !title.visible then acc
  else { acc with matchingTitles := acc.matchingTitles ++ [oid] }

/-- Consistency of the three indices with the backing sequence and the heap:
the indices' bindings are exactly the live titles, keyed by identity, title
number and order number respectively — the bijectivity invariant of the
`Titles` collection. -/
def Titles.IndicesConsistent (s : Titles) : Prop :=
  s.titles.Nodup ∧
  s.titlesById.keys.Nodup ∧
  s.titlesByTitleNumber.keys.Nodup ∧
  s.titlesByOrderNumber.keys.Nodup ∧
  (∀ o ∈ s.titles, ∃ t, s.heap.lookup o = some t ∧ t.oid = o) ∧
  (∀ o w, s.titlesById.lookup o = some w ↔ (o ∈ s.titles ∧ w = o)) ∧
  (∀ n w, s.titlesByTitleNumber.lookup n = some w ↔
    (w ∈ s.titles ∧ ∃ t, s.heap.lookup w = some t ∧ t.titleNumber = n)) ∧
  (∀ n w, s.titlesByOrderNumber.lookup n = some w ↔
    (w ∈ s.titles ∧ ∃ t, s.heap.lookup w = some t ∧ t.orderNumber = n))

/-- Slot where a MoveUp run with fuel `n` drops the moved title: the greatest
`k < n` whose occupant is visible (the loop breaks just after processing it),
or `0` when no occupant below is visible (the loop runs to exhaustion). -/
def upBreak (v : Nat → Bool) : Nat → Nat
  | 0 => 0
  | n + 1 => if v n then n else upBreak v n

/-- Number of iterations a MoveDown run executes starting at loop index `i`
with fuel `n`: it stops after the first slot `i + d` whose occupant is
visible, and runs all `n` iterations when none is. -/
def downIters (w : Int → Bool) (i : Int) : Nat → Nat
  | 0 => 0
  | n + 1 => if w (i + 1) then 1 else 1 + downIters w (i + 1) n

/-- The collection reached from `moveTitles` by moving title 2 up one slot:
title 2 now holds order number 0 and title 1 order number 1, while the
backing sequence is still `[1, 2]`. -/
def c8State : Titles := (Titles.MoveUp moveTitles 2).toOption.getD Titles.empty

/-- Decidable equality for `Except`, so concrete runs of the embedded
operations can be checked by `decide`. -/
instance exceptDecEq {ε α : Type} [DecidableEq ε] [DecidableEq α] :
    DecidableEq (Except ε α)
  | Except.ok a, Except.ok b =>
      decidable_of_iff (a = b) ⟨fun h => by rw [h], fun h => by cases h; rfl⟩
  | Except.ok _, Except.error _ => isFalse (fun h => by cases h)
  | Except.error _, Except.ok _ => isFalse (fun h => by cases h)
  | Except.error e, Except.error f =>
      decidable_of_iff (e = f) ⟨fun h => by rw [h], fun h => by cases h; rfl⟩

section DictLemmas

variable {α β : Type} [DecidableEq α]

theorem lookupList_setList_self (l : List (α × β)) (k : α) (v : β) :
    lookupList (setList l k v) k = some v := by
  induction l with
  | nil => simp [setList, lookupList]
  | cons e rest ih =>
      by_cases he : e.1 = k
      · simp [setList, he, lookupList]
      · simp [setList, he, lookupList, ih]

theorem lookupList_setList_ne (l : List (α × β)) (k k' : α) (v : β) (h : k' ≠ k) :
    lookupList (setList l k v) k' = lookupList l k' := by
  induction l with
  | nil => simp [setList, lookupList, Ne.symm h]
  | cons e rest ih =>
      by_cases he : e.1 = k
      · have hek' : ¬(e.1 = k') := by rw [he]; exact Ne.symm h
        simp [setList, he, lookupList, hek', Ne.symm h]
      · by_cases he' : e.1 = k'
        · simp [setList, he, lookupList, he', h]
        · simp [setList, he, lookupList, he', ih]

theorem mem_keys_of_lookupList (l : List (α × β)) (k : α) (v : β)
    (h : lookupList l k = some v) : k ∈ l.map Prod.fst := by
  induction l with
  | nil => simp [lookupList] at h
  | cons e rest ih =>
      by_cases he : e.1 = k
      · simp [he ▸ List.mem_map_of_mem Prod.fst (List.mem_cons_self e rest), he]
      · simp only [lookupList, if_neg he] at h
        exact List.mem_cons_of_mem _ (ih h)

theorem lookupList_of_popList (l : List (α × β)) (k : α) (v : β) (l' : List (α × β))
    (h : popList l k = some (v, l')) : lookupList l k = some v := by
  induction l generalizing l' with
  | nil => simp [popList] at h
  | cons e rest ih =>
      by_cases he : e.1 = k
      · simp only [popList, if_pos he, Option.some.injEq, Prod.mk.injEq] at h
        simp [lookupList, he, h.1]
      · simp only [popList, if_neg he, Option.map_eq_some'] at h
        obtain ⟨⟨pv, pl⟩, hp, heq⟩ := h
        rw [Prod.mk.injEq] at heq
        obtain ⟨rfl, rfl⟩ := heq
        simp only [lookupList, if_neg he]
        exact ih pl hp

theorem popList_of_lookupList (l : List (α × β)) (k : α) (v : β)
    (h : lookupList l k = some v) : ∃ l', popList l k = some (v, l') := by
  induction l with
  | nil => simp [lookupList] at h
  | cons e rest ih =>
      by_cases he : e.1 = k
      · simp only [lookupList, if_pos he, Option.some.injEq] at h
        exact ⟨rest, by simp [popList, he, h]⟩
      · simp only [lookupList, if_neg he] at h
        obtain ⟨l', hl'⟩ := ih h
        exact ⟨e :: l', by simp [popList, he, hl']⟩

theorem lookupList_popList_ne (l : List (α × β)) (k k' : α) (v : β) (l' : List (α × β))
    (h : popList l k = some (v, l')) (hk : k' ≠ k) :
    lookupList l' k' = lookupList l k' := by
  induction l generalizing l' with
  | nil => simp [popList] at h
  | cons e rest ih =>
      by_cases he : e.1 = k
      · simp only [popList, if_pos he, Option.some.injEq, Prod.mk.injEq] at h
        have hek' : ¬(e.1 = k') := by rw [he]; exact Ne.symm hk
        rw [← h.2]
        simp [lookupList, hek']
      · simp only [popList, if_neg he, Option.map_eq_some'] at h
        obtain ⟨⟨pv, pl⟩, hp, heq⟩ := h
        rw [Prod.mk.injEq] at heq
        obtain ⟨rfl, rfl⟩ := heq
        by_cases he' : e.1 = k'
        · simp [lookupList, he']
        · simp only [lookupList, if_neg he']
          exact ih pl hp

theorem lookupList_popList_self (l : List (α × β)) (k : α) (v : β) (l' : List (α × β))
    (h : popList l k = some (v, l')) (hnd : (l.map Prod.fst).Nodup) :
    lookupList l' k = none := by
  induction l generalizing l' with
  | nil => simp [popList] at h
  | cons e rest ih =>
      simp only [List.map_cons, List.nodup_cons] at hnd
      by_cases he : e.1 = k
      · simp only [popList, if_pos he, Option.some.injEq, Prod.mk.injEq] at h
        rw [← h.2]
        rcases hr : lookupList rest k with _ | w
        · rfl
        · exact absurd (by rw [he]; exact mem_keys_of_lookupList rest k w hr) hnd.1
      · simp only [popList, if_neg he, Option.map_eq_some'] at h
        obtain ⟨⟨pv, pl⟩, hp, heq⟩ := h
        rw [Prod.mk.injEq] at heq
        obtain ⟨rfl, rfl⟩ := heq
        simp only [lookupList, if_neg he]
        exact ih pl hp hnd.2

theorem lookupList_eq_none_of_not_mem_keys (l : List (α × β)) (k : α)
    (h : k ∉ l.map Prod.fst) : lookupList l k = none := by
  rcases hr : lookupList l k with _ | v
  · rfl
  · exact absurd (mem_keys_of_lookupList l k v hr) h

theorem lookupList_isSome_of_mem_keys (l : List (α × β)) (k : α)
    (h : k ∈ l.map Prod.fst) : (lookupList l k).isSome := by
  induction l with
  | nil => simp at h
  | cons e rest ih =>
      by_cases he : e.1 = k
      · simp [lookupList, he]
      · simp only [List.map_cons, List.mem_cons] at h
        rcases h with h | h
        · exact absurd h.symm he
        · simpa [lookupList, he] using ih h

theorem mem_setList_cases (l : List (α × β)) (k : α) (v : β) (p : α × β)
    (hp : p ∈ setList l k v) : p ∈ l ∨ p = (k, v) := by
  induction l with
  | nil => exact Or.inr (by simpa [setList] using hp)
  | cons e rest ih =>
      by_cases he : e.1 = k
      · simp only [setList, if_pos he] at hp
        rcases List.mem_cons.mp hp with hh | hh
        · exact Or.inr hh
        · exact Or.inl (List.mem_cons_of_mem _ hh)
      · simp only [setList, if_neg he] at hp
        rcases List.mem_cons.mp hp with hh | hh
        · exact Or.inl (hh ▸ List.mem_cons_self _ _)
        · rcases ih hh with h2 | h2
          · exact Or.inl (List.mem_cons_of_mem _ h2)
          · exact Or.inr h2

theorem mem_of_mem_popList (l : List (α × β)) (k : α) (v : β) (l' : List (α × β))
    (h : popList l k = some (v, l')) (q : α × β) (hq : q ∈ l') : q ∈ l := by
  induction l generalizing l' with
  | nil => simp [popList] at h
  | cons e rest ih =>
      by_cases he : e.1 = k
      · simp only [popList, if_pos he, Option.some.injEq, Prod.mk.injEq] at h
        exact List.mem_cons_of_mem _ (h.2 ▸ hq)
      · simp only [popList, if_neg he, Option.map_eq_some'] at h
        obtain ⟨⟨pv, pl⟩, hp, heq⟩ := h
        rw [Prod.mk.injEq] at heq
        obtain ⟨rfl, rfl⟩ := heq
        rcases List.mem_cons.mp hq with hh | hh
        · exact hh ▸ List.mem_cons_self _ _
        · exact List.mem_cons_of_mem _ (ih pl hp hh)

theorem nodup_keys_setList (l : List (α × β)) (k : α) (v : β)
    (hnd : (l.map Prod.fst).Nodup) : ((setList l k v).map Prod.fst).Nodup := by
  induction l with
  | nil => simp [setList]
  | cons e rest ih =>
      simp only [List.map_cons, List.nodup_cons] at hnd
      by_cases he : e.1 = k
      · simp only [setList, if_pos he, List.map_cons, List.nodup_cons]
        exact ⟨by rw [← he]; exact hnd.1, hnd.2⟩
      · simp only [setList, if_neg he, List.map_cons, List.nodup_cons]
        refine ⟨?_, ih hnd.2⟩
        intro hmem
        rcases List.mem_map.mp hmem with ⟨p, hp, hfst⟩
        have hkeys : p ∈ rest ∨ p = (k, v) := mem_setList_cases rest k v p hp
        rcases hkeys with hmem' | rfl
        · exact hnd.1 (hfst ▸ List.mem_map_of_mem Prod.fst hmem')
        · exact he hfst.symm

theorem nodup_keys_popList (l : List (α × β)) (k : α) (v : β) (l' : List (α × β))
    (h : popList l k = some (v, l')) (hnd : (l.map Prod.fst).Nodup) :
    (l'.map Prod.fst).Nodup := by
  induction l generalizing l' with
  | nil => simp [popList] at h
  | cons e rest ih =>
      simp only [List.map_cons, List.nodup_cons] at hnd
      by_cases he : e.1 = k
      · simp only [popList, if_pos he, Option.some.injEq, Prod.mk.injEq] at h
        exact h.2 ▸ hnd.2
      · simp only [popList, if_neg he, Option.map_eq_some'] at h
        obtain ⟨⟨pv, pl⟩, hp, heq⟩ := h
        rw [Prod.mk.injEq] at heq
        obtain ⟨rfl, rfl⟩ := heq
        simp only [List.map_cons, List.nodup_cons]
        refine ⟨?_, ih pl hp hnd.2⟩
        intro hmem
        rcases List.mem_map.mp hmem with ⟨q, hq, hfst⟩
        exact hnd.1 (hfst ▸ List.mem_map_of_mem Prod.fst
          (mem_of_mem_popList rest k pv pl hp q hq))

namespace Dict

theorem lookup_empty (k : α) : (Dict.empty : Dict α β).lookup k = none := rfl

theorem lookup_set_self (d : Dict α β) (k : α) (v : β) :
    (d.set k v).lookup k = some v :=
  lookupList_setList_self d.entries k v

theorem lookup_set_ne (d : Dict α β) (k k' : α) (v : β) (h : k' ≠ k) :
    (d.set k v).lookup k' = d.lookup k' :=
  lookupList_setList_ne d.entries k k' v h

theorem pop_entries (d : Dict α β) (k : α) (v : β) (d' : Dict α β)
    (h : d.pop k = some (v, d')) : popList d.entries k = some (v, d'.entries) := by
  rcases hp : popList d.entries k with _ | ⟨pv, pl⟩
  · simp [Dict.pop, hp] at h
  · simp only [Dict.pop, hp, Option.map_some', Option.some.injEq, Prod.mk.injEq] at h
    obtain ⟨rfl, rfl⟩ := h
    rfl

theorem pop_of_lookup (d : Dict α β) (k : α) (v : β) (h : d.lookup k = some v) :
    ∃ d', d.pop k = some (v, d') := by
  obtain ⟨l', hl'⟩ := popList_of_lookupList d.entries k v h
  exact ⟨⟨l'⟩, by simp [Dict.pop, hl']⟩

theorem lookup_of_pop (d : Dict α β) (k : α) (v : β) (d' : Dict α β)
    (h : d.pop k = some (v, d')) : d.lookup k = some v :=
  lookupList_of_popList d.entries k v d'.entries (pop_entries d k v d' h)

theorem lookup_pop_self (d : Dict α β) (k : α) (v : β) (d' : Dict α β)
    (h : d.pop k = some (v, d')) (hnd : d.keys.Nodup) : d'.lookup k = none :=
  lookupList_popList_self d.entries k v d'.entries (pop_entries d k v d' h) hnd

theorem lookup_pop_ne (d : Dict α β) (k k' : α) (v : β) (d' : Dict α β)
    (h : d.pop k = some (v, d')) (hk : k' ≠ k) : d'.lookup k' = d.lookup k' :=
  lookupList_popList_ne d.entries k k' v d'.entries (pop_entries d k v d' h) hk

theorem nodup_keys_set (d : Dict α β) (k : α) (v : β) (hnd : d.keys.Nodup) :
    (d.set k v).keys.Nodup :=
  nodup_keys_setList d.entries k v hnd

theorem nodup_keys_pop (d : Dict α β) (k : α) (v : β) (d' : Dict α β)
    (h : d.pop k = some (v, d')) (hnd : d.keys.Nodup) : d'.keys.Nodup :=
  nodup_keys_popList d.entries k v d'.entries (pop_entries d k v d' h) hnd

theorem mem_keys_of_lookup (d : Dict α β) (k : α) (v : β)
    (h : d.lookup k = some v) : k ∈ d.keys :=
  mem_keys_of_lookupList d.entries k v h

theorem lookup_eq_none_of_not_mem_keys (d : Dict α β) (k : α)
    (h : k ∉ d.keys) : d.lookup k = none :=
  lookupList_eq_none_of_not_mem_keys d.entries k h

theorem lookup_isSome_of_mem_keys (d : Dict α β) (k : α)
    (h : k ∈ d.keys) : (d.lookup k).isSome :=
  lookupList_isSome_of_mem_keys d.entries k h

end Dict

end DictLemmas

/-- C1 counterexample: on the empty collection, `GetMatchingTitles` with
flags 0 raises an assertion error instead of returning the claimed
`([], null, null, null)` tuple. -/
theorem C1_empty_counterexample :
    Titles.GetMatchingTitles Titles.empty 0 =
      Except.error "AssertionError: HasTitles" := by decide

/-- C1 (amended): for every empty Titles collection and every flags value,
`GetMatchingTitles` raises an `AssertionError` (from `assert
self.HasTitles()`) rather than returning a result; callers see an exception,
not an all-empty tuple. -/
theorem C1_empty_raises (s : Titles) (flags : Nat) (h : s.titles = []) :
    s.GetMatchingTitles flags = Except.error "AssertionError: HasTitles" := by
  unfold Titles.GetMatchingTitles Titles.HasTitles
  simp [h]

/-- Witness for `C1_empty_raises` at the concrete empty collection and
flags 3. -/
theorem C1_empty_raises_witness :
    Titles.empty.GetMatchingTitles 3 = Except.error "AssertionError: HasTitles" :=
  C1_empty_raises Titles.empty 3 rfl

/-- C5 counterexample: inserting a Title with titleNumber 0 (< 1) into a
Titles collection is accepted — the title lands in the backing sequence and
the title-number index — rather than raising an identity error. -/
theorem C5_insert_counterexample :
    (mkTitle 7 0 0 "00:00:10" false true).titleNumber < 1 ∧
    (Titles.insert Titles.empty 0 (mkTitle 7 0 0 "00:00:10" false true)).titles = [7] ∧
    (Titles.insert Titles.empty 0
      (mkTitle 7 0 0 "00:00:10" false true)).titlesByTitleNumber.lookup 0 = some 7 := by
  decide

/-- C5 (amended): chapter-number validation exists and is fatal — inserting
a chapter with chapterNumber < 1 into a Chapters collection raises a
RuntimeError — but `Titles.insert` performs no title-number validation at
all: any Title, including one with titleNumber < 1, is accepted into the
backing sequence and the title-number index. -/
theorem C5_validation (cs : Chapters) (idx : Nat) (c : Chapter)
    (hc : c.chapterNumber < 1) (s : Titles) (jdx : Nat) (t : Title) :
    Chapters.insert cs idx c =
      Except.error "RuntimeError: A chapter number of less than one was encountered." ∧
    t.oid ∈ (Titles.insert s jdx t).titles ∧
    (Titles.insert s jdx t).titlesByTitleNumber.lookup t.titleNumber = some t.oid := by
  refine ⟨?_, ?_, ?_⟩
  · unfold Chapters.insert Chapters.updateLowestHighestChapterNumbers
    rw [if_pos hc]
  · show t.oid ∈ pyListInsert s.titles jdx t.oid
    unfold pyListInsert
    by_cases hlen : s.titles.length ≤ jdx
    · simp [hlen]
    · rw [if_neg hlen]
      exact (List.mem_insertIdx (le_of_lt (not_le.mp hlen))).mpr (Or.inl rfl)
  · exact Dict.lookup_set_self _ _ _

/-- Witness for `C5_validation` at a concrete chapter with chapterNumber 0
and a concrete title with titleNumber 0. -/
theorem C5_validation_witness :
    Chapters.insert ⟨"MARKERS", [], Dict.empty, 1, 0, 0⟩ 0 ⟨0, 1, 1, 10, "00:01:00", ""⟩ =
      Except.error "RuntimeError: A chapter number of less than one was encountered." ∧
    (mkTitle 7 0 0 "00:00:10" false true).oid ∈
      (Titles.insert Titles.empty 0 (mkTitle 7 0 0 "00:00:10" false true)).titles ∧
    (Titles.insert Titles.empty 0 (mkTitle 7 0 0 "00:00:10" false true)).titlesByTitleNumber.lookup
      (mkTitle 7 0 0 "00:00:10" false true).titleNumber =
      some (mkTitle 7 0 0 "00:00:10" false true).oid :=
  C5_validation ⟨"MARKERS", [], Dict.empty, 1, 0, 0⟩ 0 ⟨0, 1, 1, 10, "00:01:00", ""⟩
    (by decide) Titles.empty 0 (mkTitle 7 0 0 "00:00:10" false true)

/-- C10: an identity-index miss in `GetById` raises an assertion error,
while `GetByTitleNumber` and `GetByOrderNumber` are total lookups that
return `None` on a missing key and never raise. -/
theorem C10_lookup_misses (s : Titles) (objectId : Nat) (tn onum : Int)
    (h1 : objectId ∉ s.titlesById.keys)
    (h2 : tn ∉ s.titlesByTitleNumber.keys)
    (h3 : onum ∉ s.titlesByOrderNumber.keys) :
    s.GetById objectId = Except.error "AssertionError: GetById" ∧
    s.GetByTitleNumber tn = none ∧
    s.GetByOrderNumber onum = none := by
  refine ⟨?_, ?_, ?_⟩
  · unfold Titles.GetById
    rw [Dict.lookup_eq_none_of_not_mem_keys _ _ h1]
    rfl
  · exact Dict.lookup_eq_none_of_not_mem_keys _ _ h2
  · exact Dict.lookup_eq_none_of_not_mem_keys _ _ h3

/-- Witness for `C10_lookup_misses` on the empty collection at key 5. -/
theorem C10_lookup_misses_witness :
    Titles.empty.GetById 5 = Except.error "AssertionError: GetById" ∧
    Titles.empty.GetByTitleNumber 5 = none ∧
    Titles.empty.GetByOrderNumber 5 = none :=
  C10_lookup_misses Titles.empty 5 5 5 (by decide) (by decide) (by decide)

/-- C2 (code defect, evaluated at a failing input): with flags 0 on a
two-title collection where the order-0 title lasts 10 seconds and the
order-1 title lasts 20 seconds, the code returns every title in ascending
order-number order, a null defaultTitle and the correct overall
longestTitle, but `longestMatchingTitle` comes back as the *first* title of
the list (id 1) instead of the maximum-duration title (id 2), which the
spec-side computation shows. -/
theorem C2_longestMatching_defect :
    Titles.GetMatchingTitles gmtBugTitles 0 =
      Except.ok ⟨[1, 2], some 1, none, 2⟩ ∧
    specLongestOfList gmtBugTitles [1, 2] = Except.ok (some 2) :=
  ⟨by decide, by decide⟩

/-- C9: after `RefreshVisible`, the visible flag is true unless the
hide-short-titles toggle is on AND the duration is a non-empty string AND
the parsed duration is at most the `minimumTitleSeconds` threshold; in
particular, under policy (hideShortTitles := true, minimumTitleSeconds :=
30) a duration of "00:00:20" yields visible = false and "00:05:00" yields
visible = true. -/
theorem C9_refresh_visible (cfg : TitleVisibleSingleton) (t t' : Title)
    (h : Title.RefreshVisible cfg t = Except.ok t') :
    (t'.visible = false ↔
      (cfg.hideShortTitles = true ∧ t.duration ≠ "" ∧
       ∃ d, DurationAsTimedelta t.duration = Except.ok d ∧
         d ≤ cfg.minimumTitleSeconds)) ∧
    Title.RefreshVisible ⟨30, true⟩ { t with duration := "00:00:20" } =
      Except.ok { t with duration := "00:00:20", visible := false } ∧
    Title.RefreshVisible ⟨30, true⟩ { t with duration := "00:05:00" } =
      Except.ok { t with duration := "00:05:00", visible := true } := by
  refine ⟨?_, ?_, ?_⟩
  · unfold Title.RefreshVisible at h
    by_cases hc : cfg.hideShortTitles = true ∧ t.duration ≠ ""
    · rw [if_pos hc] at h
      rcases hd : DurationAsTimedelta t.duration with e | d
      · rw [hd] at h
        simp only [Bind.bind, Except.bind] at h
        cases h
      · rw [hd] at h
        simp only [Bind.bind, Except.bind] at h
        by_cases hle : d ≤ cfg.minimumTitleSeconds
        · rw [if_pos hle] at h
          simp only [pure, Except.pure, Except.ok.injEq] at h
          subst h
          simp only [true_iff]
          exact ⟨hc.1, hc.2, d, rfl, hle⟩
        · rw [if_neg hle] at h
          simp only [pure, Except.pure, Except.ok.injEq] at h
          subst h
          simp only [Bool.true_eq_false, false_iff]
          rintro ⟨-, -, d', hd', hle'⟩
          cases hd'
          exact hle hle'
    · rw [if_neg hc] at h
      simp only [pure, Except.pure, Except.ok.injEq] at h
      subst h
      simp only [Bool.true_eq_false, false_iff]
      rintro ⟨h1, h2, -⟩
      exact hc ⟨h1, h2⟩
  · rfl
  · rfl

/-- Witness for `C9_refresh_visible` at the policy (30, hide) and a concrete
title with duration "00:00:20". -/
theorem C9_refresh_visible_witness :
    (({ mkTitle 1 1 0 "00:00:20" false true with visible := false } : Title).visible = false ↔
      ((⟨30, true⟩ : TitleVisibleSingleton).hideShortTitles = true ∧
       (mkTitle 1 1 0 "00:00:20" false true).duration ≠ "" ∧
       ∃ d, DurationAsTimedelta (mkTitle 1 1 0 "00:00:20" false true).duration = Except.ok d ∧
         d ≤ (⟨30, true⟩ : TitleVisibleSingleton).minimumTitleSeconds)) ∧
    Title.RefreshVisible ⟨30, true⟩
        { mkTitle 1 1 0 "00:00:20" false true with duration := "00:00:20" } =
      Except.ok { mkTitle 1 1 0 "00:00:20" false true with
                    duration := "00:00:20", visible := false } ∧
    Title.RefreshVisible ⟨30, true⟩
        { mkTitle 1 1 0 "00:00:20" false true with duration := "00:05:00" } =
      Except.ok { mkTitle 1 1 0 "00:00:20" false true with
                    duration := "00:05:00", visible := true } :=
  C9_refresh_visible ⟨30, true⟩ (mkTitle 1 1 0 "00:00:20" false true)
    { mkTitle 1 1 0 "00:00:20" false true with visible := false } (by decide)

section GmtLemmas

theorem gmtPureStep_fsv (ws wv : Bool) (acc : GMTState) (x : Nat × Title × Int) :
    (gmtPureStep ws wv acc x).firstSelectedVisibleTitle =
      if x.2.1.selected = true ∧ x.2.1.visible = true ∧
          acc.firstSelectedVisibleTitle = none
      then some x.1 else acc.firstSelectedVisibleTitle := by
  simp only [gmtPureStep, apply_ite (f := GMTState.firstSelectedVisibleTitle), ite_self]

theorem gmtPureStep_fs (ws wv : Bool) (acc : GMTState) (x : Nat × Title × Int) :
    (gmtPureStep ws wv acc x).firstSelectedTitle =
      if x.2.1.selected = true ∧ acc.firstSelectedTitle = none
      then some x.1 else acc.firstSelectedTitle := by
  simp only [gmtPureStep, apply_ite (f := GMTState.firstSelectedTitle), ite_self]

theorem gmtPureStep_fv (ws wv : Bool) (acc : GMTState) (x : Nat × Title × Int) :
    (gmtPureStep ws wv acc x).firstVisibleTitle =
      if x.2.1.visible = true ∧ acc.firstVisibleTitle = none
      then some x.1 else acc.firstVisibleTitle := by
  simp only [gmtPureStep, apply_ite (f := GMTState.firstVisibleTitle), ite_self]

theorem gmtPureStep_matching (ws wv : Bool) (acc : GMTState) (x : Nat × Title × Int) :
    (gmtPureStep ws wv acc x).matchingTitles =
      if gmtPasses ws wv x.2.1 = true
      then acc.matchingTitles ++ [x.1] else acc.matchingTitles := by
  simp only [gmtPureStep, apply_ite (f := GMTState.matchingTitles), ite_self]
  by_cases h1 : (ws && !x.2.1.selected) = true
  · simp [h1, gmtPasses]
  · by_cases h2 : (wv && !x.2.1.visible) = true
    · simp [h1, h2, gmtPasses]
    · simp [h1, h2, gmtPasses]

theorem gmtStep_eq_pure (s : Titles) (ws wv : Bool) (acc : GMTState) (k : Int)
    (x : Nat × Title × Int) (h : s.resolveOrderKey k = Except.ok x) :
    s.gmtStep ws wv acc k = Except.ok (gmtPureStep ws wv acc x) := by
  unfold Titles.resolveOrderKey at h
  rcases hlo : s.titlesByOrderNumber.lookup k with _ | oid
  · simp only [hlo, exceptOfOption, Bind.bind, Except.bind] at h
    cases h
  · simp only [hlo, exceptOfOption, Bind.bind, Except.bind] at h
    rcases ht : s.getTitleE oid with e | t
    · simp only [ht] at h
      cases h
    · simp only [ht] at h
      rcases hd : t.durationAsTimedelta with e | len
      · simp only [hd] at h
        cases h
      · simp only [hd, pure, Except.pure, Except.ok.injEq] at h
        subst h
        unfold Titles.gmtStep
        simp only [hlo, exceptOfOption, Bind.bind, Except.bind, ht, hd]
        simp only [gmtPureStep, pure, Except.pure]
        split <;> first
        | rfl
        | (split <;> first
            | rfl
            | (split <;> rfl))

theorem foldlM_gmtStep_eq (s : Titles) (ws wv : Bool) (keys : List Int) :
    ∀ (l : List (Nat × Title × Int)) (acc : GMTState),
      keys.mapM s.resolveOrderKey = Except.ok l →
      keys.foldlM (s.gmtStep ws wv) acc =
        Except.ok (l.foldl (gmtPureStep ws wv) acc) := by
  induction keys with
  | nil =>
      intro l acc h
      simp only [List.mapM_nil, pure, Except.pure, Except.ok.injEq] at h
      subst h
      simp [List.foldlM_nil, pure, Except.pure]
  | cons k ks ih =>
      intro l acc h
      rw [List.mapM_cons] at h
      rcases hk : s.resolveOrderKey k with e | x
      · simp only [hk, Bind.bind, Except.bind] at h
        cases h
      · simp only [hk, Bind.bind, Except.bind] at h
        rcases hks : ks.mapM s.resolveOrderKey with e | xs
        · simp only [hks] at h
          cases h
        · simp only [hks, pure, Except.pure, Except.ok.injEq] at h
          subst h
          rw [List.foldlM_cons, gmtStep_eq_pure s ws wv acc k x hk]
          simp only [Bind.bind, Except.bind]
          rw [ih xs (gmtPureStep ws wv acc x) hks, List.foldl_cons]

theorem foldl_gmt_fsv (ws wv : Bool) (l : List (Nat × Title × Int)) (acc : GMTState) :
    (l.foldl (gmtPureStep ws wv) acc).firstSelectedVisibleTitle =
      (match acc.firstSelectedVisibleTitle with
       | some a => some a
       | none => (l.find? (fun x => x.2.1.selected && x.2.1.visible)).map Prod.fst) := by
  induction l generalizing acc with
  | nil => rcases ha : acc.firstSelectedVisibleTitle with _ | a <;> simp [ha]
  | cons x l ih =>
      rw [List.foldl_cons, ih]
      rcases ha : acc.firstSelectedVisibleTitle with _ | a
      · by_cases hp : (x.2.1.selected && x.2.1.visible) = true
        · rw [gmtPureStep_fsv, if_pos ⟨(Bool.and_eq_true _ _ |>.mp hp).1,
              (Bool.and_eq_true _ _ |>.mp hp).2, ha⟩]
          simp [List.find?, hp]
        · have hcond : ¬(x.2.1.selected = true ∧ x.2.1.visible = true ∧
              acc.firstSelectedVisibleTitle = none) := by
            rintro ⟨h1, h2, -⟩
            exact hp (Bool.and_eq_true _ _ |>.mpr ⟨h1, h2⟩)
          rw [gmtPureStep_fsv, if_neg hcond, ha]
          simp [List.find?, hp]
      · have hcond : ¬(x.2.1.selected = true ∧ x.2.1.visible = true ∧
            acc.firstSelectedVisibleTitle = none) := by
          rintro ⟨-, -, hnone⟩
          rw [ha] at hnone
          cases hnone
        rw [gmtPureStep_fsv, if_neg hcond, ha]

theorem foldl_gmt_fs (ws wv : Bool) (l : List (Nat × Title × Int)) (acc : GMTState) :
    (l.foldl (gmtPureStep ws wv) acc).firstSelectedTitle =
      (match acc.firstSelectedTitle with
       | some a => some a
       | none => (l.find? (fun x => x.2.1.selected)).map Prod.fst) := by
  induction l generalizing acc with
  | nil => rcases ha : acc.firstSelectedTitle with _ | a <;> simp [ha]
  | cons x l ih =>
      rw [List.foldl_cons, ih]
      rcases ha : acc.firstSelectedTitle with _ | a
      · by_cases hp : x.2.1.selected = true
        · rw [gmtPureStep_fs, if_pos ⟨hp, ha⟩]
          simp [List.find?, hp]
        · have hcond : ¬(x.2.1.selected = true ∧ acc.firstSelectedTitle = none) :=
            fun hh => hp hh.1
          rw [gmtPureStep_fs, if_neg hcond, ha]
          simp [List.find?, hp]
      · have hcond : ¬(x.2.1.selected = true ∧ acc.firstSelectedTitle = none) := by
          rintro ⟨-, hnone⟩
          rw [ha] at hnone
          cases hnone
        rw [gmtPureStep_fs, if_neg hcond, ha]

theorem foldl_gmt_fv (ws wv : Bool) (l : List (Nat × Title × Int)) (acc : GMTState) :
    (l.foldl (gmtPureStep ws wv) acc).firstVisibleTitle =
      (match acc.firstVisibleTitle with
       | some a => some a
       | none => (l.find? (fun x => x.2.1.visible)).map Prod.fst) := by
  induction l generalizing acc with
  | nil => rcases ha : acc.firstVisibleTitle with _ | a <;> simp [ha]
  | cons x l ih =>
      rw [List.foldl_cons, ih]
      rcases ha : acc.firstVisibleTitle with _ | a
      · by_cases hp : x.2.1.visible = true
        · rw [gmtPureStep_fv, if_pos ⟨hp, ha⟩]
          simp [List.find?, hp]
        · have hcond : ¬(x.2.1.visible = true ∧ acc.firstVisibleTitle = none) :=
            fun hh => hp hh.1
          rw [gmtPureStep_fv, if_neg hcond, ha]
          simp [List.find?, hp]
      · have hcond : ¬(x.2.1.visible = true ∧ acc.firstVisibleTitle = none) := by
          rintro ⟨-, hnone⟩
          rw [ha] at hnone
          cases hnone
        rw [gmtPureStep_fv, if_neg hcond, ha]

theorem foldl_gmt_matching (ws wv : Bool) (l : List (Nat × Title × Int)) (acc : GMTState) :
    (l.foldl (gmtPureStep ws wv) acc).matchingTitles =
      acc.matchingTitles ++ (l.filter (fun x => gmtPasses ws wv x.2.1)).map Prod.fst := by
  induction l generalizing acc with
  | nil => simp
  | cons x l ih =>
      rw [List.foldl_cons, ih, List.filter_cons]
      by_cases hp : gmtPasses ws wv x.2.1 = true
      · rw [gmtPureStep_matching, if_pos hp, if_pos hp]
        simp
      · rw [gmtPureStep_matching, if_neg hp, if_neg hp]

end GmtLemmas

/-- C6 (amended): on a non-empty collection, when no title passes the
requested filters (the resolved matching list is empty),
`GetMatchingTitles` returns a null `longestMatchingTitle` and a non-null
`defaultTitle` chosen by priority over the titles in ascending order-number
order: first selected-and-visible, else first selected, else first visible
— but the final fallback is the first title of the *backing sequence*
(`self.titles[0]`), not the earliest title by order number. -/
theorem C6_default_fallback (s : Titles) (flags : Nat)
    (l : List (Nat × Title × Int)) (oid0 : Nat) (t0 : Title) (d0 : Int)
    (hres : s.resolvedOrderedE = Except.ok l)
    (h0 : pyListGet s.titles 0 = Except.ok oid0)
    (ht0 : s.getTitleE oid0 = Except.ok t0)
    (hd0 : t0.durationAsTimedelta = Except.ok d0)
    (hempty : ∀ x ∈ l, gmtPasses (decide (flags &&& Titles.FLAG_SELECTED ≠ 0))
        (decide (flags &&& Titles.FLAG_VISIBLE ≠ 0)) x.2.1 = false) :
    ∃ r dflt, s.GetMatchingTitles flags = Except.ok r ∧
      r.matchingTitles = [] ∧ r.longestMatchingTitle = none ∧
      r.defaultTitle = some dflt ∧
      specDefaultTitle s (l.map (fun x => (x.1, x.2.1))) = Except.ok dflt := by
  have hne : s.HasTitles = true := by
    unfold pyListGet at h0
    unfold Titles.HasTitles
    rcases hg : s.titles.get? 0 with _ | a
    · rw [hg] at h0
      cases h0
    · rw [List.get?_eq_some] at hg
      exact decide_eq_true hg.1
  unfold Titles.GetMatchingTitles
  simp only [hne, Bool.true_eq_false, if_false]
  simp only [h0, ht0, hd0, Bind.bind, Except.bind]
  unfold Titles.resolvedOrderedE at hres
  rw [foldlM_gmtStep_eq s _ _ _ l _ hres]
  set ws := decide (flags &&& Titles.FLAG_SELECTED ≠ 0) with hws
  set wv := decide (flags &&& Titles.FLAG_VISIBLE ≠ 0) with hwv
  set R := List.foldl (gmtPureStep ws wv)
    { firstSelectedVisibleTitle := none, firstSelectedTitle := none,
      firstVisibleTitle := none, longestTitle := oid0, longestTitleLength := d0,
      matchingTitles := [] } l with hR
  have hfil : l.filter (fun x => gmtPasses ws wv x.2.1) = [] := by
    rw [List.filter_eq_nil_iff]
    intro a ha
    rw [hempty a ha]
    simp
  have hm : R.matchingTitles = [] := by
    rw [hR, foldl_gmt_matching, hfil]
    rfl
  have hfsv : R.firstSelectedVisibleTitle =
      (l.find? (fun x => x.2.1.selected && x.2.1.visible)).map Prod.fst := by
    rw [hR, foldl_gmt_fsv]
  have hfs : R.firstSelectedTitle =
      (l.find? (fun x => x.2.1.selected)).map Prod.fst := by
    rw [hR, foldl_gmt_fs]
  have hfv : R.firstVisibleTitle =
      (l.find? (fun x => x.2.1.visible)).map Prod.fst := by
    rw [hR, foldl_gmt_fv]
  simp only [hm, List.length_nil, ne_eq, not_true_eq_false, if_false]
  rw [hfsv, hfs, hfv]
  unfold specDefaultTitle firstSuch
  rw [List.find?_map, List.find?_map, List.find?_map]
  simp only [Function.comp_def, Option.map_map]
  rcases hA : l.find? (fun x => x.2.1.selected && x.2.1.visible) with _ | a
  · rcases hB : l.find? (fun x => x.2.1.selected) with _ | b
    · rcases hC : l.find? (fun x => x.2.1.visible) with _ | c
      · simp only [hA, hB, hC, Option.map_none', Option.map_some', h0, pure, Except.pure]
        exact ⟨_, oid0, rfl, rfl, rfl, rfl, rfl⟩
      · simp only [hA, hB, hC, Option.map_none', Option.map_some', pure, Except.pure]
        exact ⟨_, c.1, rfl, rfl, rfl, rfl, rfl⟩
    · simp only [hA, hB, Option.map_none', Option.map_some', pure, Except.pure]
      exact ⟨_, b.1, rfl, rfl, rfl, rfl, rfl⟩
  · simp only [hA, Option.map_some', pure, Except.pure]
    exact ⟨_, a.1, rfl, rfl, rfl, rfl, rfl⟩

/-- C6 counterexample: in a valid two-title collection where the backing
sequence is [title 1 (order 1), title 2 (order 0)] and nothing is selected
or visible, `GetMatchingTitles` with `wantSelected` returns defaultTitle =
title 1 — the head of the backing sequence — although the earliest title in
ascending order-number order is title 2 (order number 0). -/
theorem C6_fallback_counterexample :
    Titles.GetMatchingTitles skewedTitles 1 =
      Except.ok ⟨[], none, some 1, 1⟩ ∧
    skewedTitles.GetByOrderNumber 0 = some 2 := by
  exact ⟨by decide, by decide⟩

/-- Witness for `C6_default_fallback` at the concrete skewed collection and
flags = FLAG_SELECTED. -/
theorem C6_default_fallback_witness :
    ∃ r dflt, skewedTitles.GetMatchingTitles 1 = Except.ok r ∧
      r.matchingTitles = [] ∧ r.longestMatchingTitle = none ∧
      r.defaultTitle = some dflt ∧
      specDefaultTitle skewedTitles
        ([(2, mkTitle 2 2 0 "00:00:10" false false, (10 : Int)),
          (1, mkTitle 1 1 1 "00:00:10" false false, (10 : Int))].map
            (fun x => (x.1, x.2.1))) = Except.ok dflt :=
  C6_default_fallback skewedTitles 1
    [(2, mkTitle 2 2 0 "00:00:10" false false, 10),
     (1, mkTitle 1 1 1 "00:00:10" false false, 10)]
    1 (mkTitle 1 1 1 "00:00:10" false false) 10
    (by decide) (by decide) (by decide) (by decide) (by decide)

section SntoLemmas

theorem snto_loop (rest : List Int) :
    ∀ (st : Titles) (k : Int),
    rest.Nodup →
    (∀ tn ∈ rest, ∃ oid, st.titlesByTitleNumber.lookup tn = some oid ∧
      (st.heap.lookup oid).isSome) →
    (∀ tn tn' oid, tn ∈ rest → tn' ∈ rest →
      st.titlesByTitleNumber.lookup tn = some oid →
      st.titlesByTitleNumber.lookup tn' = some oid → tn = tn') →
    ∃ st', rest.foldlM sntoStep (st, k) = Except.ok (st', k + rest.length) ∧
      st'.titles = st.titles ∧
      st'.titlesById = st.titlesById ∧
      st'.titlesByTitleNumber = st.titlesByTitleNumber ∧
      (∀ i : Nat, (hi : i < rest.length) → ∃ oid t,
        st.titlesByTitleNumber.lookup (rest.get ⟨i, hi⟩) = some oid ∧
        st.heap.lookup oid = some t ∧
        st'.heap.lookup oid = some { t with orderNumber := k + i } ∧
        st'.titlesByOrderNumber.lookup (k + i) = some oid) ∧
      (∀ oid, (∀ tn ∈ rest, st.titlesByTitleNumber.lookup tn ≠ some oid) →
        st'.heap.lookup oid = st.heap.lookup oid) ∧
      (∀ j : Int, (∀ i : Nat, i < rest.length → j ≠ k + i) →
        st'.titlesByOrderNumber.lookup j = st.titlesByOrderNumber.lookup j) := by
  induction rest with
  | nil =>
      intro st k _ _ _
      refine ⟨st, by simp [pure, Except.pure], rfl, rfl, rfl, ?_, fun _ _ => rfl,
        fun _ _ => rfl⟩
      intro i hi
      simp at hi
  | cons tn rest ih =>
      intro st k hnd hlook hinj
      obtain ⟨oid, hlo, hh⟩ := hlook tn (List.mem_cons_self tn rest)
      rcases ht : st.heap.lookup oid with _ | t
      · rw [ht] at hh
        cases hh
      set st1 : Titles :=
        { st with heap := st.heap.set oid { t with orderNumber := k }
                  titlesByOrderNumber := st.titlesByOrderNumber.set k oid } with hst1
      have hstep : sntoStep (st, k) tn = Except.ok (st1, k + 1) := by
        unfold sntoStep Titles.GetByTitleNumber
        show (match st.titlesByTitleNumber.lookup tn with
          | none => Except.error "AttributeError: NoneType has no attribute orderNumber"
          | some oid => do
              let t ← st.getTitleE oid
              pure ({ st with
                       heap := st.heap.set oid { t with orderNumber := k }
                       titlesByOrderNumber := st.titlesByOrderNumber.set k oid },
                    k + 1)) = Except.ok (st1, k + 1)
        rw [hlo]
        simp only [Titles.getTitleE, ht, exceptOfOption, Bind.bind, Except.bind,
          pure, Except.pure]
      have hnd' : rest.Nodup := (List.nodup_cons.mp hnd).2
      have htnmem : tn ∉ rest := (List.nodup_cons.mp hnd).1
      have hbtn1 : st1.titlesByTitleNumber = st.titlesByTitleNumber := rfl
      have hlook1 : ∀ tn' ∈ rest, ∃ oid',
          st1.titlesByTitleNumber.lookup tn' = some oid' ∧
          (st1.heap.lookup oid').isSome := by
        intro tn' hm
        obtain ⟨oid', hlo', hh'⟩ := hlook tn' (List.mem_cons_of_mem _ hm)
        refine ⟨oid', hlo', ?_⟩
        by_cases he : oid' = oid
        · subst he
          rw [show st1.heap = st.heap.set oid' { t with orderNumber := k } from rfl,
            Dict.lookup_set_self]
          rfl
        · rw [show st1.heap = st.heap.set oid { t with orderNumber := k } from rfl,
            Dict.lookup_set_ne _ _ _ _ he]
          exact hh'
      have hinj1 : ∀ ta tb o, ta ∈ rest → tb ∈ rest →
          st1.titlesByTitleNumber.lookup ta = some o →
          st1.titlesByTitleNumber.lookup tb = some o → ta = tb := by
        intro ta tb o hma hmb h1 h2
        exact hinj ta tb o (List.mem_cons_of_mem _ hma) (List.mem_cons_of_mem _ hmb) h1 h2
      obtain ⟨st', hfold, hti, hbi, hbt, hidx, hheapU, hordU⟩ :=
        ih st1 (k + 1) hnd' hlook1 hinj1
      have hoid_ne : ∀ tn' ∈ rest, ∀ o', st.titlesByTitleNumber.lookup tn' = some o' →
          o' ≠ oid := by
        intro tn' hm o' hlo' he
        subst he
        exact htnmem (hinj tn tn' o' (List.mem_cons_self _ _)
          (List.mem_cons_of_mem _ hm) hlo hlo' ▸ hm)
      refine ⟨st', ?_, ?_, ?_, ?_, ?_, ?_, ?_⟩
      · rw [List.foldlM_cons, hstep]
        simp only [Bind.bind, Except.bind]
        rw [hfold]
        have harith : (k + 1) + (rest.length : Int) = k + ((tn :: rest).length : Nat) := by
          push_cast [List.length_cons]
          ring
        rw [harith]
      · exact hti
      · exact hbi
      · exact hbt.trans hbtn1
      · intro i hi
        match i with
        | 0 =>
            refine ⟨oid, t, hlo, ht, ?_, ?_⟩
            · have hnot : ∀ tn' ∈ rest, st1.titlesByTitleNumber.lookup tn' ≠ some oid := by
                intro tn' hm he
                exact hoid_ne tn' hm oid he rfl
              rw [hheapU oid hnot,
                show st1.heap = st.heap.set oid { t with orderNumber := k } from rfl,
                Dict.lookup_set_self]
              norm_num
            · have hne : ∀ i : Nat, i < rest.length → (k : Int) ≠ (k + 1) + i := by
                intro i _
                omega
              rw [show ((k : Int) + (0 : Nat)) = k by norm_num, hordU k hne,
                show st1.titlesByOrderNumber = st.titlesByOrderNumber.set k oid from rfl,
                Dict.lookup_set_self]
        | Nat.succ i =>
            have hi' : i < rest.length := by
              simpa using Nat.lt_of_succ_lt_succ hi
            obtain ⟨oid', t', hlo', ht', hh', ho'⟩ := hidx i hi'
            have hne' : oid' ≠ oid :=
              hoid_ne (rest.get ⟨i, hi'⟩) (rest.get_mem _ _) oid' hlo'
            refine ⟨oid', t', hlo', ?_, ?_, ?_⟩
            · rw [show st1.heap = st.heap.set oid { t with orderNumber := k } from rfl,
                Dict.lookup_set_ne _ _ _ _ hne'] at ht'
              exact ht'
            · rw [show ((k : Int) + (Nat.succ i : Nat)) = (k + 1) + i by push_cast; ring]
              exact hh'
            · rw [show ((k : Int) + (Nat.succ i : Nat)) = (k + 1) + i by push_cast; ring]
              exact ho'
      · intro o ho
        have hnot1 : ∀ tn' ∈ rest, st1.titlesByTitleNumber.lookup tn' ≠ some o :=
          fun tn' hm => ho tn' (List.mem_cons_of_mem _ hm)
        rw [hheapU o hnot1]
        have hone : o ≠ oid := by
          intro he
          exact ho tn (List.mem_cons_self _ _) (he ▸ hlo)
        rw [show st1.heap = st.heap.set oid { t with orderNumber := k } from rfl,
          Dict.lookup_set_ne _ _ _ _ hone]
      · intro j hj
        have hj1 : ∀ i : Nat, i < rest.length → j ≠ (k + 1) + i := by
          intro i hi
          have := hj (i + 1) (by simpa using Nat.succ_lt_succ hi)
          push_cast at this ⊢
          omega
        rw [hordU j hj1]
        have hjk : j ≠ k := by
          have := hj 0 (by simp)
          simpa using this
        rw [show st1.titlesByOrderNumber = st.titlesByOrderNumber.set k oid from rfl,
          Dict.lookup_set_ne _ _ _ _ hjk]

end SntoLemmas

/-- C7: after `SetNaturalTitleOrder` on a collection whose title-number
index is consistent (titles resolvable, numbers distinct, every live title
indexed), every live title's orderNumber equals the rank of its titleNumber
in the ascending sorted title-number list (smallest number gets 0, and so
on), the order-number index maps every k in [0, n) to the title holding
orderNumber k, and exactly the keys 0..n-1 are present in that index. -/
theorem C7_natural_order (s : Titles)
    (hnd : s.titlesByTitleNumber.keys.Nodup)
    (hres : ∀ tn oid, s.titlesByTitleNumber.lookup tn = some oid →
        ∃ t, s.heap.lookup oid = some t ∧ t.titleNumber = tn)
    (hcover : ∀ oid ∈ s.titles, ∃ t, s.heap.lookup oid = some t ∧
        s.titlesByTitleNumber.lookup t.titleNumber = some oid)
    (hn : (sortedIntKeys s.titlesByTitleNumber).length = s.titles.length) :
    ∃ s', s.SetNaturalTitleOrder = Except.ok s' ∧
      s'.titles = s.titles ∧
      (∀ oid ∈ s.titles, ∃ t, s.heap.lookup oid = some t ∧
        s'.heap.lookup oid = some { t with orderNumber :=
          (List.indexOf t.titleNumber (sortedIntKeys s.titlesByTitleNumber) : Int) }) ∧
      (∀ j : Nat, j < s.titles.length →
        ∃ oid t', s'.titlesByOrderNumber.lookup j = some oid ∧
          s'.heap.lookup oid = some t' ∧ t'.orderNumber = j) ∧
      (∀ j : Int, (s'.titlesByOrderNumber.lookup j).isSome ↔
        (0 ≤ j ∧ j < s.titles.length)) := by
  set keys := sortedIntKeys s.titlesByTitleNumber with hkeys
  set s0 : Titles := { s with titlesByOrderNumber := (Dict.empty : Dict Int Nat) }
    with hs0
  have hperm : keys.Perm s.titlesByTitleNumber.keys :=
    List.perm_insertionSort _ _
  have hknd : keys.Nodup := hperm.nodup_iff.mpr hnd
  have hlook : ∀ tn ∈ keys, ∃ oid, s0.titlesByTitleNumber.lookup tn = some oid ∧
      (s0.heap.lookup oid).isSome := by
    intro tn hm
    have hm' : tn ∈ s.titlesByTitleNumber.keys := hperm.mem_iff.mp hm
    have := Dict.lookup_isSome_of_mem_keys _ _ hm'
    rcases hlo : s.titlesByTitleNumber.lookup tn with _ | oid
    · rw [hlo] at this
      cases this
    · obtain ⟨t, ht, -⟩ := hres tn oid hlo
      exact ⟨oid, rfl, by rw [show s0.heap = s.heap from rfl, ht]; rfl⟩
  have hinj : ∀ ta tb o, ta ∈ keys → tb ∈ keys →
      s0.titlesByTitleNumber.lookup ta = some o →
      s0.titlesByTitleNumber.lookup tb = some o → ta = tb := by
    intro ta tb o _ _ h1 h2
    obtain ⟨t1, ht1, he1⟩ := hres ta o h1
    obtain ⟨t2, ht2, he2⟩ := hres tb o h2
    rw [ht1] at ht2
    cases ht2
    rw [← he1, ← he2]
  obtain ⟨s', hfold, hti, hbi, hbt, hidx, hheapU, hordU⟩ :=
    snto_loop keys s0 0 hknd hlook hinj
  have hmain : s.SetNaturalTitleOrder = Except.ok s' := by
    unfold Titles.SetNaturalTitleOrder
    rw [← hkeys, ← hs0, hfold]
    simp [Bind.bind, Except.bind, pure, Except.pure]
  refine ⟨s', hmain, hti, ?_, ?_, ?_⟩
  · intro oid hmem
    obtain ⟨t, ht, htl⟩ := hcover oid hmem
    have hmemk : t.titleNumber ∈ keys :=
      hperm.mem_iff.mpr (Dict.mem_keys_of_lookup _ _ _ htl)
    have hilt : List.indexOf t.titleNumber keys < keys.length :=
      List.indexOf_lt_length.mpr hmemk
    obtain ⟨oid', t', hlo', ht', hh', -⟩ := hidx (List.indexOf t.titleNumber keys) hilt
    have hgetk : keys.get ⟨List.indexOf t.titleNumber keys, hilt⟩ = t.titleNumber := by
      simp [List.getElem_indexOf hilt]
    rw [hgetk] at hlo'
    rw [show s0.titlesByTitleNumber = s.titlesByTitleNumber from rfl, htl] at hlo'
    cases hlo'
    rw [show s0.heap = s.heap from rfl, ht] at ht'
    cases ht'
    refine ⟨t, ht, ?_⟩
    rw [hh']
    norm_num
  · intro j hj
    have hj' : j < keys.length := by rw [hn]; exact hj
    obtain ⟨oid, t, hlo, ht, hh, ho⟩ := hidx j hj'
    refine ⟨oid, { t with orderNumber := (j : Int) }, ?_, ?_, rfl⟩
    · rw [show ((0 : Int) + (j : Nat)) = (j : Int) by norm_num] at ho
      exact ho
    · rw [hh]
      norm_num
  · intro j
    constructor
    · intro hsome
      by_cases hex : ∃ i : Nat, i < keys.length ∧ j = (i : Int)
      · obtain ⟨i, hi, rfl⟩ := hex
        constructor
        · exact Int.ofNat_nonneg i
        · rw [← hn]
          exact_mod_cast hi
      · have hne : ∀ i : Nat, i < keys.length → j ≠ (0 : Int) + i := by
          intro i hi he
          exact hex ⟨i, hi, by omega⟩
        rw [hordU j hne,
          show s0.titlesByOrderNumber = (Dict.empty : Dict Int Nat) from rfl,
          Dict.lookup_empty] at hsome
        cases hsome
    · rintro ⟨h0, hlt⟩
      have hj' : j.toNat < keys.length := by
        rw [hn]
        omega
      obtain ⟨oid, t, hlo, ht, hh, ho⟩ := hidx j.toNat hj'
      rw [show ((0 : Int) + (j.toNat : Nat)) = j by omega] at ho
      rw [ho]
      rfl

/-- Witness for `C7_natural_order` at a concrete two-title collection with
title numbers 1 and 2. -/
theorem C7_natural_order_witness :
    ∃ s', gmtBugTitles.SetNaturalTitleOrder = Except.ok s' ∧
      s'.titles = gmtBugTitles.titles ∧
      (∀ oid ∈ gmtBugTitles.titles, ∃ t, gmtBugTitles.heap.lookup oid = some t ∧
        s'.heap.lookup oid = some { t with orderNumber :=
          (List.indexOf t.titleNumber
            (sortedIntKeys gmtBugTitles.titlesByTitleNumber) : Int) }) ∧
      (∀ j : Nat, j < gmtBugTitles.titles.length →
        ∃ oid t', s'.titlesByOrderNumber.lookup j = some oid ∧
          s'.heap.lookup oid = some t' ∧ t'.orderNumber = j) ∧
      (∀ j : Int, (s'.titlesByOrderNumber.lookup j).isSome ↔
        (0 ≤ j ∧ j < gmtBugTitles.titles.length)) := by
  apply C7_natural_order gmtBugTitles (by decide)
  · intro tn oid h
    have he : gmtBugTitles.titlesByTitleNumber = ⟨[(1, 1), (2, 2)]⟩ := by decide
    rw [he] at h
    simp only [Dict.lookup, lookupList] at h
    split_ifs at h with h1 h2
    · cases h
      exact ⟨mkTitle 1 1 0 "00:00:10" false true, by decide, by rw [← h1]; decide⟩
    · cases h
      exact ⟨mkTitle 2 2 1 "00:00:20" false true, by decide, by rw [← h2]; decide⟩
  · intro oid hm
    rw [show gmtBugTitles.titles = [1, 2] from by decide] at hm
    rcases List.mem_cons.mp hm with rfl | hm'
    · exact ⟨mkTitle 1 1 0 "00:00:10" false true, by decide, by decide⟩
    · rcases List.mem_cons.mp hm' with rfl | hm''
      · exact ⟨mkTitle 2 2 1 "00:00:20" false true, by decide, by decide⟩
      · simp at hm''
  · decide

section ListHelpers

variable {α : Type}

theorem pyListInsert_perm (l : List α) (idx : Nat) (a : α) :
    (pyListInsert l idx a).Perm (a :: l) := by
  by_cases h : l.length ≤ idx
  · rw [pyListInsert, if_pos h]
    exact List.perm_append_singleton a l
  · rw [pyListInsert, if_neg h]
    exact List.perm_insertIdx a l (le_of_lt (not_le.mp h))

theorem mem_pyListInsert (l : List α) (idx : Nat) (a x : α) :
    x ∈ pyListInsert l idx a ↔ x = a ∨ x ∈ l := by
  rw [(pyListInsert_perm l idx a).mem_iff, List.mem_cons]

theorem nodup_pyListInsert (l : List α) (idx : Nat) (a : α)
    (hnd : l.Nodup) (ha : a ∉ l) : (pyListInsert l idx a).Nodup :=
  (pyListInsert_perm l idx a).nodup_iff.mpr (List.nodup_cons.mpr ⟨ha, hnd⟩)

theorem mem_list_set_of_nodup {l : List α} {i : Nat} (hi : i < l.length)
    (hnd : l.Nodup) (b x : α) :
    x ∈ l.set i b ↔ x = b ∨ (x ∈ l ∧ x ≠ l.get ⟨i, hi⟩) := by
  induction l generalizing i with
  | nil => simp at hi
  | cons hd tl ih =>
      match i with
      | 0 =>
          simp only [List.set_cons_zero, List.mem_cons, List.get]
          constructor
          · rintro (rfl | hx)
            · exact Or.inl rfl
            · refine Or.inr ⟨Or.inr hx, ?_⟩
              intro he
              exact (List.nodup_cons.mp hnd).1 (he ▸ hx)
          · rintro (rfl | ⟨hmem, hne⟩)
            · exact Or.inl rfl
            · rcases hmem with rfl | hx
              · exact absurd rfl hne
              · exact Or.inr hx
      | Nat.succ i =>
          have hi' : i < tl.length := Nat.lt_of_succ_lt_succ hi
          have hget : ((hd :: tl).get ⟨i + 1, hi⟩) = tl.get ⟨i, hi'⟩ := rfl
          have hhd : hd ≠ tl.get ⟨i, hi'⟩ := by
            intro he
            exact (List.nodup_cons.mp hnd).1 (he ▸ tl.get_mem _ _)
          simp only [List.set_cons_succ, List.mem_cons, hget,
            ih hi' (List.nodup_cons.mp hnd).2]
          constructor
          · rintro (rfl | rfl | ⟨hx, hne⟩)
            · exact Or.inr ⟨Or.inl rfl, hhd⟩
            · exact Or.inl rfl
            · exact Or.inr ⟨Or.inr hx, hne⟩
          · rintro (rfl | ⟨rfl | hx, hne⟩)
            · exact Or.inr (Or.inl rfl)
            · exact Or.inl rfl
            · exact Or.inr (Or.inr ⟨hx, hne⟩)

theorem nodup_list_set {l : List α} {i : Nat} (hi : i < l.length)
    (hnd : l.Nodup) {b : α} (hb : b ∉ l) : (l.set i b).Nodup := by
  induction l generalizing i with
  | nil => simp
  | cons hd tl ih =>
      match i with
      | 0 =>
          rw [List.set_cons_zero]
          exact List.nodup_cons.mpr
            ⟨fun hm => hb (List.mem_cons_of_mem _ hm), (List.nodup_cons.mp hnd).2⟩
      | Nat.succ i =>
          have hi' : i < tl.length := Nat.lt_of_succ_lt_succ hi
          rw [List.set_cons_succ]
          refine List.nodup_cons.mpr ⟨?_, ih hi' (List.nodup_cons.mp hnd).2
            (fun hm => hb (List.mem_cons_of_mem _ hm))⟩
          intro hm
          rcases (mem_list_set_of_nodup hi' (List.nodup_cons.mp hnd).2 b hd).mp hm with
            rfl | ⟨hmem, -⟩
          · exact hb (List.mem_cons_self _ _)
          · exact (List.nodup_cons.mp hnd).1 hmem

theorem mem_eraseIdx_of_nodup {l : List α} {i : Nat} (hi : i < l.length)
    (hnd : l.Nodup) (x : α) :
    x ∈ l.eraseIdx i ↔ (x ∈ l ∧ x ≠ l.get ⟨i, hi⟩) := by
  rw [List.mem_eraseIdx_iff_getElem]
  constructor
  · rintro ⟨j, hj, hne, hval⟩
    refine ⟨hval ▸ List.getElem_mem hj, ?_⟩
    intro he
    apply hne
    have : l[j] = l[i] := by
      rw [hval, he]
      simp [List.get_eq_getElem]
    exact List.Nodup.getElem_inj_iff hnd |>.mp this
  · rintro ⟨hmem, hne⟩
    obtain ⟨j, hj, hval⟩ := List.mem_iff_getElem.mp hmem
    refine ⟨j, hj, ?_, hval⟩
    intro he
    apply hne
    subst he
    rw [← hval]
    simp [List.get_eq_getElem]

end ListHelpers

section IndicesPreservation

theorem insert_preserves_indices (s : Titles) (idx : Nat) (t : Title)
    (hinv : s.IndicesConsistent)
    (hoid : t.oid ∉ s.titles)
    (hfresh : ∀ o ∈ s.titles, ∀ u, s.heap.lookup o = some u →
        u.titleNumber ≠ t.titleNumber ∧ u.orderNumber ≠ t.orderNumber) :
    (s.insert idx t).IndicesConsistent := by
  obtain ⟨hndT, hndI, hndN, hndO, hheap, hbyId, hbyTN, hbyON⟩ := hinv
  have hmem : ∀ x, x ∈ (s.insert idx t).titles ↔ x = t.oid ∨ x ∈ s.titles :=
    fun x => mem_pyListInsert s.titles idx t.oid x
  have hne_of_mem : ∀ w ∈ s.titles, w ≠ t.oid := by
    intro w hw he
    exact hoid (he ▸ hw)
  have hprojId : (s.insert idx t).titlesById = s.titlesById.set t.oid t.oid := rfl
  have hprojTN : (s.insert idx t).titlesByTitleNumber =
      s.titlesByTitleNumber.set t.titleNumber t.oid := rfl
  have hprojON : (s.insert idx t).titlesByOrderNumber =
      s.titlesByOrderNumber.set t.orderNumber t.oid := rfl
  have hprojH : (s.insert idx t).heap = s.heap.set t.oid t := rfl
  have hheapEq : ∀ w ∈ s.titles, (s.insert idx t).heap.lookup w = s.heap.lookup w := by
    intro w hw
    exact Dict.lookup_set_ne _ _ _ _ (hne_of_mem w hw)
  refine ⟨?_, ?_, ?_, ?_, ?_, ?_, ?_, ?_⟩
  · exact nodup_pyListInsert _ idx _ hndT hoid
  · exact Dict.nodup_keys_set _ _ _ hndI
  · exact Dict.nodup_keys_set _ _ _ hndN
  · exact Dict.nodup_keys_set _ _ _ hndO
  · intro o ho
    rcases (hmem o).mp ho with rfl | ho'
    · exact ⟨t, hprojH ▸ Dict.lookup_set_self _ _ _, rfl⟩
    · obtain ⟨u, hu, huo⟩ := hheap o ho'
      exact ⟨u, (hheapEq o ho').symm ▸ hu, huo⟩
  · intro o w
    by_cases ho : o = t.oid
    · subst ho
      rw [hprojId, Dict.lookup_set_self]
      constructor
      · rintro h
        cases h
        exact ⟨(hmem _).mpr (Or.inl rfl), rfl⟩
      · rintro ⟨-, rfl⟩
        rfl
    · rw [hprojId, Dict.lookup_set_ne _ _ _ _ ho, hbyId o w, hmem o]
      constructor
      · rintro ⟨hm, rfl⟩
        exact ⟨Or.inr hm, rfl⟩
      · rintro ⟨rfl | hm, rfl⟩
        · exact absurd rfl ho
        · exact ⟨hm, rfl⟩
  · intro n w
    by_cases hn : n = t.titleNumber
    · subst hn
      rw [hprojTN, Dict.lookup_set_self]
      constructor
      · rintro h
        cases h
        exact ⟨(hmem _).mpr (Or.inl rfl), t, hprojH ▸ Dict.lookup_set_self _ _ _, rfl⟩
      · rintro ⟨hm, u, hu, hun⟩
        rcases (hmem w).mp hm with rfl | hm'
        · rfl
        · rw [hheapEq w hm'] at hu
          exact absurd hun (hfresh w hm' u hu).1
    · rw [hprojTN, Dict.lookup_set_ne _ _ _ _ hn]
      rw [hbyTN n w]
      constructor
      · rintro ⟨hm, u, hu, hun⟩
        exact ⟨(hmem w).mpr (Or.inr hm), u, (hheapEq w hm) ▸ hu, hun⟩
      · rintro ⟨hm, u, hu, hun⟩
        rcases (hmem w).mp hm with rfl | hm'
        · rw [hprojH, Dict.lookup_set_self] at hu
          cases hu
          exact absurd hun.symm hn
        · exact ⟨hm', u, (hheapEq w hm') ▸ hu, hun⟩
  · intro n w
    by_cases hn : n = t.orderNumber
    · subst hn
      rw [hprojON, Dict.lookup_set_self]
      constructor
      · rintro h
        cases h
        exact ⟨(hmem _).mpr (Or.inl rfl), t, hprojH ▸ Dict.lookup_set_self _ _ _, rfl⟩
      · rintro ⟨hm, u, hu, hun⟩
        rcases (hmem w).mp hm with rfl | hm'
        · rfl
        · rw [hheapEq w hm'] at hu
          exact absurd hun (hfresh w hm' u hu).2
    · rw [hprojON, Dict.lookup_set_ne _ _ _ _ hn]
      rw [hbyON n w]
      constructor
      · rintro ⟨hm, u, hu, hun⟩
        exact ⟨(hmem w).mpr (Or.inr hm), u, (hheapEq w hm) ▸ hu, hun⟩
      · rintro ⟨hm, u, hu, hun⟩
        rcases (hmem w).mp hm with rfl | hm'
        · rw [hprojH, Dict.lookup_set_self] at hu
          cases hu
          exact absurd hun.symm hn
        · exact ⟨hm', u, (hheapEq w hm') ▸ hu, hun⟩

theorem setitem_preserves_indices (s : Titles) (idx : Nat) (t : Title)
    (hinv : s.IndicesConsistent)
    (hidx : idx < s.titles.length)
    (hoid : t.oid ∉ s.titles)
    (hfresh : ∀ o ∈ s.titles, o ≠ s.titles.get ⟨idx, hidx⟩ →
        ∀ u, s.heap.lookup o = some u →
        u.titleNumber ≠ t.titleNumber ∧ u.orderNumber ≠ t.orderNumber) :
    ∃ s', s.setitem idx t = Except.ok s' ∧ s'.IndicesConsistent := by
  obtain ⟨hndT, hndI, hndN, hndO, hheap, hbyId, hbyTN, hbyON⟩ := hinv
  set oldOid := s.titles.get ⟨idx, hidx⟩ with holdOid
  have hmemOld : oldOid ∈ s.titles := s.titles.get_mem _ _
  obtain ⟨old, hold, holdoid⟩ := hheap oldOid hmemOld
  have hlookId : s.titlesById.lookup oldOid = some oldOid :=
    (hbyId oldOid oldOid).mpr ⟨hmemOld, rfl⟩
  obtain ⟨byId1, hpopId⟩ := Dict.pop_of_lookup _ _ _ hlookId
  have hlookTN : s.titlesByTitleNumber.lookup old.titleNumber = some oldOid :=
    (hbyTN old.titleNumber oldOid).mpr ⟨hmemOld, old, hold, rfl⟩
  obtain ⟨byTN1, hpopTN⟩ := Dict.pop_of_lookup _ _ _ hlookTN
  have hlookON : s.titlesByOrderNumber.lookup old.orderNumber = some oldOid :=
    (hbyON old.orderNumber oldOid).mpr ⟨hmemOld, old, hold, rfl⟩
  obtain ⟨byON1, hpopON⟩ := Dict.pop_of_lookup _ _ _ hlookON
  set s' : Titles :=
    { heap := s.heap.set t.oid t
      titles := s.titles.set idx t.oid
      titlesById := byId1.set t.oid t.oid
      titlesByTitleNumber := byTN1.set t.titleNumber t.oid
      titlesByOrderNumber := byON1.set t.orderNumber t.oid } with hs'
  have hget : pyListGet s.titles idx = Except.ok oldOid := by
    unfold pyListGet
    rw [List.get?_eq_get hidx]
  have hstep : s.setitem idx t = Except.ok s' := by
    unfold Titles.setitem
    rw [hget]
    simp only [Bind.bind, Except.bind, Titles.getTitleE, hold, exceptOfOption,
      hpopId, hpopTN, hpopON, pure, Except.pure]
  have hmem' : ∀ x, x ∈ s'.titles ↔ x = t.oid ∨ (x ∈ s.titles ∧ x ≠ oldOid) :=
    fun x => mem_list_set_of_nodup hidx hndT t.oid x
  have hne_toid : ∀ w ∈ s.titles, w ≠ t.oid := by
    intro w hw he
    exact hoid (he ▸ hw)
  have hheapEq : ∀ w ∈ s.titles, s'.heap.lookup w = s.heap.lookup w := by
    intro w hw
    exact Dict.lookup_set_ne _ _ _ _ (hne_toid w hw)
  have holdne : oldOid ≠ t.oid := hne_toid oldOid hmemOld
  have hId1 : ∀ o : Nat, o ≠ oldOid → byId1.lookup o = s.titlesById.lookup o :=
    fun o ho => Dict.lookup_pop_ne _ _ _ _ _ hpopId ho
  have hId1old : byId1.lookup oldOid = none :=
    Dict.lookup_pop_self _ _ _ _ hpopId hndI
  have hTN1 : ∀ n : Int, n ≠ old.titleNumber →
      byTN1.lookup n = s.titlesByTitleNumber.lookup n :=
    fun n hn => Dict.lookup_pop_ne _ _ _ _ _ hpopTN hn
  have hTN1old : byTN1.lookup old.titleNumber = none :=
    Dict.lookup_pop_self _ _ _ _ hpopTN hndN
  have hON1 : ∀ n : Int, n ≠ old.orderNumber →
      byON1.lookup n = s.titlesByOrderNumber.lookup n :=
    fun n hn => Dict.lookup_pop_ne _ _ _ _ _ hpopON hn
  have hON1old : byON1.lookup old.orderNumber = none :=
    Dict.lookup_pop_self _ _ _ _ hpopON hndO
  have hprojId : s'.titlesById = byId1.set t.oid t.oid := rfl
  have hprojTN : s'.titlesByTitleNumber = byTN1.set t.titleNumber t.oid := rfl
  have hprojON : s'.titlesByOrderNumber = byON1.set t.orderNumber t.oid := rfl
  have hprojH : s'.heap = s.heap.set t.oid t := rfl
  refine ⟨s', hstep, nodup_list_set hidx hndT hoid,
    Dict.nodup_keys_set _ _ _ (Dict.nodup_keys_pop _ _ _ _ hpopId hndI),
    Dict.nodup_keys_set _ _ _ (Dict.nodup_keys_pop _ _ _ _ hpopTN hndN),
    Dict.nodup_keys_set _ _ _ (Dict.nodup_keys_pop _ _ _ _ hpopON hndO),
    ?_, ?_, ?_, ?_⟩
  · intro o ho
    rcases (hmem' o).mp ho with rfl | ⟨ho', -⟩
    · exact ⟨t, hprojH ▸ Dict.lookup_set_self _ _ _, rfl⟩
    · obtain ⟨u, hu, huo⟩ := hheap o ho'
      exact ⟨u, (hheapEq o ho').symm ▸ hu, huo⟩
  · intro o w
    by_cases ho : o = t.oid
    · subst ho
      rw [hprojId, Dict.lookup_set_self]
      constructor
      · rintro h
        cases h
        exact ⟨(hmem' _).mpr (Or.inl rfl), rfl⟩
      · rintro ⟨-, rfl⟩
        rfl
    · rw [hprojId, Dict.lookup_set_ne _ _ _ _ ho]
      by_cases ho2 : o = oldOid
      · rw [ho2, hId1old]
        constructor
        · rintro h
          cases h
        · rintro ⟨hm, rfl⟩
          rcases (hmem' oldOid).mp hm with h1 | ⟨-, hne⟩
          · exact absurd h1 holdne
          · exact absurd rfl hne
      · rw [hId1 o ho2, hbyId o w]
        constructor
        · rintro ⟨hm, rfl⟩
          exact ⟨(hmem' _).mpr (Or.inr ⟨hm, ho2⟩), rfl⟩
        · rintro ⟨hm, rfl⟩
          rcases (hmem' _).mp hm with rfl | ⟨hm', -⟩
          · exact absurd rfl ho
          · exact ⟨hm', rfl⟩
  · intro n w
    by_cases hn : n = t.titleNumber
    · subst hn
      rw [hprojTN, Dict.lookup_set_self]
      constructor
      · rintro h
        cases h
        exact ⟨(hmem' _).mpr (Or.inl rfl), t, hprojH ▸ Dict.lookup_set_self _ _ _, rfl⟩
      · rintro ⟨hm, u, hu, hun⟩
        rcases (hmem' w).mp hm with rfl | ⟨hm', hne⟩
        · rfl
        · rw [hheapEq w hm'] at hu
          exact absurd hun (hfresh w hm' hne u hu).1
    · rw [hprojTN, Dict.lookup_set_ne _ _ _ _ hn]
      by_cases hn2 : n = old.titleNumber
      · subst hn2
        rw [hTN1old]
        constructor
        · rintro h
          cases h
        · rintro ⟨hm, u, hu, hun⟩
          rcases (hmem' w).mp hm with rfl | ⟨hm', hne⟩
          · rw [hprojH, Dict.lookup_set_self] at hu
            cases hu
            exact absurd hun.symm hn
          · rw [hheapEq w hm'] at hu
            have : s.titlesByTitleNumber.lookup old.titleNumber = some w :=
              (hbyTN old.titleNumber w).mpr ⟨hm', u, hu, hun⟩
            rw [hlookTN] at this
            cases this
            exact absurd rfl hne
      · rw [hTN1 n hn2, hbyTN n w]
        constructor
        · rintro ⟨hm, u, hu, hun⟩
          have hwold : w ≠ oldOid := by
            rintro rfl
            rw [hold] at hu
            cases hu
            exact hn2 hun.symm
          exact ⟨(hmem' w).mpr (Or.inr ⟨hm, hwold⟩), u, (hheapEq w hm) ▸ hu, hun⟩
        · rintro ⟨hm, u, hu, hun⟩
          rcases (hmem' w).mp hm with rfl | ⟨hm', -⟩
          · rw [hprojH, Dict.lookup_set_self] at hu
            cases hu
            exact absurd hun.symm hn
          · exact ⟨hm', u, (hheapEq w hm') ▸ hu, hun⟩
  · intro n w
    by_cases hn : n = t.orderNumber
    · subst hn
      rw [hprojON, Dict.lookup_set_self]
      constructor
      · rintro h
        cases h
        exact ⟨(hmem' _).mpr (Or.inl rfl), t, hprojH ▸ Dict.lookup_set_self _ _ _, rfl⟩
      · rintro ⟨hm, u, hu, hun⟩
        rcases (hmem' w).mp hm with rfl | ⟨hm', hne⟩
        · rfl
        · rw [hheapEq w hm'] at hu
          exact absurd hun (hfresh w hm' hne u hu).2
    · rw [hprojON, Dict.lookup_set_ne _ _ _ _ hn]
      by_cases hn2 : n = old.orderNumber
      · subst hn2
        rw [hON1old]
        constructor
        · rintro h
          cases h
        · rintro ⟨hm, u, hu, hun⟩
          rcases (hmem' w).mp hm with rfl | ⟨hm', hne⟩
          · rw [hprojH, Dict.lookup_set_self] at hu
            cases hu
            exact absurd hun.symm hn
          · rw [hheapEq w hm'] at hu
            have : s.titlesByOrderNumber.lookup old.orderNumber = some w :=
              (hbyON old.orderNumber w).mpr ⟨hm', u, hu, hun⟩
            rw [hlookON] at this
            cases this
            exact absurd rfl hne
      · rw [hON1 n hn2, hbyON n w]
        constructor
        · rintro ⟨hm, u, hu, hun⟩
          have hwold : w ≠ oldOid := by
            rintro rfl
            rw [hold] at hu
            cases hu
            exact hn2 hun.symm
          exact ⟨(hmem' w).mpr (Or.inr ⟨hm, hwold⟩), u, (hheapEq w hm) ▸ hu, hun⟩
        · rintro ⟨hm, u, hu, hun⟩
          rcases (hmem' w).mp hm with rfl | ⟨hm', -⟩
          · rw [hprojH, Dict.lookup_set_self] at hu
            cases hu
            exact absurd hun.symm hn
          · exact ⟨hm', u, (hheapEq w hm') ▸ hu, hun⟩

theorem delitem_preserves_indices (s : Titles) (idx : Nat)
    (hinv : s.IndicesConsistent) (hidx : idx < s.titles.length) :
    ∃ s', s.delitem idx = Except.ok s' ∧ s'.IndicesConsistent := by
  obtain ⟨hndT, hndI, hndN, hndO, hheap, hbyId, hbyTN, hbyON⟩ := hinv
  set oldOid := s.titles.get ⟨idx, hidx⟩ with holdOid
  have hmemOld : oldOid ∈ s.titles := s.titles.get_mem _ _
  obtain ⟨old, hold, holdoid⟩ := hheap oldOid hmemOld
  have hlookId : s.titlesById.lookup oldOid = some oldOid :=
    (hbyId oldOid oldOid).mpr ⟨hmemOld, rfl⟩
  obtain ⟨byId1, hpopId⟩ := Dict.pop_of_lookup _ _ _ hlookId
  have hlookTN : s.titlesByTitleNumber.lookup old.titleNumber = some oldOid :=
    (hbyTN old.titleNumber oldOid).mpr ⟨hmemOld, old, hold, rfl⟩
  obtain ⟨byTN1, hpopTN⟩ := Dict.pop_of_lookup _ _ _ hlookTN
  have hlookON : s.titlesByOrderNumber.lookup old.orderNumber = some oldOid :=
    (hbyON old.orderNumber oldOid).mpr ⟨hmemOld, old, hold, rfl⟩
  obtain ⟨byON1, hpopON⟩ := Dict.pop_of_lookup _ _ _ hlookON
  set s' : Titles :=
    { s with titles := s.titles.eraseIdx idx
             titlesById := byId1
             titlesByTitleNumber := byTN1
             titlesByOrderNumber := byON1 } with hs'
  have hget : pyListGet s.titles idx = Except.ok oldOid := by
    unfold pyListGet
    rw [List.get?_eq_get hidx]
  have hstep : s.delitem idx = Except.ok s' := by
    unfold Titles.delitem
    rw [hget]
    simp only [Bind.bind, Except.bind, Titles.getTitleE, hold, exceptOfOption,
      hpopId, hpopTN, hpopON, pure, Except.pure]
  have hmem' : ∀ x, x ∈ s'.titles ↔ (x ∈ s.titles ∧ x ≠ oldOid) :=
    fun x => mem_eraseIdx_of_nodup hidx hndT x
  have hId1 : ∀ o : Nat, o ≠ oldOid → byId1.lookup o = s.titlesById.lookup o :=
    fun o ho => Dict.lookup_pop_ne _ _ _ _ _ hpopId ho
  have hId1old : byId1.lookup oldOid = none :=
    Dict.lookup_pop_self _ _ _ _ hpopId hndI
  have hTN1 : ∀ n : Int, n ≠ old.titleNumber →
      byTN1.lookup n = s.titlesByTitleNumber.lookup n :=
    fun n hn => Dict.lookup_pop_ne _ _ _ _ _ hpopTN hn
  have hTN1old : byTN1.lookup old.titleNumber = none :=
    Dict.lookup_pop_self _ _ _ _ hpopTN hndN
  have hON1 : ∀ n : Int, n ≠ old.orderNumber →
      byON1.lookup n = s.titlesByOrderNumber.lookup n :=
    fun n hn => Dict.lookup_pop_ne _ _ _ _ _ hpopON hn
  have hON1old : byON1.lookup old.orderNumber = none :=
    Dict.lookup_pop_self _ _ _ _ hpopON hndO
  have hprojId : s'.titlesById = byId1 := rfl
  have hprojTN : s'.titlesByTitleNumber = byTN1 := rfl
  have hprojON : s'.titlesByOrderNumber = byON1 := rfl
  have hprojH : s'.heap = s.heap := rfl
  refine ⟨s', hstep,
    (List.eraseIdx_sublist s.titles idx).nodup hndT,
    Dict.nodup_keys_pop _ _ _ _ hpopId hndI,
    Dict.nodup_keys_pop _ _ _ _ hpopTN hndN,
    Dict.nodup_keys_pop _ _ _ _ hpopON hndO,
    ?_, ?_, ?_, ?_⟩
  · intro o ho
    exact hheap o ((hmem' o).mp ho).1
  · intro o w
    rw [hprojId]
    by_cases ho : o = oldOid
    · rw [ho, hId1old]
      constructor
      · rintro h
        cases h
      · rintro ⟨hm, rfl⟩
        exact absurd rfl ((hmem' _).mp hm).2
    · rw [hId1 o ho, hbyId o w]
      constructor
      · rintro ⟨hm, rfl⟩
        exact ⟨(hmem' _).mpr ⟨hm, ho⟩, rfl⟩
      · rintro ⟨hm, rfl⟩
        exact ⟨((hmem' _).mp hm).1, rfl⟩
  · intro n w
    rw [hprojTN]
    by_cases hn : n = old.titleNumber
    · rw [hn, hTN1old]
      constructor
      · rintro h
        cases h
      · rintro ⟨hm, u, hu, hun⟩
        have : s.titlesByTitleNumber.lookup old.titleNumber = some w :=
          (hbyTN old.titleNumber w).mpr ⟨((hmem' w).mp hm).1, u, hu, hun⟩
        rw [hlookTN] at this
        cases this
        exact absurd rfl ((hmem' _).mp hm).2
    · rw [hTN1 n hn, hbyTN n w]
      constructor
      · rintro ⟨hm, u, hu, hun⟩
        have hwold : w ≠ oldOid := by
          rintro rfl
          rw [hold] at hu
          cases hu
          exact hn hun.symm
        exact ⟨(hmem' w).mpr ⟨hm, hwold⟩, u, hu, hun⟩
      · rintro ⟨hm, u, hu, hun⟩
        exact ⟨((hmem' w).mp hm).1, u, hu, hun⟩
  · intro n w
    rw [hprojON]
    by_cases hn : n = old.orderNumber
    · rw [hn, hON1old]
      constructor
      · rintro h
        cases h
      · rintro ⟨hm, u, hu, hun⟩
        have : s.titlesByOrderNumber.lookup old.orderNumber = some w :=
          (hbyON old.orderNumber w).mpr ⟨((hmem' w).mp hm).1, u, hu, hun⟩
        rw [hlookON] at this
        cases this
        exact absurd rfl ((hmem' _).mp hm).2
    · rw [hON1 n hn, hbyON n w]
      constructor
      · rintro ⟨hm, u, hu, hun⟩
        have hwold : w ≠ oldOid := by
          rintro rfl
          rw [hold] at hu
          cases hu
          exact hn hun.symm
        exact ⟨(hmem' w).mpr ⟨hm, hwold⟩, u, hu, hun⟩
      · rintro ⟨hm, u, hu, hun⟩
        exact ⟨((hmem' w).mp hm).1, u, hu, hun⟩

theorem empty_indicesConsistent : Titles.empty.IndicesConsistent := by
  refine ⟨by simp [Titles.empty], by simp [Titles.empty, Dict.empty, Dict.keys],
    by simp [Titles.empty, Dict.empty, Dict.keys],
    by simp [Titles.empty, Dict.empty, Dict.keys], ?_, ?_, ?_, ?_⟩
  · intro o ho
    exact absurd ho (List.not_mem_nil o)
  · intro o w
    constructor
    · rintro h
      cases h
    · rintro ⟨hm, -⟩
      exact absurd hm (List.not_mem_nil o)
  · intro n w
    constructor
    · rintro h
      cases h
    · rintro ⟨hm, -⟩
      exact absurd hm (List.not_mem_nil w)
  · intro n w
    constructor
    · rintro h
      cases h
    · rintro ⟨hm, -⟩
      exact absurd hm (List.not_mem_nil w)

end IndicesPreservation

/-- C3: for every sequence of insert, replace (`__setitem__`) and delete
(`__delitem__`) operations on a Titles collection whose titles carry
pairwise-distinct identities, title numbers and order numbers, the three
indices stay consistent with the backing sequence after each operation:
every live title is present in all three, and no removed or replaced title
remains in any of them (`Titles.IndicesConsistent`). -/
theorem C3_indices_consistent :
    (∀ (s : Titles) (idx : Nat) (t : Title), s.IndicesConsistent →
      t.oid ∉ s.titles →
      (∀ o ∈ s.titles, ∀ u, s.heap.lookup o = some u →
        u.titleNumber ≠ t.titleNumber ∧ u.orderNumber ≠ t.orderNumber) →
      (s.insert idx t).IndicesConsistent) ∧
    (∀ (s : Titles) (idx : Nat) (t : Title), s.IndicesConsistent →
      ∀ (hidx : idx < s.titles.length), t.oid ∉ s.titles →
      (∀ o ∈ s.titles, o ≠ s.titles.get ⟨idx, hidx⟩ →
        ∀ u, s.heap.lookup o = some u →
        u.titleNumber ≠ t.titleNumber ∧ u.orderNumber ≠ t.orderNumber) →
      ∃ s', s.setitem idx t = Except.ok s' ∧ s'.IndicesConsistent) ∧
    (∀ (s : Titles) (idx : Nat), s.IndicesConsistent → idx < s.titles.length →
      ∃ s', s.delitem idx = Except.ok s' ∧ s'.IndicesConsistent) :=
  ⟨fun s idx t hinv hoid hfresh => insert_preserves_indices s idx t hinv hoid hfresh,
   fun s idx t hinv hidx hoid hfresh => setitem_preserves_indices s idx t hinv hidx hoid hfresh,
   fun s idx hinv hidx => delitem_preserves_indices s idx hinv hidx⟩

/-- Witness for `C3_indices_consistent`: insert a title into the empty
collection, then replace it, then delete from the one-title collection. -/
theorem C3_indices_consistent_witness :
    (Titles.empty.insert 0 (mkTitle 1 1 0 "00:00:10" false true)).IndicesConsistent ∧
    (∃ s', (Titles.empty.insert 0 (mkTitle 1 1 0 "00:00:10" false true)).setitem 0
        (mkTitle 2 2 1 "00:00:20" false true) = Except.ok s' ∧ s'.IndicesConsistent) ∧
    (∃ s', (Titles.empty.insert 0 (mkTitle 1 1 0 "00:00:10" false true)).delitem 0 =
        Except.ok s' ∧ s'.IndicesConsistent) := by
  have hfresh0 : ∀ o ∈ Titles.empty.titles,
      ∀ u, Titles.empty.heap.lookup o = some u →
      u.titleNumber ≠ (mkTitle 1 1 0 "00:00:10" false true).titleNumber ∧
      u.orderNumber ≠ (mkTitle 1 1 0 "00:00:10" false true).orderNumber := by
    intro o ho
    exact absurd ho (List.not_mem_nil o)
  have hinv1 : (Titles.empty.insert 0 (mkTitle 1 1 0 "00:00:10" false true)).IndicesConsistent :=
    C3_indices_consistent.1 Titles.empty 0 (mkTitle 1 1 0 "00:00:10" false true)
      empty_indicesConsistent (by decide) hfresh0
  refine ⟨hinv1, ?_, ?_⟩
  · refine C3_indices_consistent.2.1 _ 0 (mkTitle 2 2 1 "00:00:20" false true)
      hinv1 (by decide) (by decide) ?_
    intro o ho hne u hu
    have ho1 : o = 1 := by
      have : (Titles.empty.insert 0 (mkTitle 1 1 0 "00:00:10" false true)).titles = [1] := by
        decide
      rw [this] at ho
      simpa using ho
    exact absurd ho1 (by simpa using hne)
  · exact C3_indices_consistent.2.2 _ 0 hinv1 (by decide)

section HashLemmas

theorem mapM_ok_forall2 {α β : Type} (f : α → Except String β) :
    ∀ (l : List α) (r : List β), l.mapM f = Except.ok r →
      List.Forall₂ (fun a b => f a = Except.ok b) l r := by
  intro l
  induction l with
  | nil =>
      intro r h
      simp only [List.mapM_nil, pure, Except.pure, Except.ok.injEq] at h
      subst h
      exact List.Forall₂.nil
  | cons a l ih =>
      intro r h
      rw [List.mapM_cons] at h
      rcases ha : f a with e | b
      · simp only [ha, Bind.bind, Except.bind] at h
        cases h
      · simp only [ha, Bind.bind, Except.bind] at h
        rcases hl : l.mapM f with e | bs
        · simp only [hl] at h
          cases h
        · simp only [hl, pure, Except.pure, Except.ok.injEq] at h
          subst h
          exact List.Forall₂.cons ha (ih bs hl)

theorem stringFoldlAppend (cs : List String) :
    ∀ init : String, cs.foldl (fun r s => r ++ s) init =
      init ++ cs.foldl (fun r s => r ++ s) "" := by
  induction cs with
  | nil => intro init; simp [String.append_empty]
  | cons c cs ih =>
      intro init
      rw [List.foldl_cons, List.foldl_cons, ih (init ++ c), ih ("" ++ c),
        String.empty_append, String.append_assoc]

theorem stringJoin_cons (c : String) (cs : List String) :
    String.join (c :: cs) = c ++ String.join cs := by
  show (c :: cs).foldl (fun r s => r ++ s) "" = c ++ cs.foldl (fun r s => r ++ s) ""
  rw [List.foldl_cons, String.empty_append, stringFoldlAppend]

theorem hashInput_fold_concat (s : Titles) :
    ∀ (keys : List Int) (pre : String) (ts : List Title),
      keys.mapM s.resolveTitleKey = Except.ok ts →
      keys.foldlM (hashStep s) pre =
        Except.ok (pre ++ String.join (ts.map Title.updateHashString)) := by
  intro keys
  induction keys with
  | nil =>
      intro pre ts h
      simp only [List.mapM_nil, pure, Except.pure, Except.ok.injEq] at h
      subst h
      simp [pure, Except.pure, String.join]
  | cons k ks ih =>
      intro pre ts h
      rw [List.mapM_cons] at h
      rcases hk : s.resolveTitleKey k with e | t
      · simp only [hk, Bind.bind, Except.bind] at h
        cases h
      · simp only [hk, Bind.bind, Except.bind] at h
        rcases hks : ks.mapM s.resolveTitleKey with e | us
        · simp only [hks] at h
          cases h
        · simp only [hks, pure, Except.pure, Except.ok.injEq] at h
          subst h
          have hstep : hashStep s pre k = Except.ok (pre ++ t.updateHashString) := by
            unfold hashStep
            unfold Titles.resolveTitleKey at hk
            rcases hlo : s.titlesByTitleNumber.lookup k with _ | oid
            · simp only [hlo, exceptOfOption, Bind.bind, Except.bind] at hk
              cases hk
            · simp only [hlo, exceptOfOption, Bind.bind, Except.bind] at hk ⊢
              rw [hk]
              rfl
          rw [List.foldlM_cons, hstep]
          simp only [Bind.bind, Except.bind]
          rw [ih (pre ++ t.updateHashString) us hks, List.map_cons, stringJoin_cons,
            String.append_assoc]

theorem stripVolatile_updateHash (t u : Title)
    (h : t.stripVolatile = u.stripVolatile) :
    t.updateHashString = u.updateHashString := by
  have ht : t.updateHashString = t.stripVolatile.updateHashString := rfl
  have hu : u.updateHashString = u.stripVolatile.updateHashString := rfl
  rw [ht, hu, h]

theorem hashStep_congr (s s' : Titles)
    (hbtn : s'.titlesByTitleNumber = s.titlesByTitleNumber)
    (hheap : ∀ oid, (s'.heap.lookup oid).map Title.stripVolatile =
      (s.heap.lookup oid).map Title.stripVolatile) :
    ∀ (keys : List Int) (pre : String),
      keys.foldlM (hashStep s') pre = keys.foldlM (hashStep s) pre := by
  intro keys
  induction keys with
  | nil => intro pre; rfl
  | cons k ks ih =>
      intro pre
      rw [List.foldlM_cons, List.foldlM_cons]
      have hstepeq : hashStep s' pre k = hashStep s pre k ∨
          ∃ c, hashStep s' pre k = Except.ok (pre ++ c) ∧
               hashStep s pre k = Except.ok (pre ++ c) := by
        unfold hashStep
        rw [hbtn]
        rcases hlo : s.titlesByTitleNumber.lookup k with _ | oid
        · exact Or.inl rfl
        · simp only [exceptOfOption, Bind.bind, Except.bind]
          have := hheap oid
          unfold Titles.getTitleE
          rcases h1 : s'.heap.lookup oid with _ | t' <;>
            rcases h2 : s.heap.lookup oid with _ | t
          · exact Or.inl rfl
          · rw [h1, h2] at this
            cases this
          · rw [h1, h2] at this
            cases this
          · rw [h1, h2] at this
            simp only [Option.map_some', Option.some.injEq] at this
            exact Or.inr ⟨t.updateHashString,
              by simp [exceptOfOption, pure, Except.pure, h1,
                stripVolatile_updateHash t' t this],
              by simp [exceptOfOption, pure, Except.pure, h2]⟩
      rcases hstepeq with heq | ⟨c, h1, h2⟩
      · rw [heq]
        rcases hashStep s pre k with e | v
        · rfl
        · simp only [Bind.bind, Except.bind]
          exact ih v
      · rw [h1, h2]
        simp only [Bind.bind, Except.bind]
        exact ih (pre ++ c)

theorem forall2_mem_right {α β : Type} {r : α → β → Prop} :
    ∀ {l₁ : List α} {l₂ : List β}, List.Forall₂ r l₁ l₂ → ∀ b ∈ l₂, ∃ a ∈ l₁, r a b := by
  intro l₁ l₂ h
  induction h with
  | nil => intro b hb; cases hb
  | cons hr _ ih =>
      intro b hb
      rcases List.mem_cons.mp hb with rfl | hb'
      · exact ⟨_, List.mem_cons_self _ _, hr⟩
      · obtain ⟨a, ha, har⟩ := ih b hb'
        exact ⟨a, List.mem_cons_of_mem _ ha, har⟩

theorem forall2_mem_left {α β : Type} {r : α → β → Prop} :
    ∀ {l₁ : List α} {l₂ : List β}, List.Forall₂ r l₁ l₂ → ∀ a ∈ l₁, ∃ b ∈ l₂, r a b := by
  intro l₁ l₂ h
  induction h with
  | nil => intro a ha; cases ha
  | cons hr _ ih =>
      intro a ha
      rcases List.mem_cons.mp ha with rfl | ha'
      · exact ⟨_, List.mem_cons_self _ _, hr⟩
      · obtain ⟨b, hb, hbr⟩ := ih a ha'
        exact ⟨b, List.mem_cons_of_mem _ hb, hbr⟩

theorem forall2_map_eq {α β : Type} {r : α → β → Prop} (g : β → α)
    (hg : ∀ a b, r a b → g b = a) :
    ∀ {l₁ : List α} {l₂ : List β}, List.Forall₂ r l₁ l₂ → l₂.map g = l₁ := by
  intro l₁ l₂ h
  induction h with
  | nil => rfl
  | cons hr _ ih => simp [ih, hg _ _ hr]

theorem forall2_map_eq_on {α β : Type} {r : α → β → Prop} (g : β → α) :
    ∀ {l₁ : List α} {l₂ : List β}, List.Forall₂ r l₁ l₂ →
      (∀ a ∈ l₁, ∀ b, r a b → g b = a) → l₂.map g = l₁ := by
  intro l₁ l₂ h
  induction h with
  | nil => intro _; rfl
  | cons hr hrest ih =>
      intro hg
      rw [List.map_cons, ih (fun a ha b hb => hg a (List.mem_cons_of_mem _ ha) b hb),
        hg _ (List.mem_cons_self _ _) _ hr]

theorem resolved_sorted_eq (s : Titles) (L1 ts : List Title)
    (hL1 : s.resolvedByTitleNumberE = Except.ok L1)
    (hts : s.titles.mapM s.getTitleE = Except.ok ts)
    (hnd : s.titlesByTitleNumber.keys.Nodup)
    (hndT : s.titles.Nodup)
    (hoidf : ∀ o ∈ s.titles, ∀ u, s.heap.lookup o = some u → u.oid = o)
    (hres : ∀ tn oid, s.titlesByTitleNumber.lookup tn = some oid →
        oid ∈ s.titles ∧ ∃ u, s.heap.lookup oid = some u ∧ u.titleNumber = tn)
    (hcover : ∀ oid ∈ s.titles, ∃ u, s.heap.lookup oid = some u ∧
        s.titlesByTitleNumber.lookup u.titleNumber = some oid) :
    L1 = List.insertionSort (fun a b : Title => a.titleNumber ≤ b.titleNumber) ts := by
  have f2L1 := mapM_ok_forall2 s.resolveTitleKey _ _ hL1
  have f2ts := mapM_ok_forall2 s.getTitleE _ _ hts
  have hresolve : ∀ tn t, s.resolveTitleKey tn = Except.ok t →
      ∃ oid, s.titlesByTitleNumber.lookup tn = some oid ∧
        s.heap.lookup oid = some t := by
    intro tn t h
    unfold Titles.resolveTitleKey at h
    rcases hlo : s.titlesByTitleNumber.lookup tn with _ | oid
    · simp only [hlo, exceptOfOption, Bind.bind, Except.bind] at h
      cases h
    · simp only [hlo, exceptOfOption, Bind.bind, Except.bind, Titles.getTitleE] at h
      rcases hh : s.heap.lookup oid with _ | u
      · simp only [hh, exceptOfOption] at h
        cases h
      · simp only [hh, exceptOfOption] at h
        cases h
        exact ⟨oid, rfl, hh⟩
  have hgetE : ∀ oid t, s.getTitleE oid = Except.ok t → s.heap.lookup oid = some t := by
    intro oid t h
    unfold Titles.getTitleE at h
    rcases hh : s.heap.lookup oid with _ | u
    · simp only [hh, exceptOfOption] at h
      cases h
    · simp only [hh, exceptOfOption] at h
      cases h
      rfl
  have hkey_of_resolve : ∀ tn t, s.resolveTitleKey tn = Except.ok t →
      t.titleNumber = tn := by
    intro tn t h
    obtain ⟨oid, hlo, hh⟩ := hresolve tn t h
    obtain ⟨-, u, hu, hun⟩ := hres tn oid hlo
    rw [hh] at hu
    cases hu
    exact hun
  have hmapL1 : L1.map Title.titleNumber = sortedIntKeys s.titlesByTitleNumber :=
    forall2_map_eq_on Title.titleNumber f2L1
      (fun tn _ t h => hkey_of_resolve tn t h)
  have hkeysperm : (sortedIntKeys s.titlesByTitleNumber).Perm
      s.titlesByTitleNumber.keys := List.perm_insertionSort _ _
  have hkeysnd : (sortedIntKeys s.titlesByTitleNumber).Nodup :=
    hkeysperm.nodup_iff.mpr hnd
  have hmapts : ts.map Title.oid = s.titles :=
    forall2_map_eq_on Title.oid f2ts
      (fun o ho u h => hoidf o ho u (hgetE o u h))
  have hndL1 : L1.Nodup := List.Nodup.of_map Title.titleNumber (hmapL1 ▸ hkeysnd)
  have hndts : ts.Nodup := List.Nodup.of_map Title.oid (hmapts ▸ hndT)
  have hmem_ts : ∀ x ∈ ts, ∃ o ∈ s.titles, s.heap.lookup o = some x := by
    intro x hx
    obtain ⟨o, ho, hro⟩ := forall2_mem_right f2ts x hx
    exact ⟨o, ho, hgetE o x hro⟩
  have hmemiff : ∀ x, x ∈ L1 ↔ x ∈ ts := by
    intro x
    constructor
    · intro hx
      obtain ⟨tn, htn, hr⟩ := forall2_mem_right f2L1 x hx
      obtain ⟨oid, hlo, hh⟩ := hresolve tn x hr
      obtain ⟨hmem, -⟩ := hres tn oid hlo
      obtain ⟨b, hb, hrb⟩ := forall2_mem_left f2ts oid hmem
      have := hgetE oid b hrb
      rw [hh] at this
      cases this
      exact hb
    · intro hx
      obtain ⟨o, ho, hh⟩ := hmem_ts x hx
      obtain ⟨u, hu, hlu⟩ := hcover o ho
      rw [hh] at hu
      cases hu
      have hkmem : x.titleNumber ∈ sortedIntKeys s.titlesByTitleNumber :=
        hkeysperm.mem_iff.mpr (Dict.mem_keys_of_lookup _ _ _ hlu)
      obtain ⟨b, hbL1, hrb⟩ := forall2_mem_left f2L1 x.titleNumber hkmem
      obtain ⟨oid', hlo', hh'⟩ := hresolve x.titleNumber b hrb
      rw [hlu] at hlo'
      cases hlo'
      rw [hh] at hh'
      cases hh'
      exact hbL1
  have hperm : L1.Perm ts := by
    refine List.perm_of_nodup_nodup_toFinset_eq hndL1 hndts ?_
    ext x
    simp [List.mem_toFinset, hmemiff x]
  have hkeyslt : List.Sorted (fun a b : Int => a < b)
      (sortedIntKeys s.titlesByTitleNumber) := by
    have hle : List.Sorted (fun a b : Int => a ≤ b)
        (sortedIntKeys s.titlesByTitleNumber) :=
      List.sorted_insertionSort _ _
    exact List.Sorted.lt_of_le hle hkeysnd
  have hL1lt : List.Sorted (fun a b : Title => a.titleNumber < b.titleNumber) L1 := by
    have := hkeyslt
    rw [← hmapL1] at this
    exact List.pairwise_map.mp this
  haveI : IsTotal Title (fun a b : Title => a.titleNumber ≤ b.titleNumber) :=
    ⟨fun a b => le_total _ _⟩
  haveI : IsTrans Title (fun a b : Title => a.titleNumber ≤ b.titleNumber) :=
    ⟨fun _ _ _ h1 h2 => le_trans h1 h2⟩
  have hL2perm : (List.insertionSort
      (fun a b : Title => a.titleNumber ≤ b.titleNumber) ts).Perm ts :=
    List.perm_insertionSort _ _
  have hL2sorted : List.Sorted (fun a b : Title => a.titleNumber ≤ b.titleNumber)
      (List.insertionSort (fun a b : Title => a.titleNumber ≤ b.titleNumber) ts) :=
    List.sorted_insertionSort _ _
  have hndtsnum : (ts.map Title.titleNumber).Nodup := by
    refine List.Nodup.map_on ?_ hndts
    intro x hx y hy he
    obtain ⟨o, ho, hho⟩ := hmem_ts x hx
    obtain ⟨u, hu, hlu⟩ := hcover o ho
    rw [hho] at hu
    cases hu
    obtain ⟨o', ho', hho'⟩ := hmem_ts y hy
    obtain ⟨u', hu', hlu'⟩ := hcover o' ho'
    rw [hho'] at hu'
    cases hu'
    rw [he] at hlu
    rw [hlu] at hlu'
    cases hlu'
    rw [hho] at hho'
    cases hho'
    rfl
  have hL2numnd : ((List.insertionSort
      (fun a b : Title => a.titleNumber ≤ b.titleNumber) ts).map
        Title.titleNumber).Nodup :=
    ((hL2perm.map Title.titleNumber).nodup_iff).mpr hndtsnum
  have hL2ne : List.Pairwise (fun a b : Title => a.titleNumber ≠ b.titleNumber)
      (List.insertionSort (fun a b : Title => a.titleNumber ≤ b.titleNumber) ts) :=
    List.pairwise_map.mp hL2numnd
  have hL2lt : List.Sorted (fun a b : Title => a.titleNumber < b.titleNumber)
      (List.insertionSort (fun a b : Title => a.titleNumber ≤ b.titleNumber) ts) :=
    (hL2sorted.and hL2ne).imp (fun hab => lt_of_le_of_ne hab.1 hab.2)
  haveI : IsAntisymm Title (fun a b : Title => a.titleNumber < b.titleNumber) :=
    ⟨fun _ _ h1 h2 => absurd (lt_trans h1 h2) (lt_irrefl _)⟩
  exact List.eq_of_perm_of_sorted (hperm.trans hL2perm.symm) hL1lt hL2lt

theorem mapM_ok_of_forall {α β : Type} (f : α → Except String β) :
    ∀ (l : List α), (∀ a ∈ l, ∃ b, f a = Except.ok b) →
      ∃ bs, l.mapM f = Except.ok bs := by
  intro l
  induction l with
  | nil => intro _; exact ⟨[], rfl⟩
  | cons a rest ih =>
      intro h
      obtain ⟨b, hb⟩ := h a (List.mem_cons_self _ _)
      obtain ⟨bs, hbs⟩ := ih (fun x hx => h x (List.mem_cons_of_mem _ hx))
      refine ⟨b :: bs, ?_⟩
      rw [List.mapM_cons]
      simp only [hb, Bind.bind, Except.bind, hbs, pure, Except.pure]

end HashLemmas

theorem single_entry_map_lookup {β γ : Type} (f : β → γ) (k : Nat) (a b : β)
    (h : f a = f b) (oid : Nat) :
    (Dict.lookup ⟨[(k, a)]⟩ oid).map f = (Dict.lookup ⟨[(k, b)]⟩ oid).map f := by
  simp only [Dict.lookup, lookupList]
  split
  · simp [h]
  · rfl

set_option maxRecDepth 10000 in
theorem hashInput_base_eval :
    Titles.hashInputString hashBaseTitles = Except.ok hashBaseInput := by decide

set_option maxRecDepth 10000 in
theorem hashInput_chapter_eval :
    Titles.hashInputString hashChapterVariant = Except.ok hashChapterInput := by decide

set_option maxRecDepth 10000 in
theorem hashInput_audio_eval :
    Titles.hashInputString hashAudioVariant = Except.ok hashAudioInput := by decide

set_option maxRecDepth 10000 in
theorem hashInput_subtitle_eval :
    Titles.hashInputString hashSubtitleVariant = Except.ok hashSubtitleInput := by decide

set_option maxRecDepth 10000 in
theorem hashInput_duration_eval :
    Titles.hashInputString hashDurationVariant = Except.ok hashBaseInput := by decide

set_option maxRecDepth 10000 in
theorem hashInput_order_eval :
    Titles.hashInputString hashOrderVariant = Except.ok hashBaseInput := by decide

set_option maxRecDepth 100000 in
set_option maxHeartbeats 1000000 in
theorem sha_base_eval : sha256hex hashBaseInput =
    "5a12d6632d7b8b97912f1ad04afd74a09479328ed8b49b72ad662589e27be748" := by decide

set_option maxRecDepth 100000 in
set_option maxHeartbeats 1000000 in
theorem sha_chapter_eval : sha256hex hashChapterInput =
    "87441ce7414b2e5262484eec2a2dd5255e8891b00fb14cb8b434ae93359ae5a9" := by decide

set_option maxRecDepth 100000 in
set_option maxHeartbeats 1000000 in
theorem sha_audio_eval : sha256hex hashAudioInput =
    "cc024738d5b8f326f929fca9d2739c7381e7a5d5679406f91d6e47dfb80bd2cd" := by decide

set_option maxRecDepth 100000 in
set_option maxHeartbeats 1000000 in
theorem sha_subtitle_eval : sha256hex hashSubtitleInput =
    "5a53be0cf5196cec35a11660cdbc136dbdab3c14a34f8db49d88c3fa7d45a6a4" := by decide

/-- C4: under the index-consistency invariant, `GetHash` returns the SHA-256
hex digest of the `'Title Count: N'` preamble followed by each title's
`UpdateHash` contribution taken in ascending title-number order; any state
change that preserves the title count, the title-number index and every
title's non-volatile content — in particular permuting order numbers or
editing durations — leaves the digest unchanged, while concretely changing a
chapter, audio-track or subtitle-track structural field changes it. -/
theorem C4_hash_content (s s' : Titles) (ts : List Title)
    (hinv : s.IndicesConsistent)
    (hts : s.titles.mapM s.getTitleE = Except.ok ts)
    (hlen : s'.titles.length = s.titles.length)
    (hbtn : s'.titlesByTitleNumber = s.titlesByTitleNumber)
    (hheap : ∀ oid, (s'.heap.lookup oid).map Title.stripVolatile =
      (s.heap.lookup oid).map Title.stripVolatile) :
    (s.GetHash = Except.ok (sha256hex (specHashInput s.titles.length ts)) ∧
     s'.GetHash = s.GetHash) ∧
    (Titles.GetHash hashChapterVariant ≠ Titles.GetHash hashBaseTitles ∧
     Titles.GetHash hashAudioVariant ≠ Titles.GetHash hashBaseTitles ∧
     Titles.GetHash hashSubtitleVariant ≠ Titles.GetHash hashBaseTitles ∧
     Titles.GetHash hashDurationVariant = Titles.GetHash hashBaseTitles ∧
     Titles.GetHash hashOrderVariant = Titles.GetHash hashBaseTitles) := by
  refine ⟨?_, ?_, ?_, ?_, ?_, ?_⟩
  case refine_2 =>
    show (Titles.hashInputString hashChapterVariant).map sha256hex ≠
      (Titles.hashInputString hashBaseTitles).map sha256hex
    rw [hashInput_chapter_eval, hashInput_base_eval]
    simp only [Except.map, ne_eq, Except.ok.injEq]
    rw [sha_chapter_eval, sha_base_eval]
    decide
  case refine_3 =>
    show (Titles.hashInputString hashAudioVariant).map sha256hex ≠
      (Titles.hashInputString hashBaseTitles).map sha256hex
    rw [hashInput_audio_eval, hashInput_base_eval]
    simp only [Except.map, ne_eq, Except.ok.injEq]
    rw [sha_audio_eval, sha_base_eval]
    decide
  case refine_4 =>
    show (Titles.hashInputString hashSubtitleVariant).map sha256hex ≠
      (Titles.hashInputString hashBaseTitles).map sha256hex
    rw [hashInput_subtitle_eval, hashInput_base_eval]
    simp only [Except.map, ne_eq, Except.ok.injEq]
    rw [sha_subtitle_eval, sha_base_eval]
    decide
  case refine_5 =>
    show (Titles.hashInputString hashDurationVariant).map sha256hex =
      (Titles.hashInputString hashBaseTitles).map sha256hex
    rw [hashInput_duration_eval, hashInput_base_eval]
  case refine_6 =>
    show (Titles.hashInputString hashOrderVariant).map sha256hex =
      (Titles.hashInputString hashBaseTitles).map sha256hex
    rw [hashInput_order_eval, hashInput_base_eval]
  case refine_1 =>
    obtain ⟨hndT, hndId, hnd, hndOrd, hheapcov, hbyId, hbyTN, hbyOrd⟩ := hinv
    have hres : ∀ tn oid, s.titlesByTitleNumber.lookup tn = some oid →
        oid ∈ s.titles ∧ ∃ u, s.heap.lookup oid = some u ∧ u.titleNumber = tn :=
      fun tn oid h => (hbyTN tn oid).mp h
    have hoidf : ∀ o ∈ s.titles, ∀ u, s.heap.lookup o = some u → u.oid = o := by
      intro o ho u hu
      obtain ⟨t, ht, hto⟩ := hheapcov o ho
      rw [hu] at ht
      cases ht
      exact hto
    have hcover : ∀ oid ∈ s.titles, ∃ u, s.heap.lookup oid = some u ∧
        s.titlesByTitleNumber.lookup u.titleNumber = some oid := by
      intro oid ho
      obtain ⟨u, hu, -⟩ := hheapcov oid ho
      exact ⟨u, hu, (hbyTN u.titleNumber oid).mpr ⟨ho, u, hu, rfl⟩⟩
    have hresolveOk : ∀ k ∈ sortedIntKeys s.titlesByTitleNumber,
        ∃ t, s.resolveTitleKey k = Except.ok t := by
      intro k hk
      have hkk : k ∈ s.titlesByTitleNumber.keys :=
        (List.perm_insertionSort _ _).mem_iff.mp hk
      have hsome := Dict.lookup_isSome_of_mem_keys s.titlesByTitleNumber k hkk
      rcases hlo : s.titlesByTitleNumber.lookup k with _ | oid
      · rw [hlo] at hsome
        cases hsome
      · obtain ⟨-, u, hu, -⟩ := hres k oid hlo
        refine ⟨u, ?_⟩
        unfold Titles.resolveTitleKey Titles.getTitleE
        simp only [hlo, exceptOfOption, Bind.bind, Except.bind, hu]
    obtain ⟨L1, hL1⟩ := mapM_ok_of_forall s.resolveTitleKey _ hresolveOk
    have hL1' : s.resolvedByTitleNumberE = Except.ok L1 := hL1
    have hfold := hashInput_fold_concat s (sortedIntKeys s.titlesByTitleNumber)
      ("Title Count: " ++ toString s.titles.length) L1 hL1
    have hsorted := resolved_sorted_eq s L1 ts hL1' hts hnd hndT hoidf hres hcover
    constructor
    · show (s.hashInputString).map sha256hex = _
      unfold Titles.hashInputString
      rw [hfold]
      simp only [Except.map, Except.ok.injEq]
      rw [hsorted]
      rfl
    · show (s'.hashInputString).map sha256hex = (s.hashInputString).map sha256hex
      unfold Titles.hashInputString
      rw [hlen, hbtn, hashStep_congr s s' hbtn hheap]


/-- Witness for `C4_hash_content`: the one-title base collection against its
order-number variant. -/
theorem C4_hash_content_witness :
    (Titles.GetHash hashBaseTitles =
        Except.ok (sha256hex
          (specHashInput hashBaseTitles.titles.length [hashBaseTitle])) ∧
     Titles.GetHash hashOrderVariant = Titles.GetHash hashBaseTitles) ∧
    (Titles.GetHash hashChapterVariant ≠ Titles.GetHash hashBaseTitles ∧
     Titles.GetHash hashAudioVariant ≠ Titles.GetHash hashBaseTitles ∧
     Titles.GetHash hashSubtitleVariant ≠ Titles.GetHash hashBaseTitles ∧
     Titles.GetHash hashDurationVariant = Titles.GetHash hashBaseTitles ∧
     Titles.GetHash hashOrderVariant = Titles.GetHash hashBaseTitles) :=
  C4_hash_content hashBaseTitles hashOrderVariant [hashBaseTitle]
    (by
      show (Titles.empty.insert 0 hashBaseTitle).IndicesConsistent
      exact insert_preserves_indices Titles.empty 0 hashBaseTitle
        empty_indicesConsistent (by decide)
        (fun o ho => absurd ho (List.not_mem_nil o)))
    (by decide)
    (by decide)
    (by decide)
    (fun oid => single_entry_map_lookup Title.stripVolatile 1
      { hashBaseTitle with orderNumber := 5 } hashBaseTitle rfl oid)

section MoveLemmas

theorem upBreak_le (v : Nat → Bool) : ∀ n, upBreak v n ≤ n := by
  intro n
  induction n with
  | zero => exact Nat.le_refl 0
  | succ n ih =>
      show (if v n then n else upBreak v n) ≤ n + 1
      split
      · omega
      · omega

theorem MoveUpLoop_spec (f : Nat → Nat) (g : Nat → Title) :
    ∀ (n : Nat) (s : Titles),
      (∀ k, k < n → s.titlesByOrderNumber.lookup (k : Int) = some (f k)) →
      (∀ k, k < n → s.heap.lookup (f k) = some (g k)) →
      (∀ k1, k1 < n → ∀ k2, k2 < n → f k1 = f k2 → k1 = k2) →
      ∃ s', Titles.MoveUpLoop s n =
          Except.ok (s', upBreak (fun k => (g k).visible) n + 1) ∧
        s'.titles = s.titles ∧
        s'.titlesById = s.titlesById ∧
        s'.titlesByTitleNumber = s.titlesByTitleNumber ∧
        (∀ k, upBreak (fun k => (g k).visible) n ≤ k → k < n →
          s'.heap.lookup (f k) = some { g k with orderNumber := (k : Int) + 1 }) ∧
        (∀ o : Nat, (∀ k, upBreak (fun k => (g k).visible) n ≤ k → k < n → f k ≠ o) →
          s'.heap.lookup o = s.heap.lookup o) ∧
        (∀ j : Nat, upBreak (fun k => (g k).visible) n < j → j ≤ n →
          s'.titlesByOrderNumber.lookup (j : Int) = some (f (j - 1))) ∧
        (∀ z : Int, (∀ j : Nat, upBreak (fun k => (g k).visible) n < j → j ≤ n →
            (j : Int) ≠ z) →
          s'.titlesByOrderNumber.lookup z = s.titlesByOrderNumber.lookup z) := by
  intro n
  induction n with
  | zero =>
      intro s hread hget hinj
      refine ⟨s, rfl, rfl, rfl, rfl, ?_, ?_, ?_, ?_⟩
      · intro k h1 h2
        omega
      · intro o h
        rfl
      · intro j h1 h2
        omega
      · intro z h
        rfl
  | succ n ih =>
      intro s hread hget hinj
      have hr := hread n (Nat.lt_succ_self n)
      have hg := hget n (Nat.lt_succ_self n)
      have hrun1 : Titles.MoveUpLoop s (n + 1) =
          (if (g n).visible then
            Except.ok ({ s with
              heap := s.heap.set (f n) { g n with orderNumber := (n : Int) + 1 },
              titlesByOrderNumber :=
                s.titlesByOrderNumber.set ((n : Int) + 1) (f n) }, n + 1)
          else Titles.MoveUpLoop { s with
              heap := s.heap.set (f n) { g n with orderNumber := (n : Int) + 1 },
              titlesByOrderNumber :=
                s.titlesByOrderNumber.set ((n : Int) + 1) (f n) } n) := by
        show Titles.MoveUpLoop s (Nat.succ n) = _
        simp only [Titles.MoveUpLoop, Titles.GetByOrderNumber, hr, exceptOfOption,
          Bind.bind, Except.bind, Titles.getTitleE, hg]
        split
        · rfl
        · rfl
      rcases hv : (g n).visible with _ | _
      · -- not visible: recurse
        have hMeq : upBreak (fun k => (g k).visible) (n + 1) =
            upBreak (fun k => (g k).visible) n := by
          show (if (g n).visible then n else upBreak (fun k => (g k).visible) n) = _
          rw [hv]
          rfl
        rw [hrun1, if_neg (by rw [hv]; exact Bool.false_ne_true)]
        set s1 : Titles := { s with
          heap := s.heap.set (f n) { g n with orderNumber := (n : Int) + 1 },
          titlesByOrderNumber :=
            s.titlesByOrderNumber.set ((n : Int) + 1) (f n) } with hs1
        have hread1 : ∀ k, k < n → s1.titlesByOrderNumber.lookup (k : Int) = some (f k) := by
          intro k hk
          have hproj : s1.titlesByOrderNumber =
              s.titlesByOrderNumber.set ((n : Int) + 1) (f n) := rfl
          rw [hproj, Dict.lookup_set_ne _ _ _ _ (by omega)]
          exact hread k (Nat.lt_succ_of_lt hk)
        have hget1 : ∀ k, k < n → s1.heap.lookup (f k) = some (g k) := by
          intro k hk
          have hproj : s1.heap =
              s.heap.set (f n) { g n with orderNumber := (n : Int) + 1 } := rfl
          rw [hproj, Dict.lookup_set_ne _ _ _ _ (by
            intro h
            exact absurd (hinj k (Nat.lt_succ_of_lt hk) n (Nat.lt_succ_self n) h)
              (by omega))]
          exact hget k (Nat.lt_succ_of_lt hk)
        have hinj1 : ∀ k1, k1 < n → ∀ k2, k2 < n → f k1 = f k2 → k1 = k2 :=
          fun k1 h1 k2 h2 => hinj k1 (Nat.lt_succ_of_lt h1) k2 (Nat.lt_succ_of_lt h2)
        obtain ⟨s', hrun, hT, hI, hTN, hshift, hunch, hslot, hslotu⟩ :=
          ih s1 hread1 hget1 hinj1
        rw [hMeq]
        have hMle : upBreak (fun k => (g k).visible) n ≤ n := upBreak_le _ n
        refine ⟨s', hrun, ?_, ?_, ?_, ?_, ?_, ?_, ?_⟩
        · rw [hT]
        · rw [hI]
        · rw [hTN]
        · intro k h1 h2
          rcases Nat.lt_or_ge k n with hkn | hkn
          · exact hshift k h1 hkn
          · have hkeq : k = n := by omega
            subst hkeq
            have hun : s'.heap.lookup (f k) = s1.heap.lookup (f k) := by
              apply hunch
              intro k2 h3 h4 heq
              exact absurd (hinj k2 (Nat.lt_succ_of_lt h4) k (Nat.lt_succ_self k) heq)
                (by omega)
            rw [hun]
            have hproj : s1.heap =
                s.heap.set (f k) { g k with orderNumber := (k : Int) + 1 } := rfl
            rw [hproj, Dict.lookup_set_self]
        · intro o ho
          have hun : s'.heap.lookup o = s1.heap.lookup o := by
            apply hunch
            intro k h3 h4
            exact ho k h3 (Nat.lt_succ_of_lt h4)
          rw [hun]
          have hproj : s1.heap =
              s.heap.set (f n) { g n with orderNumber := (n : Int) + 1 } := rfl
          rw [hproj, Dict.lookup_set_ne _ _ _ _
            (Ne.symm (ho n hMle (Nat.lt_succ_self n)))]
        · intro j h1 h2
          rcases Nat.lt_or_ge j (n + 1) with hj | hj
          · exact hslot j h1 (by omega)
          · have hje : j = n + 1 := by omega
            subst hje
            have hun : s'.titlesByOrderNumber.lookup ((n + 1 : Nat) : Int) =
                s1.titlesByOrderNumber.lookup ((n + 1 : Nat) : Int) := by
              apply hslotu
              intro j2 h3 h4
              omega
            rw [hun]
            have hproj : s1.titlesByOrderNumber =
                s.titlesByOrderNumber.set ((n : Int) + 1) (f n) := rfl
            have hkey : ((n + 1 : Nat) : Int) = (n : Int) + 1 := by push_cast; ring
            rw [hproj, hkey, Dict.lookup_set_self]
            norm_num
        · intro z hz
          have hun : s'.titlesByOrderNumber.lookup z =
              s1.titlesByOrderNumber.lookup z := by
            apply hslotu
            intro j h3 h4
            exact hz j h3 (Nat.le_succ_of_le h4)
          rw [hun]
          have hproj : s1.titlesByOrderNumber =
              s.titlesByOrderNumber.set ((n : Int) + 1) (f n) := rfl
          have hne := hz (n + 1) (by omega) (Nat.le_refl _)
          rw [hproj, Dict.lookup_set_ne _ _ _ _ (by omega)]
      · -- visible neighbour: the loop breaks at this step
        have hMeq : upBreak (fun k => (g k).visible) (n + 1) = n := by
          show (if (g n).visible then n else upBreak (fun k => (g k).visible) n) = n
          rw [hv]
          rfl
        rw [hrun1, if_pos hv, hMeq]
        refine ⟨_, rfl, rfl, rfl, rfl, ?_, ?_, ?_, ?_⟩
        · intro k h1 h2
          have hkeq : k = n := by omega
          subst hkeq
          show (s.heap.set (f k) { g k with orderNumber := (k : Int) + 1 }).lookup (f k) = _
          rw [Dict.lookup_set_self]
        · intro o ho
          show (s.heap.set (f n) { g n with orderNumber := (n : Int) + 1 }).lookup o = _
          rw [Dict.lookup_set_ne _ _ _ _
            (Ne.symm (ho n (Nat.le_refl n) (Nat.lt_succ_self n)))]
        · intro j h1 h2
          have hje : j = n + 1 := by omega
          subst hje
          show (s.titlesByOrderNumber.set ((n : Int) + 1) (f n)).lookup
            ((n + 1 : Nat) : Int) = _
          have hkey : ((n + 1 : Nat) : Int) = (n : Int) + 1 := by push_cast; ring
          rw [hkey, Dict.lookup_set_self]
          norm_num
        · intro z hz
          show (s.titlesByOrderNumber.set ((n : Int) + 1) (f n)).lookup z = _
          have hne := hz (n + 1) (by omega) (Nat.le_refl _)
          rw [Dict.lookup_set_ne _ _ _ _ (by omega)]

theorem MoveUp_spec (s : Titles) (oid : Nat) (t : Title) (ord : Nat)
    (f : Nat → Nat) (g : Nat → Title)
    (hto : s.heap.lookup oid = some t)
    (hord : t.orderNumber = (ord : Int))
    (hpos : 0 < ord)
    (hread : ∀ k, k < ord → s.titlesByOrderNumber.lookup (k : Int) = some (f k))
    (hget : ∀ k, k < ord → s.heap.lookup (f k) = some (g k))
    (hinj : ∀ k1, k1 < ord → ∀ k2, k2 < ord → f k1 = f k2 → k1 = k2)
    (hfoid : ∀ k, k < ord → f k ≠ oid) :
    ∃ s', Titles.MoveUp s oid = Except.ok s' ∧
      s'.titles = s.titles ∧
      s'.titlesById = s.titlesById ∧
      s'.titlesByTitleNumber = s.titlesByTitleNumber ∧
      s'.heap.lookup oid =
        some { t with orderNumber := (upBreak (fun k => (g k).visible) ord : Int) } ∧
      (∀ k, upBreak (fun k => (g k).visible) ord ≤ k → k < ord →
        s'.heap.lookup (f k) = some { g k with orderNumber := (k : Int) + 1 }) ∧
      (∀ o : Nat, o ≠ oid →
        (∀ k, upBreak (fun k => (g k).visible) ord ≤ k → k < ord → f k ≠ o) →
        s'.heap.lookup o = s.heap.lookup o) ∧
      s'.titlesByOrderNumber.lookup
        ((upBreak (fun k => (g k).visible) ord : Nat) : Int) = some oid ∧
      (∀ j : Nat, upBreak (fun k => (g k).visible) ord < j → j ≤ ord →
        s'.titlesByOrderNumber.lookup (j : Int) = some (f (j - 1))) ∧
      (∀ z : Int, z ≠ ((upBreak (fun k => (g k).visible) ord : Nat) : Int) →
        (∀ j : Nat, upBreak (fun k => (g k).visible) ord < j → j ≤ ord →
          (j : Int) ≠ z) →
        s'.titlesByOrderNumber.lookup z = s.titlesByOrderNumber.lookup z) := by
  obtain ⟨s1, hrun, hT, hI, hTN, hshift, hunch, hslot, hslotu⟩ :=
    MoveUpLoop_spec f g ord s hread hget hinj
  have hMle : upBreak (fun k => (g k).visible) ord ≤ ord := upBreak_le _ ord
  have huid : s1.heap.lookup oid = s.heap.lookup oid := by
    apply hunch
    intro k h1 h2
    exact hfoid k h2
  have hcast : ((upBreak (fun k => (g k).visible) ord + 1 : Nat) : Int) - 1 =
      (upBreak (fun k => (g k).visible) ord : Int) := by
    push_cast
    ring
  have hstep : Titles.MoveUp s oid = Except.ok { s1 with
      heap := s1.heap.set oid
        { t with orderNumber := (upBreak (fun k => (g k).visible) ord : Int) },
      titlesByOrderNumber := s1.titlesByOrderNumber.set
        ((upBreak (fun k => (g k).visible) ord : Nat) : Int) oid } := by
    have htoNat : ((ord : Int)).toNat = ord := by omega
    unfold Titles.MoveUp
    simp only [Titles.getTitleE, hto, exceptOfOption, Bind.bind, Except.bind, hord]
    rw [if_neg (by omega), if_neg (by omega), htoNat, hrun]
    simp only [Except.bind, huid, hto, exceptOfOption, pure, Except.pure, hcast]
  refine ⟨_, hstep, hT, hI, hTN, ?_, ?_, ?_, ?_, ?_, ?_⟩
  · show (s1.heap.set oid _).lookup oid = _
    rw [Dict.lookup_set_self]
  · intro k h1 h2
    show (s1.heap.set oid _).lookup (f k) = _
    rw [Dict.lookup_set_ne _ _ _ _ (hfoid k h2)]
    exact hshift k h1 h2
  · intro o hne ho
    show (s1.heap.set oid _).lookup o = _
    rw [Dict.lookup_set_ne _ _ _ _ hne]
    rw [huid] at *
    exact hunch o ho
  · show (s1.titlesByOrderNumber.set _ oid).lookup _ = _
    rw [Dict.lookup_set_self]
  · intro j h1 h2
    show (s1.titlesByOrderNumber.set _ oid).lookup (j : Int) = _
    rw [Dict.lookup_set_ne _ _ _ _ (by omega)]
    exact hslot j h1 h2
  · intro z hne hz
    show (s1.titlesByOrderNumber.set _ oid).lookup z = _
    rw [Dict.lookup_set_ne _ _ _ _ hne]
    exact hslotu z hz

theorem downIters_le (w : Int → Bool) : ∀ (n : Nat) (i : Int), downIters w i n ≤ n := by
  intro n
  induction n with
  | zero => intro i; exact Nat.le_refl 0
  | succ n ih =>
      intro i
      show (if w (i + 1) then 1 else 1 + downIters w (i + 1) n) ≤ n + 1
      split
      · omega
      · have := ih (i + 1)
        omega

theorem MoveDownLoop_spec (f : Int → Nat) (g : Int → Title) :
    ∀ (n : Nat) (i : Int) (s : Titles),
      (∀ j : Int, i < j → j ≤ i + n → s.titlesByOrderNumber.lookup j = some (f j)) →
      (∀ j : Int, i < j → j ≤ i + n → s.heap.lookup (f j) = some (g j)) →
      (∀ j1 : Int, i < j1 → j1 ≤ i + n → ∀ j2 : Int, i < j2 → j2 ≤ i + n →
        f j1 = f j2 → j1 = j2) →
      ∃ s', Titles.MoveDownLoop s i n =
          Except.ok (s', i + (downIters (fun j => (g j).visible) i n : Int) - 1) ∧
        s'.titles = s.titles ∧
        s'.titlesById = s.titlesById ∧
        s'.titlesByTitleNumber = s.titlesByTitleNumber ∧
        (∀ j : Int, i < j → j ≤ i + (downIters (fun j => (g j).visible) i n : Int) →
          s'.heap.lookup (f j) = some { g j with orderNumber := j - 1 }) ∧
        (∀ o : Nat,
          (∀ j : Int, i < j → j ≤ i + (downIters (fun j => (g j).visible) i n : Int) →
            f j ≠ o) →
          s'.heap.lookup o = s.heap.lookup o) ∧
        (∀ j : Int, i ≤ j → j < i + (downIters (fun j => (g j).visible) i n : Int) →
          s'.titlesByOrderNumber.lookup j = some (f (j + 1))) ∧
        (∀ z : Int,
          (∀ j : Int, i ≤ j → j < i + (downIters (fun j => (g j).visible) i n : Int) →
            j ≠ z) →
          s'.titlesByOrderNumber.lookup z = s.titlesByOrderNumber.lookup z) := by
  intro n
  induction n with
  | zero =>
      intro i s hread hget hinj
      refine ⟨s, ?_, rfl, rfl, rfl, ?_, ?_, ?_, ?_⟩
      · show Except.ok (s, i - 1) = _
        norm_num [downIters]
      · intro j h1 h2
        simp only [downIters, Nat.cast_zero, add_zero] at h2
        omega
      · intro o h
        rfl
      · intro j h1 h2
        simp only [downIters, Nat.cast_zero, add_zero] at h2
        omega
      · intro z h
        rfl
  | succ n ih =>
      intro i s hread hget hinj
      have hr := hread (i + 1) (by omega) (by push_cast; omega)
      have hg := hget (i + 1) (by omega) (by push_cast; omega)
      have hrun1 : Titles.MoveDownLoop s i (n + 1) =
          (if (g (i + 1)).visible then
            Except.ok ({ s with
              heap := s.heap.set (f (i + 1)) { g (i + 1) with orderNumber := i },
              titlesByOrderNumber := s.titlesByOrderNumber.set i (f (i + 1)) }, i)
          else Titles.MoveDownLoop { s with
              heap := s.heap.set (f (i + 1)) { g (i + 1) with orderNumber := i },
              titlesByOrderNumber := s.titlesByOrderNumber.set i (f (i + 1)) }
            (i + 1) n) := by
        show Titles.MoveDownLoop s i (Nat.succ n) = _
        simp only [Titles.MoveDownLoop, Titles.GetByOrderNumber, hr, exceptOfOption,
          Bind.bind, Except.bind, Titles.getTitleE, hg]
        split
        · rfl
        · rfl
      rcases hv : (g (i + 1)).visible with _ | _
      · -- not visible: recurse one slot up
        have hDeq : downIters (fun j => (g j).visible) i (n + 1) =
            1 + downIters (fun j => (g j).visible) (i + 1) n := by
          show (if (g (i + 1)).visible then 1
            else 1 + downIters (fun j => (g j).visible) (i + 1) n) = _
          rw [hv]
          rfl
        rw [hrun1, if_neg (by rw [hv]; exact Bool.false_ne_true), hDeq]
        set s1 : Titles := { s with
          heap := s.heap.set (f (i + 1)) { g (i + 1) with orderNumber := i },
          titlesByOrderNumber := s.titlesByOrderNumber.set i (f (i + 1)) } with hs1
        have hread1 : ∀ j : Int, i + 1 < j → j ≤ i + 1 + n →
            s1.titlesByOrderNumber.lookup j = some (f j) := by
          intro j h1 h2
          have hproj : s1.titlesByOrderNumber =
              s.titlesByOrderNumber.set i (f (i + 1)) := rfl
          rw [hproj, Dict.lookup_set_ne _ _ _ _ (by omega)]
          exact hread j (by omega) (by push_cast; push_cast at h2; omega)
        have hget1 : ∀ j : Int, i + 1 < j → j ≤ i + 1 + n →
            s1.heap.lookup (f j) = some (g j) := by
          intro j h1 h2
          have hproj : s1.heap =
              s.heap.set (f (i + 1)) { g (i + 1) with orderNumber := i } := rfl
          have hjn : j ≤ i + (n + 1 : Nat) := by push_cast; push_cast at h2; omega
          rw [hproj, Dict.lookup_set_ne _ _ _ _ (by
            intro h
            have := hinj j (by omega) hjn (i + 1) (by omega) (by push_cast; omega) h
            omega)]
          exact hget j (by omega) hjn
        have hinj1 : ∀ j1 : Int, i + 1 < j1 → j1 ≤ i + 1 + n →
            ∀ j2 : Int, i + 1 < j2 → j2 ≤ i + 1 + n → f j1 = f j2 → j1 = j2 := by
          intro j1 h1 h2 j2 h3 h4 h
          exact hinj j1 (by omega) (by push_cast; push_cast at h2; omega)
            j2 (by omega) (by push_cast; push_cast at h4; omega) h
        obtain ⟨s', hrun, hT, hI, hTN, hshift, hunch, hslot, hslotu⟩ :=
          ih (i + 1) s1 hread1 hget1 hinj1
        have hD'le : (downIters (fun j => (g j).visible) (i + 1) n : Int) ≥ 0 := by
          positivity
        have hDn : downIters (fun j => (g j).visible) (i + 1) n ≤ n :=
          downIters_le _ n (i + 1)
        have hidx : i + ((1 + downIters (fun j => (g j).visible) (i + 1) n : Nat) : Int)
            - 1 = i + 1 + (downIters (fun j => (g j).visible) (i + 1) n : Int) - 1 := by
          push_cast
          ring
        rw [hidx]
        refine ⟨s', hrun, ?_, ?_, ?_, ?_, ?_, ?_, ?_⟩
        · rw [hT]
        · rw [hI]
        · rw [hTN]
        · intro j h1 h2
          push_cast at h2
          rcases eq_or_lt_of_le h1 with hje | hj1
          · -- j = i + 1
            have hje' : j = i + 1 := hje.symm
            subst hje'
            have hun : s'.heap.lookup (f (i + 1)) = s1.heap.lookup (f (i + 1)) := by
              apply hunch
              intro j2 h3 h4 heq
              have := hinj j2 (by omega) (by push_cast; push_cast at h4; omega)
                (i + 1) (by omega) (by push_cast; omega) heq
              omega
            rw [hun]
            have hproj : s1.heap =
                s.heap.set (f (i + 1)) { g (i + 1) with orderNumber := i } := rfl
            rw [hproj, Dict.lookup_set_self]
            have h5 : (i + 1 : Int) - 1 = i := by ring
            rw [h5]
          · exact hshift j hj1 (by push_cast; omega)
        · intro o ho
          have hun : s'.heap.lookup o = s1.heap.lookup o := by
            apply hunch
            intro j h3 h4
            exact ho j (by omega) (by push_cast; push_cast at h4; omega)
          rw [hun]
          have hproj : s1.heap =
              s.heap.set (f (i + 1)) { g (i + 1) with orderNumber := i } := rfl
          rw [hproj, Dict.lookup_set_ne _ _ _ _
            (Ne.symm (ho (i + 1) (by omega) (by push_cast; omega)))]
        · intro j h1 h2
          push_cast at h2
          rcases eq_or_lt_of_le h1 with hje | hj1
          · have hje' : j = i := hje.symm
            subst hje'
            have hun : s'.titlesByOrderNumber.lookup j =
                s1.titlesByOrderNumber.lookup j := by
              apply hslotu
              intro j2 h3 h4
              omega
            rw [hun]
            have hproj : s1.titlesByOrderNumber =
                s.titlesByOrderNumber.set j (f (j + 1)) := rfl
            rw [hproj, Dict.lookup_set_self]
          · exact hslot j (by omega) (by push_cast; omega)
        · intro z hz
          have hun : s'.titlesByOrderNumber.lookup z =
              s1.titlesByOrderNumber.lookup z := by
            apply hslotu
            intro j h3 h4
            exact hz j (by omega) (by push_cast; push_cast at h4; omega)
          rw [hun]
          have hproj : s1.titlesByOrderNumber =
              s.titlesByOrderNumber.set i (f (i + 1)) := rfl
          have hne := hz i (by omega) (by push_cast; omega)
          rw [hproj, Dict.lookup_set_ne _ _ _ _ (by omega)]
      · -- visible neighbour: the loop breaks immediately
        have hDeq : downIters (fun j => (g j).visible) i (n + 1) = 1 := by
          show (if (g (i + 1)).visible then 1
            else 1 + downIters (fun j => (g j).visible) (i + 1) n) = 1
          rw [hv]
          rfl
        rw [hrun1, if_pos hv, hDeq]
        have hidx : i + ((1 : Nat) : Int) - 1 = i := by push_cast; ring
        rw [hidx]
        refine ⟨_, rfl, rfl, rfl, rfl, ?_, ?_, ?_, ?_⟩
        · intro j h1 h2
          push_cast at h2
          have hje : j = i + 1 := by omega
          subst hje
          show (s.heap.set (f (i + 1)) { g (i + 1) with orderNumber := i }).lookup
            (f (i + 1)) = _
          rw [Dict.lookup_set_self]
          have h5 : (i + 1 : Int) - 1 = i := by ring
          rw [h5]
        · intro o ho
          show (s.heap.set (f (i + 1)) { g (i + 1) with orderNumber := i }).lookup o = _
          rw [Dict.lookup_set_ne _ _ _ _
            (Ne.symm (ho (i + 1) (by omega) (by push_cast; omega)))]
        · intro j h1 h2
          push_cast at h2
          have hje : j = i := by omega
          subst hje
          show (s.titlesByOrderNumber.set j (f (j + 1))).lookup j = _
          rw [Dict.lookup_set_self]
        · intro z hz
          show (s.titlesByOrderNumber.set i (f (i + 1))).lookup z = _
          have hne := hz i (by omega) (by push_cast; omega)
          rw [Dict.lookup_set_ne _ _ _ _ (by omega)]

theorem MoveDown_spec (s : Titles) (oid : Nat) (t : Title) (lastOid : Nat)
    (lastT : Title) (f : Int → Nat) (g : Int → Title)
    (hto : s.heap.lookup oid = some t)
    (hlast : s.titles.getLast? = some lastOid)
    (hlto : s.heap.lookup lastOid = some lastT)
    (hlt : t.orderNumber < lastT.orderNumber)
    (hread : ∀ j : Int, t.orderNumber < j → j ≤ lastT.orderNumber →
      s.titlesByOrderNumber.lookup j = some (f j))
    (hget : ∀ j : Int, t.orderNumber < j → j ≤ lastT.orderNumber →
      s.heap.lookup (f j) = some (g j))
    (hinj : ∀ j1 : Int, t.orderNumber < j1 → j1 ≤ lastT.orderNumber →
      ∀ j2 : Int, t.orderNumber < j2 → j2 ≤ lastT.orderNumber →
      f j1 = f j2 → j1 = j2)
    (hfoid : ∀ j : Int, t.orderNumber < j → j ≤ lastT.orderNumber → f j ≠ oid) :
    ∃ s', Titles.MoveDown s oid = Except.ok s' ∧
      s'.titles = s.titles ∧
      s'.titlesById = s.titlesById ∧
      s'.titlesByTitleNumber = s.titlesByTitleNumber ∧
      s'.heap.lookup oid = some { t with orderNumber := t.orderNumber +
        (downIters (fun j => (g j).visible) t.orderNumber
          (lastT.orderNumber - t.orderNumber).toNat : Int) } ∧
      (∀ j : Int, t.orderNumber < j → j ≤ t.orderNumber +
          (downIters (fun j => (g j).visible) t.orderNumber
            (lastT.orderNumber - t.orderNumber).toNat : Int) →
        s'.heap.lookup (f j) = some { g j with orderNumber := j - 1 }) ∧
      (∀ o : Nat, o ≠ oid →
        (∀ j : Int, t.orderNumber < j → j ≤ t.orderNumber +
            (downIters (fun j => (g j).visible) t.orderNumber
              (lastT.orderNumber - t.orderNumber).toNat : Int) → f j ≠ o) →
        s'.heap.lookup o = s.heap.lookup o) ∧
      s'.titlesByOrderNumber.lookup (t.orderNumber +
        (downIters (fun j => (g j).visible) t.orderNumber
          (lastT.orderNumber - t.orderNumber).toNat : Int)) = some oid ∧
      (∀ j : Int, t.orderNumber ≤ j → j < t.orderNumber +
          (downIters (fun j => (g j).visible) t.orderNumber
            (lastT.orderNumber - t.orderNumber).toNat : Int) →
        s'.titlesByOrderNumber.lookup j = some (f (j + 1))) ∧
      (∀ z : Int, z ≠ t.orderNumber +
          (downIters (fun j => (g j).visible) t.orderNumber
            (lastT.orderNumber - t.orderNumber).toNat : Int) →
        (∀ j : Int, t.orderNumber ≤ j → j < t.orderNumber +
            (downIters (fun j => (g j).visible) t.orderNumber
              (lastT.orderNumber - t.orderNumber).toNat : Int) → j ≠ z) →
        s'.titlesByOrderNumber.lookup z = s.titlesByOrderNumber.lookup z) := by
  have hn : (((lastT.orderNumber - t.orderNumber).toNat : Nat) : Int) =
      lastT.orderNumber - t.orderNumber := by omega
  have hreadL : ∀ j : Int, t.orderNumber < j →
      j ≤ t.orderNumber + ((lastT.orderNumber - t.orderNumber).toNat : Int) →
      s.titlesByOrderNumber.lookup j = some (f j) := by
    intro j h1 h2
    rw [hn] at h2
    exact hread j h1 (by omega)
  have hgetL : ∀ j : Int, t.orderNumber < j →
      j ≤ t.orderNumber + ((lastT.orderNumber - t.orderNumber).toNat : Int) →
      s.heap.lookup (f j) = some (g j) := by
    intro j h1 h2
    rw [hn] at h2
    exact hget j h1 (by omega)
  have hinjL : ∀ j1 : Int, t.orderNumber < j1 →
      j1 ≤ t.orderNumber + ((lastT.orderNumber - t.orderNumber).toNat : Int) →
      ∀ j2 : Int, t.orderNumber < j2 →
      j2 ≤ t.orderNumber + ((lastT.orderNumber - t.orderNumber).toNat : Int) →
      f j1 = f j2 → j1 = j2 := by
    intro j1 h1 h2 j2 h3 h4
    rw [hn] at h2 h4
    exact hinj j1 h1 (by omega) j2 h3 (by omega)
  obtain ⟨s1, hrun, hT, hI, hTN, hshift, hunch, hslot, hslotu⟩ :=
    MoveDownLoop_spec f g (lastT.orderNumber - t.orderNumber).toNat t.orderNumber
      s hreadL hgetL hinjL
  have hDle : downIters (fun j => (g j).visible) t.orderNumber
      (lastT.orderNumber - t.orderNumber).toNat ≤
      (lastT.orderNumber - t.orderNumber).toNat :=
    downIters_le _ _ _
  have huid : s1.heap.lookup oid = s.heap.lookup oid := by
    apply hunch
    intro j h1 h2
    exact hfoid j h1 (by omega)
  have hidx : t.orderNumber + (downIters (fun j => (g j).visible) t.orderNumber
      (lastT.orderNumber - t.orderNumber).toNat : Int) - 1 + 1 =
      t.orderNumber + (downIters (fun j => (g j).visible) t.orderNumber
        (lastT.orderNumber - t.orderNumber).toNat : Int) := by
    ring
  have hstep : Titles.MoveDown s oid = Except.ok { s1 with
      heap := s1.heap.set oid { t with orderNumber := t.orderNumber +
        (downIters (fun j => (g j).visible) t.orderNumber
          (lastT.orderNumber - t.orderNumber).toNat : Int) },
      titlesByOrderNumber := s1.titlesByOrderNumber.set (t.orderNumber +
        (downIters (fun j => (g j).visible) t.orderNumber
          (lastT.orderNumber - t.orderNumber).toNat : Int)) oid } := by
    unfold Titles.MoveDown
    simp only [Titles.getTitleE, hto, hlast, hlto, exceptOfOption, Bind.bind,
      Except.bind]
    rw [if_neg (by omega), if_neg (by omega), hrun]
    simp only [Except.bind, huid, hto, exceptOfOption, pure, Except.pure, hidx]
  refine ⟨_, hstep, hT, hI, hTN, ?_, ?_, ?_, ?_, ?_, ?_⟩
  · show (s1.heap.set oid _).lookup oid = _
    rw [Dict.lookup_set_self]
  · intro j h1 h2
    show (s1.heap.set oid _).lookup (f j) = _
    rw [Dict.lookup_set_ne _ _ _ _ (hfoid j h1 (by omega))]
    exact hshift j h1 h2
  · intro o hne ho
    show (s1.heap.set oid _).lookup o = _
    rw [Dict.lookup_set_ne _ _ _ _ hne]
    exact hunch o ho
  · show (s1.titlesByOrderNumber.set _ oid).lookup _ = _
    rw [Dict.lookup_set_self]
  · intro j h1 h2
    show (s1.titlesByOrderNumber.set _ oid).lookup j = _
    rw [Dict.lookup_set_ne _ _ _ _ (by omega)]
    exact hslot j h1 h2
  · intro z hne hz
    show (s1.titlesByOrderNumber.set _ oid).lookup z = _
    rw [Dict.lookup_set_ne _ _ _ _ hne]
    exact hslotu z hz

theorem MoveUp_noop (s : Titles) (oid : Nat) (t : Title)
    (hto : s.heap.lookup oid = some t) (h0 : t.orderNumber = 0) :
    Titles.MoveUp s oid = Except.ok s := by
  unfold Titles.MoveUp
  simp only [Titles.getTitleE, hto, exceptOfOption, Bind.bind, Except.bind, h0]
  rfl

theorem MoveDown_noop (s : Titles) (oid : Nat) (t : Title) (lastOid : Nat)
    (lastT : Title)
    (hto : s.heap.lookup oid = some t)
    (hlast : s.titles.getLast? = some lastOid)
    (hlto : s.heap.lookup lastOid = some lastT)
    (heq : t.orderNumber = lastT.orderNumber) :
    Titles.MoveDown s oid = Except.ok s := by
  unfold Titles.MoveDown
  simp only [Titles.getTitleE, hto, hlast, hlto, exceptOfOption, Bind.bind,
    Except.bind]
  rw [if_pos heq]
  rfl

theorem MoveDown_nameError (s : Titles) (oid : Nat) (t : Title) (lastOid : Nat)
    (lastT : Title)
    (hto : s.heap.lookup oid = some t)
    (hlast : s.titles.getLast? = some lastOid)
    (hlto : s.heap.lookup lastOid = some lastT)
    (hgt : lastT.orderNumber < t.orderNumber) :
    Titles.MoveDown s oid = Except.error "NameError: name i is not defined" := by
  unfold Titles.MoveDown
  simp only [Titles.getTitleE, hto, hlast, hlto, exceptOfOption, Bind.bind,
    Except.bind]
  rw [if_neg (by omega), if_pos hgt]

end MoveLemmas

/-- C8 counterexample: in `c8State`, title 2 sits at order number 0 and
title 1 at order number 1, so title 2 is *not* at the last order position —
yet `MoveDown` on it is a silent no-op, because the guard compares with the
order number of the backing sequence's last element (title 2 itself), not
with the greatest order number. -/
theorem C8_boundary_counterexample :
    Titles.MoveUp moveTitles 2 = Except.ok c8State ∧
    (c8State.heap.lookup 2).map Title.orderNumber = some 0 ∧
    (c8State.heap.lookup 1).map Title.orderNumber = some 1 ∧
    c8State.titles.getLast? = some 2 ∧
    Titles.MoveDown c8State 2 = Except.ok c8State :=
  ⟨by decide, by decide, by decide, by decide, by decide⟩


/-- C8: `MoveUp` on a title with order number 0 is a silent no-op, and
`MoveDown` is a silent no-op exactly when the title's order number equals
that of the *backing sequence's last element* (not the greatest order
number); when the title's order number exceeds that of the backing
sequence's last element — a state reachable by reordering — `MoveDown`
raises a `NameError` from the unbound loop variable instead of moving.
In the remaining cases the moved title lands in the slot of the nearest
visible neighbour (or the far end when no neighbour is visible), each
passed-over neighbour shifts one slot toward the title's old position with
its order-number index entry rewritten, and all other titles and index
entries are untouched. -/
theorem C8_move_semantics :
    (∀ (s : Titles) (oid : Nat) (t : Title),
      s.heap.lookup oid = some t → t.orderNumber = 0 →
      Titles.MoveUp s oid = Except.ok s) ∧
    (∀ (s : Titles) (oid : Nat) (t : Title) (lastOid : Nat) (lastT : Title),
      s.heap.lookup oid = some t → s.titles.getLast? = some lastOid →
      s.heap.lookup lastOid = some lastT → t.orderNumber = lastT.orderNumber →
      Titles.MoveDown s oid = Except.ok s) ∧
    (∀ (s : Titles) (oid : Nat) (t : Title) (lastOid : Nat) (lastT : Title),
      s.heap.lookup oid = some t → s.titles.getLast? = some lastOid →
      s.heap.lookup lastOid = some lastT → lastT.orderNumber < t.orderNumber →
      Titles.MoveDown s oid = Except.error "NameError: name i is not defined") ∧
    (∀ (s : Titles) (oid : Nat) (t : Title) (ord : Nat)
      (f : Nat → Nat) (g : Nat → Title),
      s.heap.lookup oid = some t → t.orderNumber = (ord : Int) → 0 < ord →
      (∀ k, k < ord → s.titlesByOrderNumber.lookup (k : Int) = some (f k)) →
      (∀ k, k < ord → s.heap.lookup (f k) = some (g k)) →
      (∀ k1, k1 < ord → ∀ k2, k2 < ord → f k1 = f k2 → k1 = k2) →
      (∀ k, k < ord → f k ≠ oid) →
      ∃ s', Titles.MoveUp s oid = Except.ok s' ∧
        s'.titles = s.titles ∧
        s'.titlesById = s.titlesById ∧
        s'.titlesByTitleNumber = s.titlesByTitleNumber ∧
        s'.heap.lookup oid =
          some { t with orderNumber := (upBreak (fun k => (g k).visible) ord : Int) } ∧
        (∀ k, upBreak (fun k => (g k).visible) ord ≤ k → k < ord →
          s'.heap.lookup (f k) = some { g k with orderNumber := (k : Int) + 1 }) ∧
        (∀ o : Nat, o ≠ oid →
          (∀ k, upBreak (fun k => (g k).visible) ord ≤ k → k < ord → f k ≠ o) →
          s'.heap.lookup o = s.heap.lookup o) ∧
        s'.titlesByOrderNumber.lookup
          ((upBreak (fun k => (g k).visible) ord : Nat) : Int) = some oid ∧
        (∀ j : Nat, upBreak (fun k => (g k).visible) ord < j → j ≤ ord →
          s'.titlesByOrderNumber.lookup (j : Int) = some (f (j - 1))) ∧
        (∀ z : Int, z ≠ ((upBreak (fun k => (g k).visible) ord : Nat) : Int) →
          (∀ j : Nat, upBreak (fun k => (g k).visible) ord < j → j ≤ ord →
            (j : Int) ≠ z) →
          s'.titlesByOrderNumber.lookup z = s.titlesByOrderNumber.lookup z)) ∧
    (∀ (s : Titles) (oid : Nat) (t : Title) (lastOid : Nat) (lastT : Title)
      (f : Int → Nat) (g : Int → Title),
      s.heap.lookup oid = some t → s.titles.getLast? = some lastOid →
      s.heap.lookup lastOid = some lastT → t.orderNumber < lastT.orderNumber →
      (∀ j : Int, t.orderNumber < j → j ≤ lastT.orderNumber →
        s.titlesByOrderNumber.lookup j = some (f j)) →
      (∀ j : Int, t.orderNumber < j → j ≤ lastT.orderNumber →
        s.heap.lookup (f j) = some (g j)) →
      (∀ j1 : Int, t.orderNumber < j1 → j1 ≤ lastT.orderNumber →
        ∀ j2 : Int, t.orderNumber < j2 → j2 ≤ lastT.orderNumber →
        f j1 = f j2 → j1 = j2) →
      (∀ j : Int, t.orderNumber < j → j ≤ lastT.orderNumber → f j ≠ oid) →
      ∃ s', Titles.MoveDown s oid = Except.ok s' ∧
        s'.titles = s.titles ∧
        s'.titlesById = s.titlesById ∧
        s'.titlesByTitleNumber = s.titlesByTitleNumber ∧
        s'.heap.lookup oid = some { t with orderNumber := t.orderNumber +
          (downIters (fun j => (g j).visible) t.orderNumber
            (lastT.orderNumber - t.orderNumber).toNat : Int) } ∧
        (∀ j : Int, t.orderNumber < j → j ≤ t.orderNumber +
            (downIters (fun j => (g j).visible) t.orderNumber
              (lastT.orderNumber - t.orderNumber).toNat : Int) →
          s'.heap.lookup (f j) = some { g j with orderNumber := j - 1 }) ∧
        (∀ o : Nat, o ≠ oid →
          (∀ j : Int, t.orderNumber < j → j ≤ t.orderNumber +
              (downIters (fun j => (g j).visible) t.orderNumber
                (lastT.orderNumber - t.orderNumber).toNat : Int) → f j ≠ o) →
          s'.heap.lookup o = s.heap.lookup o) ∧
        s'.titlesByOrderNumber.lookup (t.orderNumber +
          (downIters (fun j => (g j).visible) t.orderNumber
            (lastT.orderNumber - t.orderNumber).toNat : Int)) = some oid ∧
        (∀ j : Int, t.orderNumber ≤ j → j < t.orderNumber +
            (downIters (fun j => (g j).visible) t.orderNumber
              (lastT.orderNumber - t.orderNumber).toNat : Int) →
          s'.titlesByOrderNumber.lookup j = some (f (j + 1))) ∧
        (∀ z : Int, z ≠ t.orderNumber +
            (downIters (fun j => (g j).visible) t.orderNumber
              (lastT.orderNumber - t.orderNumber).toNat : Int) →
          (∀ j : Int, t.orderNumber ≤ j → j < t.orderNumber +
              (downIters (fun j => (g j).visible) t.orderNumber
                (lastT.orderNumber - t.orderNumber).toNat : Int) → j ≠ z) →
          s'.titlesByOrderNumber.lookup z = s.titlesByOrderNumber.lookup z)) :=
  ⟨fun s oid t hto h0 => MoveUp_noop s oid t hto h0,
   fun s oid t lastOid lastT hto hlast hlto heq =>
     MoveDown_noop s oid t lastOid lastT hto hlast hlto heq,
   fun s oid t lastOid lastT hto hlast hlto hgt =>
     MoveDown_nameError s oid t lastOid lastT hto hlast hlto hgt,
   fun s oid t ord f g hto hord hpos hread hget hinj hfoid =>
     MoveUp_spec s oid t ord f g hto hord hpos hread hget hinj hfoid,
   fun s oid t lastOid lastT f g hto hlast hlto hlt hread hget hinj hfoid =>
     MoveDown_spec s oid t lastOid lastT f g hto hlast hlto hlt hread hget
       hinj hfoid⟩

/-- Witness for `C8_move_semantics`: on the two-title collection, title 1
(order 0) cannot move up and title 2 (backing-sequence last) cannot move
down; in the reordered collection `c8State` title 1 (order 1, above the
backing-sequence last's order 0) makes `MoveDown` raise the unbound-variable
error; moving title 2 up swaps it above the visible title 1, and moving
title 1 down swaps it below the visible title 2, updating heap and
order-number index on both sides. -/
theorem C8_move_semantics_witness :
    Titles.MoveUp moveTitles 1 = Except.ok moveTitles ∧
    Titles.MoveDown moveTitles 2 = Except.ok moveTitles ∧
    Titles.MoveDown c8State 1 =
      Except.error "NameError: name i is not defined" ∧
    (∃ s', Titles.MoveUp moveTitles 2 = Except.ok s' ∧
      s'.heap.lookup 2 =
        some { mkTitle 2 2 1 "00:00:10" false true with orderNumber := 0 } ∧
      s'.heap.lookup 1 =
        some { mkTitle 1 1 0 "00:00:10" false true with orderNumber := 1 } ∧
      s'.titlesByOrderNumber.lookup 0 = some 2 ∧
      s'.titlesByOrderNumber.lookup 1 = some 1) ∧
    (∃ s', Titles.MoveDown moveTitles 1 = Except.ok s' ∧
      s'.heap.lookup 1 =
        some { mkTitle 1 1 0 "00:00:10" false true with orderNumber := 1 } ∧
      s'.heap.lookup 2 =
        some { mkTitle 2 2 1 "00:00:10" false true with orderNumber := 0 } ∧
      s'.titlesByOrderNumber.lookup 1 = some 1 ∧
      s'.titlesByOrderNumber.lookup 0 = some 2) := by
  refine ⟨?_, ?_, ?_, ?_, ?_⟩
  · exact C8_move_semantics.1 moveTitles 1 (mkTitle 1 1 0 "00:00:10" false true)
      (by decide) (by decide)
  · exact C8_move_semantics.2.1 moveTitles 2 (mkTitle 2 2 1 "00:00:10" false true)
      2 (mkTitle 2 2 1 "00:00:10" false true) (by decide) (by decide) (by decide)
      (by decide)
  · exact C8_move_semantics.2.2.1 c8State 1
      { mkTitle 1 1 0 "00:00:10" false true with orderNumber := 1 } 2
      { mkTitle 2 2 1 "00:00:10" false true with orderNumber := 0 }
      (by decide) (by decide) (by decide) (by decide)
  · obtain ⟨s', hrun, hT, hI, hTN, hoid, hshift, hunch, hslotM, hslot, hslotu⟩ :=
      C8_move_semantics.2.2.2.1 moveTitles 2 (mkTitle 2 2 1 "00:00:10" false true)
        1 (fun k => 1) (fun k => mkTitle 1 1 0 "00:00:10" false true)
        (by decide) (by decide) (by decide)
        (by
          intro k hk
          have hk0 : k = 0 := by omega
          subst hk0
          decide)
        (by
          intro k hk
          have hk0 : k = 0 := by omega
          subst hk0
          decide)
        (by
          intro k1 h1 k2 h2 _
          omega)
        (by
          intro k hk
          show (1 : Nat) ≠ 2
          decide)
    exact ⟨s', hrun, hoid, hshift 0 (by decide) (by decide), hslotM,
      hslot 1 (by decide) (by decide)⟩
  · obtain ⟨s', hrun, hT, hI, hTN, hoid, hshift, hunch, hslotM, hslot, hslotu⟩ :=
      C8_move_semantics.2.2.2.2 moveTitles 1 (mkTitle 1 1 0 "00:00:10" false true)
        2 (mkTitle 2 2 1 "00:00:10" false true)
        (fun j => 2) (fun j => mkTitle 2 2 1 "00:00:10" false true)
        (by decide) (by decide) (by decide) (by decide)
        (by
          intro j h1 h2
          have e1 : (mkTitle 1 1 0 "00:00:10" false true).orderNumber = 0 := rfl
          have e2 : (mkTitle 2 2 1 "00:00:10" false true).orderNumber = 1 := rfl
          rw [e1] at h1
          rw [e2] at h2
          have hj1 : j = 1 := by omega
          subst hj1
          decide)
        (by
          intro j h1 h2
          have e1 : (mkTitle 1 1 0 "00:00:10" false true).orderNumber = 0 := rfl
          have e2 : (mkTitle 2 2 1 "00:00:10" false true).orderNumber = 1 := rfl
          rw [e1] at h1
          rw [e2] at h2
          have hj1 : j = 1 := by omega
          subst hj1
          decide)
        (by
          intro j1 h1 h2 j2 h3 h4 _
          have e1 : (mkTitle 1 1 0 "00:00:10" false true).orderNumber = 0 := rfl
          have e2 : (mkTitle 2 2 1 "00:00:10" false true).orderNumber = 1 := rfl
          rw [e1] at h1 h3
          rw [e2] at h2 h4
          omega)
        (by
          intro j h1 h2
          show (2 : Nat) ≠ 1
          decide)
    exact ⟨s', hrun, hoid, hshift 1 (by decide) (by decide), hslotM,
      hslot 0 (by decide) (by decide)⟩
